import Mathlib

/-!
# Path planner: a shallow embedding of `utils.h`, `lane.h`, `roadmap.h`, `planner.h`

Conventions of the embedding.

* A C++ `double` is an exact rational (`ℚ`): comparisons, `+ - * /`, `fmin`, `fmax`, `fabs`
  and `floor` are the exact operations.  There is no NaN and no rounding.
* An `int` is an `Int`; where the source mixes `int` with the 64-bit unsigned `size_t` the
  conversion is written out (`to_size_t`, `to_int`).
* `std::vector::operator[]` outside `[0, size)` is undefined behaviour; the embedding returns
  `Fault.out_of_range` there.  A loop is run with fuel and returns `Fault.no_fuel` when the
  fuel is used up.
* Functions the source calls but does not define (`<cmath>`, `std::sort`, `tk::spline`) are
  the fields of `Extern`, an explicit argument.
-/

namespace carnd

/-- Ways in which a run of the embedded code stops without a result. -/
inductive Fault where
  | out_of_range
  | no_fuel
deriving DecidableEq, Repr

/-- Library functions used by the source: `sqrt`, `cos`, `sin`, `atan2`, `M_PI` of `<cmath>`,
`std::sort` (comparator, range) and `tk::spline` (`set_points` followed by `operator()`). -/
structure Extern where
  sqrt : ℚ → ℚ
  cos : ℚ → ℚ
  sin : ℚ → ℚ
  atan2 : ℚ → ℚ → ℚ
  M_PI : ℚ
  sort : (Int → Int → Bool) → List Int → List Int
  spline : List ℚ → List ℚ → ℚ → ℚ

/-- Conversion of an integer value to the 64-bit unsigned `size_t`. -/
def to_size_t (z : Int) : Int := z % 2 ^ 64

/-- Conversion of an integer value to the 32-bit signed `int`. -/
def to_int (z : Int) : Int := (z + 2 ^ 31) % 2 ^ 32 - 2 ^ 31

/-- Conversion of a `double` to an integer type: truncation toward zero. -/
def trunc (x : ℚ) : Int := if 0 ≤ x then ⌊x⌋ else ⌈x⌉

/-- The element `v[i]` of a vector for an `int` index `i`.  A negative `i` converts to an
unsigned index beyond every vector. -/
def vec_at {α : Type} (v : List α) (i : Int) : Except Fault α :=
  if 0 ≤ i then
    match v.get? i.toNat with
    | some a => .ok a
    | none => .error Fault.out_of_range
  else .error Fault.out_of_range

/-- The vector `v` after the assignment `v[i] = a`. -/
def vec_set {α : Type} (v : List α) (i : Int) (a : α) : Except Fault (List α) :=
  if 0 ≤ i ∧ i.toNat < v.length then .ok (v.set i.toNat a) else .error Fault.out_of_range

deriving instance DecidableEq for Except

/-! ## utils.h -/

def MPH2MPS : ℚ := 44704 / 100000

def mph2mps (x : ℚ) : ℚ := x * MPH2MPS

def mps2mph (x : ℚ) : ℚ := x / MPH2MPS

def norm (e : Extern) (x y : ℚ) : ℚ := e.sqrt (x * x + y * y)

def distance (e : Extern) (x1 y1 x2 y2 : ℚ) : ℚ := norm e (x2 - x1) (y2 - y1)

/-- The value `numeric_limits<double>::max()`. -/
def DBL_MAX : ℚ := (2 ^ 53 - 1) * 2 ^ 971

/-! ## lane.h -/

structure Lane where
  lane_count : Int := 3
  lane_width : ℚ := 4
  speed_limit_mph : ℚ := 50
  road_width : ℚ := lane_width * lane_count
deriving DecidableEq

namespace Lane

def lane_center (l : Lane) (lane : Int) : ℚ := (1 / 2 + (lane : ℚ)) * l.lane_width

def safe_lane_center (l : Lane) (lane : Int) : ℚ :=
  let center := l.lane_center lane
  if lane = 0 then center + 0
  else if lane = l.lane_count - 1 then center - 0
  else center

def lane_at (l : Lane) (d : ℚ) : Int :=
  if d < 0 then -1
  else if d > l.road_width then -2
  else ⌊d / l.lane_width⌋

def distance_to_lane (l : Lane) (d : ℚ) (lane : Int) : ℚ := l.lane_center lane - d

end Lane

/-! ## roadmap.h -/

structure xy_t where
  x : ℚ
  y : ℚ
deriving DecidableEq

structure sd_t where
  s : ℚ
  d : ℚ
deriving DecidableEq

structure waypoint_t where
  x : ℚ
  y : ℚ
  s : ℚ
  dx : ℚ
  dy : ℚ
deriving DecidableEq

structure waypoints_list where
  x : List ℚ := []
  y : List ℚ := []
  s : List ℚ := []
  dx : List ℚ := []
  dy : List ℚ := []
deriving DecidableEq

namespace waypoints_list

def size (w : waypoints_list) : Int := w.x.length

/-- The record `waypoints[i]`: `operator[]` reads the five vectors at `i`. -/
def get (w : waypoints_list) (i : Int) : Except Fault waypoint_t := do
  let x ← vec_at w.x i
  let y ← vec_at w.y i
  let s ← vec_at w.s i
  let dx ← vec_at w.dx i
  let dy ← vec_at w.dy i
  pure ⟨x, y, s, dx, dy⟩

def push_back (w : waypoints_list) (p : waypoint_t) : waypoints_list :=
  ⟨w.x ++ [p.x], w.y ++ [p.y], w.s ++ [p.s], w.dx ++ [p.dx], w.dy ++ [p.dy]⟩

/-- The five vectors of the table have the same length, as after `load`. -/
def well_formed (w : waypoints_list) : Prop :=
  w.y.length = w.x.length ∧ w.s.length = w.x.length ∧ w.dx.length = w.x.length ∧
    w.dy.length = w.x.length

end waypoints_list

structure RoadMap where
  max_s : ℚ := 6945554 / 1000
  waypoints : waypoints_list := {}
deriving DecidableEq

namespace RoadMap

/-- The body of `load`, on the records read from the file, in file order. -/
def load (r : RoadMap) (records : List waypoint_t) : Except Fault RoadMap := do
  let w := records.foldl waypoints_list.push_back {}
  let x0 ← vec_at w.x 0
  let y0 ← vec_at w.y 0
  let dx0 ← vec_at w.dx 0
  let dy0 ← vec_at w.dy 0
  pure { r with waypoints := w.push_back ⟨x0, y0, r.max_s, dx0, dy0⟩ }

/-- The loop of `closet_waypoint`, over the indices `i, i + 1, ...` of `xs`, `ys`. -/
def closet_loop (e : Extern) (x y : ℚ) : List ℚ → List ℚ → Int → ℚ → Int → Except Fault Int
  | [], _, _, _, closest => .ok closest
  | _ :: _, [], _, _, _ => .error Fault.out_of_range
  | wx :: xs, wy :: ys, i, closest_dist, closest =>
    let dist := distance e x y wx wy
    if dist < closest_dist then closet_loop e x y xs ys (i + 1) dist i
    else closet_loop e x y xs ys (i + 1) closest_dist closest

def closet_waypoint (e : Extern) (r : RoadMap) (x y : ℚ) : Except Fault Int :=
  closet_loop e x y r.waypoints.x r.waypoints.y 0 DBL_MAX 0

def next_waypoint (e : Extern) (r : RoadMap) (x y theta : ℚ) : Except Fault Int := do
  let next ← closet_waypoint e r x y
  let nx ← vec_at r.waypoints.x next
  let ny ← vec_at r.waypoints.y next
  let heading := e.atan2 (ny - y) (nx - x)
  let angle := |theta - heading|
  let angle := min (2 * e.M_PI - angle) angle
  if angle > e.M_PI / 4 then
    pure (to_int (to_size_t (next + 1) % to_size_t r.waypoints.size))
  else pure next

/-- The arithmetic of `to_frenet` once the two waypoints are read: projection on the segment
from `prev_waypoint` to `next_waypoint`, sign of `d` by the distance to the point
`(1000, 2000)`, and `s` along the segment. -/
def frenet_on_segment (e : Extern) (prev_waypoint next_waypoint : waypoint_t) (x y : ℚ) : sd_t :=
  let n_x := next_waypoint.x - prev_waypoint.x
  let n_y := next_waypoint.y - prev_waypoint.y
  let x_x := x - prev_waypoint.x
  let x_y := y - prev_waypoint.y
  let proj_norm := (x_x * n_x + x_y * n_y) / (n_x * n_x + n_y * n_y)
  let proj_x := proj_norm * n_x
  let proj_y := proj_norm * n_y
  let frenet_d := distance e x_x x_y proj_x proj_y
  let center_x := 1000 - prev_waypoint.x
  let center_y := 2000 - prev_waypoint.y
  let centerToPos := distance e center_x center_y x_x x_y
  let centerToRef := distance e center_x center_y proj_x proj_y
  let frenet_d := if centerToPos ≤ centerToRef then frenet_d * -1 else frenet_d
  let frenet_s := prev_waypoint.s + distance e 0 0 proj_x proj_y
  ⟨frenet_s, frenet_d⟩

def to_frenet (e : Extern) (r : RoadMap) (x y theta : ℚ) : Except Fault sd_t := do
  let next ← next_waypoint e r x y theta
  let prev := to_int (to_size_t (next - 1) % to_size_t r.waypoints.size)
  let next_waypoint ← r.waypoints.get next
  let prev_waypoint ← r.waypoints.get prev
  pure (frenet_on_segment e prev_waypoint next_waypoint x y)

/-- The segment scan of `to_xy`: the `while` loop over `prev_wp`. -/
def scan (w : waypoints_list) (s : ℚ) : Nat → Int → Except Fault Int
  | 0, _ => .error Fault.no_fuel
  | fuel + 1, prev_wp => do
    let wp ← w.get (prev_wp + 1)
    if s > wp.s ∧ prev_wp < to_int (to_size_t (w.size - 1)) then scan w s fuel (prev_wp + 1)
    else pure prev_wp

/-- The arithmetic of `to_xy` once the two waypoints are read: `a` is `waypoints[wp2]` and
`b` is `waypoints[prev_wp]`. -/
def xy_on_segment (e : Extern) (a b : waypoint_t) (s d : ℚ) : xy_t :=
  let heading := e.atan2 (a.y - b.y) (a.x - b.x)
  let seg_s := s - b.s
  let seg_x := b.x + seg_s * e.cos heading
  let seg_y := b.y + seg_s * e.sin heading
  let perp_heading := heading - e.M_PI / 2
  let x := seg_x + d * e.cos perp_heading
  let y := seg_y + d * e.sin perp_heading
  ⟨x, y⟩

def to_xy (e : Extern) (fuel : Nat) (r : RoadMap) (s d : ℚ) : Except Fault xy_t := do
  let prev_wp ← scan r.waypoints s fuel (-1)
  let wp2 := to_int (to_size_t (prev_wp + 1) % to_size_t r.waypoints.size)
  let a ← r.waypoints.get wp2
  let b ← r.waypoints.get prev_wp
  pure (xy_on_segment e a b s d)

end RoadMap

/-! ## planner.h: data -/

structure car_t where
  id : Int
  x : ℚ
  y : ℚ
  vx : ℚ
  vy : ℚ
  s : ℚ
  d : ℚ
deriving DecidableEq

structure path_t where
  x : List ℚ := []
  y : List ℚ := []
deriving DecidableEq

namespace path_t

def size (p : path_t) : Int := p.x.length

def append (p : path_t) (x_ y_ : ℚ) : path_t := ⟨p.x ++ [x_], p.y ++ [y_]⟩

/-- The overload `append(const xy_t xy)`. -/
def append_xy (p : path_t) (xy : xy_t) : path_t := ⟨p.x ++ [xy.x], p.y ++ [xy.y]⟩

end path_t

structure ego_t where
  x : ℚ
  y : ℚ
  s : ℚ
  d : ℚ
  yaw : ℚ
  v : ℚ
  previous_path : path_t
  end_path : sd_t
  cars : List car_t
deriving DecidableEq

structure lane_info_t where
  front_car : Int := -1
  back_car : Int := -1
  front_gap : ℚ := 1000
  front_speed : ℚ := 1000
  front_gap_next : ℚ := 1000
  back_gap : ℚ := -1000
  back_speed : ℚ := -1000
  back_gap_next : ℚ := -1000
  feasible : Bool := true
deriving DecidableEq

def lane_info_t.is_clear (l : lane_info_t) : Bool := l.feasible && decide (l.front_car < 0)

inductive STATE where
  | START
  | KEEPLANE
  | PRELANECHANGE
  | LANECHANGE
deriving DecidableEq, Repr

/-- The fields of `PathPlanner`.  Those the source declares without an initialiser have no
default here either. -/
structure PathPlanner where
  roadmap : RoadMap := {}
  lane : Lane := {}
  lane_info : List lane_info_t := []
  accel : ℚ := 1 / 10
  emergy_accel : ℚ := 2 / 10
  warning_collision : Bool := false
  n_path_points : Int := 50
  ref_x : ℚ
  ref_y : ℚ
  ref_x_prev : ℚ
  ref_y_prev : ℚ
  ref_s : ℚ
  ref_d : ℚ
  ref_yaw : ℚ
  ref_v : ℚ
  ref_lane : Int
  ref_points : Int
  ego_laps : Nat := 0
  ego_laps_tick : Nat := 0
  ego_passed_zero_s : Bool := false
  ego_start_position : sd_t
  lane_horizon : ℚ := 50
  lane_change_front_buffer : ℚ := 10
  lane_change_back_buffer : ℚ := -10
  lane_emergy_front_buffer : ℚ := 5
  changing_lane : Int := -1
  target_lane : Int := 1
  target_speed : ℚ := 0
  state_ : STATE := STATE.START
  state_s_ : ℚ
deriving DecidableEq

namespace PathPlanner

/-! ## planner.h: operations -/

def set_state (p : PathPlanner) (new_state : STATE) : PathPlanner :=
  if p.state_ ≠ new_state then { p with state_ := new_state, state_s_ := p.ref_s } else p

/-- The velocity allowance of a lane in `get_best_lane`; `none` is `INF`. -/
def lane_velocity (p : PathPlanner) (l : lane_info_t) : Option ℚ :=
  if l.front_gap ≥ p.lane_horizon then none
  else if l.back_gap > p.lane_change_back_buffer then some l.back_speed
  else some l.front_speed

/-- The comparison passed to `sort` in `get_best_lane`.  It is only called on indices of
`lane_info`, see the guard in `get_best_lane`. -/
def lane_before (p : PathPlanner) (i j : Int) : Bool :=
  let lane_i := (p.lane_info.get? i.toNat).getD {}
  let lane_j := (p.lane_info.get? j.toNat).getD {}
  let i_closest_to_ref_lane := decide (|i - p.ref_lane| ≤ |j - p.ref_lane|)
  if lane_i.is_clear then
    if lane_j.is_clear then i_closest_to_ref_lane else true
  else if lane_j.is_clear then false
  else
    match p.lane_velocity lane_i, p.lane_velocity lane_j with
    | none, none => decide (lane_i.front_gap ≥ lane_j.front_gap)
    | none, some _ => true
    | some _, none => false
    | some i_v, some j_v =>
      if |i_v - j_v| < 1 / 2 then decide (lane_i.front_gap ≥ lane_j.front_gap)
      else decide (i_v > j_v)

def get_best_lane (e : Extern) (p : PathPlanner) : Except Fault Int := do
  let tl ← vec_at p.lane_info p.target_lane
  if tl.is_clear then pure p.target_lane
  else
    let lanes : List Int := (List.range p.lane.lane_count.toNat).map Int.ofNat
    -- with two or more lanes the comparison reads `lane_info` at every lane index
    if 2 ≤ p.lane.lane_count ∧ (p.lane_info.length : Int) < p.lane.lane_count then
      .error Fault.out_of_range
    else
      vec_at (e.sort p.lane_before lanes) 0

/-- The two branches of `get_reference` that fix the reference point. -/
def reference_point (e : Extern) (p : PathPlanner) (ego : ego_t) (dt : ℚ) (planned_size : Int) :
    Except Fault PathPlanner :=
  if planned_size < 2 then
    .ok { p with
      ref_x := ego.x, ref_y := ego.y, ref_s := ego.s, ref_d := ego.d,
      ref_yaw := ego.yaw, ref_v := ego.v,
      ref_x_prev := ego.x - e.cos ego.yaw, ref_y_prev := ego.y - e.sin ego.yaw }
  else do
    let ref_x ← vec_at ego.previous_path.x (ego.previous_path.x.length - 1)
    let ref_y ← vec_at ego.previous_path.y (ego.previous_path.y.length - 1)
    let ref_x_prev ← vec_at ego.previous_path.x (ego.previous_path.x.length - 2)
    let ref_y_prev ← vec_at ego.previous_path.y (ego.previous_path.y.length - 2)
    pure { p with
      ref_x := ref_x, ref_y := ref_y, ref_x_prev := ref_x_prev, ref_y_prev := ref_y_prev,
      ref_s := ego.end_path.s, ref_d := ego.end_path.d,
      ref_yaw := e.atan2 (ref_y - ref_y_prev) (ref_x - ref_x_prev),
      ref_v := distance e ref_x_prev ref_y_prev ref_x ref_y / dt }

def get_reference (e : Extern) (p : PathPlanner) (ego : ego_t) (dt : ℚ) :
    Except Fault PathPlanner := do
  let planned_size := to_int ego.previous_path.size
  let p ← reference_point e p ego dt planned_size
  pure { p with
    ref_lane := p.lane.lane_at p.ref_d,
    ref_points := p.ref_points + (p.n_path_points - planned_size) }

/-- The update of a lane's nearest front or back car by one car of that lane: the part
"Check if distance is under buffer" of the loop of `process_sensor_fusion`. -/
def record_car (e : Extern) (p : PathPlanner) (planned_size : Int) (dt : ℚ)
    (laneinfo : lane_info_t) (car : car_t) : lane_info_t :=
  let car_speed := norm e car.vx car.vy
  let car_next_s := car.s + car_speed * planned_size * dt
  let in_front := decide (car.s > p.ref_s)
  let car_gap := car.s - p.ref_s
  let car_gap_next := car_next_s - p.ref_s
  if in_front = true then
    if car_gap < laneinfo.front_gap then
      { laneinfo with
        front_car := car.id, front_gap := car_gap, front_speed := car_speed,
        front_gap_next := car_gap_next }
    else laneinfo
  else if car_gap > max laneinfo.back_gap (-p.lane_horizon) then
    { laneinfo with
      back_car := car.id, back_gap := car_gap, back_speed := car_speed,
      back_gap_next := car_gap_next }
  else laneinfo

/-- The part "Evaluate lane feasibility" of the loop of `process_sensor_fusion`. -/
def evaluate_feasible (p : PathPlanner) (laneinfo : lane_info_t) : lane_info_t :=
  { laneinfo with
    feasible := decide (laneinfo.front_gap > p.lane_change_front_buffer)
      && decide (laneinfo.front_gap_next > p.lane_change_front_buffer)
      && decide (laneinfo.back_gap < p.lane_change_back_buffer)
      && decide (laneinfo.back_gap_next < p.lane_change_back_buffer) }

/-- The body of the loop of `process_sensor_fusion` for one car. -/
def sense_car (e : Extern) (p : PathPlanner) (planned_size : Int) (dt : ℚ)
    (lane_info : List lane_info_t) (car : car_t) : Except Fault (List lane_info_t) :=
  let car_lane := p.lane.lane_at car.d
  if car_lane ≥ 0 then do
    let laneinfo ← vec_at lane_info car_lane
    vec_set lane_info car_lane (evaluate_feasible p (record_car e p planned_size dt laneinfo car))
  else pure lane_info

def process_sensor_fusion (e : Extern) (p : PathPlanner) (ego : ego_t) (dt : ℚ) :
    Except Fault PathPlanner := do
  -- `resize` to a negative count converts it to a size no vector can have
  if p.lane.lane_count < 0 then .error Fault.out_of_range
  else
    let fresh : List lane_info_t := List.replicate p.lane.lane_count.toNat {}
    let planned_size := to_int ego.previous_path.size
    let lane_info ← ego.cars.foldlM (sense_car e p planned_size dt) fresh
    pure { p with lane_info := lane_info }

/-- The safety margin `road_speed_limit` of `create_plan`. -/
def road_speed_limit (p : PathPlanner) : ℚ := mph2mps p.lane.speed_limit_mph - 2 / 10

/-- The loop `while (meters_in_state < 0) meters_in_state += roadmap.max_s`. -/
def wrap_meters (max_s : ℚ) : Nat → ℚ → Except Fault ℚ
  | 0, _ => .error Fault.no_fuel
  | fuel + 1, meters_in_state =>
    if meters_in_state < 0 then wrap_meters max_s fuel (meters_in_state + max_s)
    else .ok meters_in_state

/-- The element `lane_info[x]` for a `double` index, as in `lane_info[target_speed]`: the
index converts to `size_t` by truncation, which is defined only for a value in range. -/
def lane_info_at_double (p : PathPlanner) (x : ℚ) : Except Fault lane_info_t :=
  if 0 ≤ trunc x ∧ trunc x < 2 ^ 64 then vec_at p.lane_info (trunc x)
  else .error Fault.out_of_range

/-- The `KEEPLANE` branch of `create_plan`. -/
def plan_keeplane (p : PathPlanner) (ego : ego_t) (best_lane : Int) (meters_in_state : ℚ) :
    Except Fault PathPlanner := do
  let p : PathPlanner := { p with target_speed := p.road_speed_limit, changing_lane := -1 }
  let tl : lane_info_t ← vec_at p.lane_info p.target_lane
  if tl.front_gap < p.lane_change_front_buffer ∧ tl.front_speed < ego.v
      ∧ meters_in_state > 100 then do
    let bl : lane_info_t ← vec_at p.lane_info best_lane
    let sl : lane_info_t ← p.lane_info_at_double p.target_speed
    if bl.front_speed > sl.front_speed then
      pure ({ p with changing_lane := best_lane }.set_state STATE.PRELANECHANGE)
    else pure p
  else pure p

/-- The working target lane of the `PRELANECHANGE` branch,
`ref_lane + ((changing_lane > ref_lane) ? 1 : -1)`. -/
def adjacent_lane (p : PathPlanner) : Int :=
  p.ref_lane + (if p.changing_lane > p.ref_lane then 1 else -1)

/-- The `PRELANECHANGE` branch of `create_plan`. -/
def plan_prelanechange (p : PathPlanner) (best_lane : Int) (meters_in_state : ℚ) :
    Except Fault PathPlanner := do
  let p : PathPlanner := { p with target_lane := p.adjacent_lane }
  let tl : lane_info_t ← vec_at p.lane_info p.target_lane
  if tl.feasible = true ∧ meters_in_state > 5 then
    pure (p.set_state STATE.LANECHANGE)
  else if p.changing_lane ≠ best_lane then
    pure ({ p with target_lane := p.ref_lane }.set_state STATE.KEEPLANE)
  else do
    let rl : lane_info_t ← vec_at p.lane_info p.ref_lane
    if rl.front_gap < p.lane_change_front_buffer then do
      let p : PathPlanner := { p with target_lane := p.ref_lane }
      let tl : lane_info_t ← vec_at p.lane_info p.target_lane
      pure { p with target_speed := min p.target_speed tl.front_speed }
    else pure p

/-- The `LANECHANGE` branch of `create_plan`. -/
def plan_lanechange (p : PathPlanner) (meters_in_state : ℚ) : Except Fault PathPlanner := do
  let p : PathPlanner := { p with target_speed := min p.target_speed (p.ref_v + p.accel) }
  let cte := p.ref_d - p.lane.lane_center p.target_lane
  let p : PathPlanner :=
    if p.ref_lane = p.target_lane ∧ |cte| ≤ 3 / 10 ∧ meters_in_state > 50 then
      let p : PathPlanner :=
        if p.changing_lane ≥ 0 ∧ p.changing_lane ≠ p.ref_lane then
          p.set_state STATE.PRELANECHANGE
        else p
      { p with changing_lane := -1 }.set_state STATE.KEEPLANE
    else p
  let tl : lane_info_t ← vec_at p.lane_info p.target_lane
  if tl.front_gap < p.lane_emergy_front_buffer then
    pure { p with target_lane := p.ref_lane, changing_lane := -1 }
  else pure p

/-- The first statement of `create_plan`: leaving the state `START`. -/
def plan_start (p : PathPlanner) : PathPlanner :=
  if p.state_ = STATE.START then
    { p with
      changing_lane := -1, target_lane := p.ref_lane, state_ := STATE.KEEPLANE,
      state_s_ := p.ego_start_position.s }
  else p

/-- The body of the `while (true)` loop of `create_plan` after `meters_in_state` is known.
Every branch ends in `break`.  In state `START`, which `plan_start` has left, no branch is
taken and the loop does not end. -/
def plan_branch (p : PathPlanner) (ego : ego_t) (best_lane : Int) (meters_in_state : ℚ) :
    Except Fault PathPlanner :=
  match p.state_ with
  | STATE.KEEPLANE => plan_keeplane p ego best_lane meters_in_state
  | STATE.PRELANECHANGE => plan_prelanechange p best_lane meters_in_state
  | STATE.LANECHANGE => plan_lanechange p meters_in_state
  | STATE.START => .error Fault.no_fuel

def create_plan (e : Extern) (fuel : Nat) (p : PathPlanner) (ego : ego_t) :
    Except Fault PathPlanner := do
  let p : PathPlanner := plan_start p
  let best_lane ← get_best_lane e p
  let meters_in_state ← wrap_meters p.roadmap.max_s fuel (p.ref_s - p.state_s_)
  let p ← plan_branch p ego best_lane meters_in_state
  pure { p with target_speed := max 0 (min p.road_speed_limit p.target_speed) }

def collision_avoidance (p : PathPlanner) : Except Fault PathPlanner := do
  let tl : lane_info_t ← vec_at p.lane_info p.target_lane
  if tl.front_gap < p.lane_change_front_buffer then
    if tl.front_gap < p.lane_emergy_front_buffer then
      .ok { p with
        target_speed := max 0 (min p.target_speed (tl.front_speed - 2 / 10)),
        warning_collision := true }
    else
      .ok { p with
        target_speed := max 0 (min p.target_speed tl.front_speed),
        warning_collision := false }
  else .ok p

def speed_control (p : PathPlanner) : PathPlanner :=
  let p : PathPlanner :=
    if p.target_speed < p.ref_v then
      if p.warning_collision = true then
        { p with target_speed := max p.target_speed (p.ref_v - p.emergy_accel) }
      else
        { p with target_speed := max p.target_speed (p.ref_v - p.accel) }
    else if p.target_speed > p.ref_v then
      { p with target_speed := min p.target_speed (p.ref_v + p.accel) }
    else
      { p with target_speed := p.ref_v }
  { p with target_speed := max p.target_speed 0 }

/-- The anchors of `create_trajectory` after the three road points are added. -/
def anchors (e : Extern) (fuel : Nat) (p : PathPlanner) (target_d : ℚ) : Except Fault path_t := do
  let a : path_t := {}
  let a := a.append p.ref_x_prev p.ref_y_prev
  let a := a.append p.ref_x p.ref_y
  let w1 ← p.roadmap.to_xy e fuel (p.ref_s + 30 * 1) target_d
  let a := a.append w1.x w1.y
  let w2 ← p.roadmap.to_xy e fuel (p.ref_s + 30 * 2) target_d
  let a := a.append w2.x w2.y
  let w3 ← p.roadmap.to_xy e fuel (p.ref_s + 30 * 3) target_d
  pure (a.append w3.x w3.y)

/-- The change of the anchors to the reference coordinates, for the anchors `i, i + 1, ...`. -/
def to_reference (e : Extern) (p : PathPlanner) : List ℚ → List ℚ → Except Fault path_t
  | [], _ => .ok {}
  | _ :: _, [] => .error Fault.out_of_range
  | ax :: xs, ay :: ys => do
    let dx := ax - p.ref_x
    let dy := ay - p.ref_y
    let rest ← to_reference e p xs ys
    pure ⟨(dx * e.cos (-p.ref_yaw) - dy * e.sin (-p.ref_yaw)) :: rest.x,
          (dx * e.sin (-p.ref_yaw) + dy * e.cos (-p.ref_yaw)) :: rest.y⟩

/-- The point that the sampling loop of `create_trajectory` computes for the counter `i`:
the curve sampled at `i * t * target_speed`, moved back to world coordinates. -/
def sample_point (e : Extern) (p : PathPlanner) (curve : ℚ → ℚ) (t target_speed : ℚ)
    (i : Int) : xy_t :=
  let x_spline := i * t * target_speed
  let y_spline := curve x_spline
  let x_ := x_spline * e.cos p.ref_yaw - y_spline * e.sin p.ref_yaw + p.ref_x
  let y_ := x_spline * e.sin p.ref_yaw + y_spline * e.cos p.ref_yaw + p.ref_y
  ⟨x_, y_⟩

/-- The sampling loop of `create_trajectory`, from the counter `i` on.  Its bound
`n_path_points - path.x.size()` is unsigned and is read again at every test. -/
def sample_loop (e : Extern) (p : PathPlanner) (curve : ℚ → ℚ) (t target_speed : ℚ) :
    Nat → Int → path_t → Except Fault path_t
  | 0, _, _ => .error Fault.no_fuel
  | fuel + 1, i, path =>
    if to_size_t i ≤ to_size_t (to_size_t p.n_path_points - path.x.length) then
      sample_loop e p curve t target_speed fuel (i + 1)
        (path.append_xy (sample_point e p curve t target_speed i))
    else .ok path

def create_trajectory (e : Extern) (fuel : Nat) (p : PathPlanner) (ego : ego_t)
    (target_lane : Int) (target_speed dt : ℚ) : Except Fault path_t := do
  let target_d := p.lane.safe_lane_center target_lane
  let a ← anchors e fuel p target_d
  let a ← to_reference e p a.x a.y
  let curve := e.spline a.x a.y
  let path : path_t := ⟨ego.previous_path.x, ego.previous_path.y⟩
  let target_x : ℚ := 30
  let target_y := curve target_x
  let target_dist := norm e target_x target_y
  let t := target_x / target_dist * dt
  sample_loop e p curve t target_speed fuel 1 path

/-- The first part of `create_trajectory`, as `run` calls it with the target lane of the
planner: the five anchors, moved into the reference frame. -/
def local_anchors (e : Extern) (fuel : Nat) (p : PathPlanner) : Except Fault path_t := do
  let a ← anchors e fuel p (p.lane.safe_lane_center p.target_lane)
  to_reference e p a.x a.y

/-- Steps 3 to 5 of `run`: `create_plan`, `collision_avoidance`, `speed_control`. -/
def plan_cycle (e : Extern) (fuel : Nat) (p : PathPlanner) (ego : ego_t) :
    Except Fault PathPlanner := do
  let p ← create_plan e fuel p ego
  let p ← collision_avoidance p
  pure (speed_control p)

def reset (p : PathPlanner) : PathPlanner :=
  { p with
    warning_collision := false, target_lane := 1, target_speed := 0, ref_points := 0,
    ego_laps := 0, ego_laps_tick := 0, ego_passed_zero_s := false,
    state_ := STATE.START, state_s_ := 0 }

/-- The first statement of `track_lap`: the start position is taken on tick 0. -/
def lap_start (p : PathPlanner) (ego : ego_t) : PathPlanner :=
  if p.ego_laps_tick = 0 then { p with ego_start_position := ⟨ego.s, ego.d⟩ } else p

/-- The second statement of `track_lap`: the ego is behind its start position. -/
def lap_passed_zero (p : PathPlanner) (ego : ego_t) : PathPlanner :=
  if ego.s < p.ego_start_position.s then { p with ego_passed_zero_s := true } else p

/-- The third statement of `track_lap`: a new lap is counted. -/
def lap_count (p : PathPlanner) (ego : ego_t) : PathPlanner :=
  if p.ego_passed_zero_s = true ∧ ego.s > p.ego_start_position.s then
    { p with
      ego_laps := (p.ego_laps + 1) % 2 ^ 64, ego_laps_tick := 0, ego_passed_zero_s := false }
  else p

/-- The counters of `track_lap` are of type `size_t`. -/
def track_lap (p : PathPlanner) (ego : ego_t) : PathPlanner :=
  let p := lap_count (lap_passed_zero (lap_start p ego) ego) ego
  { p with ego_laps_tick := (p.ego_laps_tick + 1) % 2 ^ 64 }

/-- Steps 1a, 1b and 2 of `run`: `get_reference`, `track_lap`, `process_sensor_fusion`. -/
def run_sense (e : Extern) (p : PathPlanner) (ego : ego_t) (dt : ℚ) :
    Except Fault PathPlanner := do
  let p ← get_reference e p ego dt
  process_sensor_fusion e (track_lap p ego) ego dt

/-- Steps 1a to 3 of `run`, up to `create_plan`. -/
def run_plan (e : Extern) (fuel : Nat) (p : PathPlanner) (ego : ego_t) (dt : ℚ) :
    Except Fault PathPlanner := do
  let p ← run_sense e p ego dt
  create_plan e fuel p ego

/-- Steps 1a to 5 of `run`, up to `speed_control`. -/
def run_speed (e : Extern) (fuel : Nat) (p : PathPlanner) (ego : ego_t) (dt : ℚ) :
    Except Fault PathPlanner := do
  let p ← run_sense e p ego dt
  plan_cycle e fuel p ego

/-- The function `run`: the planner after the cycle and the path written. -/
def run (e : Extern) (fuel : Nat) (p : PathPlanner) (ego : ego_t) (dt : ℚ) :
    Except Fault (PathPlanner × path_t) := do
  let p ← run_speed e fuel p ego dt
  let path ← create_trajectory e fuel p ego p.target_lane p.target_speed dt
  pure (p, path)

/-- The planner `q` has the lane configuration, the lane occupancy, the reference speed and
the acceleration limits of `p`: the fields that steps 3 to 5 of `run` only read. -/
def same_inputs (p q : PathPlanner) : Prop :=
  q.lane = p.lane ∧ q.lane_info = p.lane_info ∧ q.ref_v = p.ref_v ∧ q.accel = p.accel ∧
    q.emergy_accel = p.emergy_accel

/-- The feasibility test of `process_sensor_fusion` holds of the recorded values of `l`
exactly when the flag `l.feasible` is set. -/
def feasible_ok (p : PathPlanner) (l : lane_info_t) : Prop :=
  l.feasible = true ↔
    (l.front_gap > p.lane_change_front_buffer ∧ l.front_gap_next > p.lane_change_front_buffer ∧
      l.back_gap < p.lane_change_back_buffer ∧ l.back_gap_next < p.lane_change_back_buffer)

/-- The effect of one car on the entry of lane `i` in the loop of `process_sensor_fusion`:
the entry is updated when the car is in lane `i`. -/
def lane_step (e : Extern) (p : PathPlanner) (planned_size : Int) (dt : ℚ) (i : Nat)
    (l : lane_info_t) (car : car_t) : lane_info_t :=
  if p.lane.lane_at car.d = (i : Int) then
    evaluate_feasible p (record_car e p planned_size dt l car)
  else l

/-- The front record `l` of lane `i` is the nearest one among the cars `cs`: its gap is at
most the initial 1000 and at most the gap of every car of `cs` in front in the lane, and
when it is below 1000 the record is that of such a car. -/
def front_nearest (e : Extern) (p : PathPlanner) (i : Nat) (cs : List car_t)
    (l : lane_info_t) : Prop :=
  l.front_gap ≤ 1000 ∧
    (∀ car ∈ cs, p.lane.lane_at car.d = (i : Int) → car.s > p.ref_s →
      l.front_gap ≤ car.s - p.ref_s) ∧
    (l.front_gap < 1000 → ∃ car ∈ cs, p.lane.lane_at car.d = (i : Int) ∧ car.s > p.ref_s ∧
      l.front_gap = car.s - p.ref_s ∧ l.front_car = car.id ∧
      l.front_speed = norm e car.vx car.vy)

/-- The back record `l` of lane `i` is the nearest one within the horizon among the cars
`cs`: it is the initial record or that of a car of `cs` behind in the lane and within the
horizon, and no such car has a gap above it. -/
def back_nearest (e : Extern) (p : PathPlanner) (i : Nat) (cs : List car_t)
    (l : lane_info_t) : Prop :=
  ((l.back_car = -1 ∧ l.back_gap = -1000 ∧ l.back_speed = -1000) ∨
      ∃ car ∈ cs, p.lane.lane_at car.d = (i : Int) ∧ ¬ car.s > p.ref_s ∧
        -p.lane_horizon < car.s - p.ref_s ∧ l.back_gap = car.s - p.ref_s ∧
        l.back_car = car.id ∧ l.back_speed = norm e car.vx car.vy) ∧
    ∀ car ∈ cs, p.lane.lane_at car.d = (i : Int) → ¬ car.s > p.ref_s →
      -p.lane_horizon < car.s - p.ref_s → car.s - p.ref_s ≤ l.back_gap

/-- The predicted gaps of the entry `l` are at least its current gaps. -/
def gaps_open (l : lane_info_t) : Prop :=
  l.front_gap ≤ l.front_gap_next ∧ l.back_gap ≤ l.back_gap_next

/-- The entry of lane `i` as the comparison of `get_best_lane` reads it. -/
def lane_entry (p : PathPlanner) (i : Int) : lane_info_t := (p.lane_info.get? i.toNat).getD {}

/-- The signed distance of the point `(x, y)` ahead of the reference point, along the
reference heading. -/
def ahead (e : Extern) (p : PathPlanner) (x y : ℚ) : ℚ :=
  (x - p.ref_x) * e.cos p.ref_yaw + (y - p.ref_y) * e.sin p.ref_yaw

/-- The signed distance of the point `(x, y)` to the left of the line through the reference
point along the reference heading. -/
def aside (e : Extern) (p : PathPlanner) (x y : ℚ) : ℚ :=
  (y - p.ref_y) * e.cos p.ref_yaw - (x - p.ref_x) * e.sin p.ref_yaw

end PathPlanner

/-- What is assumed of `std::sort` on a comparison `lt` and a range `l`: the result is a
rearrangement of `l` in which no element is directly followed by one that `lt` puts strictly
before it.  Insertion sort returns such a result for every `lt`, also one that is not a
strict weak ordering. -/
def sorts (e : Extern) : Prop :=
  ∀ (lt : Int → Int → Bool) (l : List Int),
    (e.sort lt l).Perm l ∧
      (e.sort lt l).Chain' (fun a b => lt a b = true ∨ lt b a = false)

/-! ## Concrete data for evaluating the embedding -/

/-- The integer square root of `n < 2 ^ (2 * b)`, bit by bit from bit `b - 1` down, on top
of the bits already fixed in `r`. -/
def isqrt_bits (n : Nat) : Nat → Nat → Nat
  | 0, r => r
  | b + 1, r => isqrt_bits n b (if (r + 2 ^ b) * (r + 2 ^ b) ≤ n then r + 2 ^ b else r)

/-- A concrete library for evaluating the embedding on axis-aligned data: `M_PI` is the
`double` nearest to π, `atan2` is exact on the axes, `cos` and `sin` are exact at the multiples
of `M_PI / 2`, `sqrt` is exact on squares of rationals and rounds down on integers, `sort` is
insertion sort and the curve through anchors that lie on the x-axis is the x-axis. -/
def grid : Extern where
  M_PI := 884279719003555 / 281474976710656
  sqrt := fun q => (isqrt_bits q.num.toNat 64 0 : ℚ) / (isqrt_bits q.den 64 0 : ℚ)
  atan2 := fun y x =>
    let pi : ℚ := 884279719003555 / 281474976710656
    if y = 0 then (if 0 ≤ x then 0 else pi)
    else if x = 0 then (if 0 < y then pi / 2 else -(pi / 2))
    else if 0 < x then y / x
    else if 0 < y then pi + y / x
    else -pi + y / x
  cos := fun a =>
    let pi : ℚ := 884279719003555 / 281474976710656
    if a = 0 then 1
    else if a = pi / 2 ∨ a = -(pi / 2) then 0
    else if a = pi ∨ a = -pi then -1
    else 1 - a * a / 2
  sin := fun a =>
    let pi : ℚ := 884279719003555 / 281474976710656
    if a = 0 then 0
    else if a = pi / 2 then 1
    else if a = -(pi / 2) then -1
    else if a = pi ∨ a = -pi then 0
    else a - a * a * a / 6
  sort := fun lt l => l.insertionSort (fun a b => lt a b = true)
  spline := fun _ _ _ => 0

/-- Two waypoint records of a road that runs along the x-axis. -/
def east_records : List waypoint_t := [⟨0, 0, 0, 0, -1⟩, ⟨1000, 0, 1000, 0, -1⟩]

/-- The table that `load` builds from `east_records`. -/
def east_road : RoadMap :=
  { waypoints :=
      { x := [0, 1000, 0], y := [0, 0, 0], s := [0, 1000, 6945554 / 1000],
        dx := [0, 0, 0], dy := [-1, -1, -1] } }

/-- A planner in state `KEEPLANE` on `east_road`, three empty lanes, reference point at
`s = 50`, `d = 6`. -/
def cruising : PathPlanner :=
  { roadmap := east_road
    lane_info := [{}, {}, {}]
    ref_x := 50, ref_y := -6, ref_x_prev := 49, ref_y_prev := -6
    ref_s := 50, ref_d := 6, ref_yaw := 0, ref_v := 20
    ref_lane := 1, ref_points := 0
    ego_start_position := ⟨0, 6⟩
    state_ := STATE.KEEPLANE, state_s_ := 0 }

/-- An ego state at the reference point of `cruising`, no previous path, no other car. -/
def lone_ego : ego_t :=
  { x := 50, y := -6, s := 50, d := 6, yaw := 0, v := 20
    previous_path := {}, end_path := ⟨50, 6⟩, cars := [] }

/-- The ego state `lone_ego` with one observed car exactly on the right edge of the road,
`d = road_width = 12`. -/
def edge_ego : ego_t := { lone_ego with cars := [⟨0, 60, -12, 0, 0, 60, 12⟩] }

/-- The occupancy of a lane whose stationary leader is 3 m ahead. -/
def stopped_leader : lane_info_t :=
  { front_car := 7, front_gap := 3, front_speed := 0, front_gap_next := 3, feasible := false }

/-- The planner `cruising` behind a stationary leader in its target lane 1. -/
def blocked : PathPlanner := { cruising with lane_info := [{}, stopped_leader, {}] }

/-- The ego state `lone_ego` at 30 m/s, above the speed limit of 50 mph = 22.352 m/s. -/
def fast_ego : ego_t := { lone_ego with v := 30 }

/-- The planner `cruising` after `get_reference` and `process_sensor_fusion` on `fast_ego`:
the reference speed is the ego speed, 30 m/s. -/
def speeding : PathPlanner := { cruising with ref_v := 30, ref_points := 50 }

/-- The planner `cruising` in state `PRELANECHANGE`, preparing a change to lane 2. -/
def preparing : PathPlanner :=
  { cruising with state_ := STATE.PRELANECHANGE, changing_lane := 2 }

/-- The planner `preparing` after `create_plan`: in state `LANECHANGE` toward lane 2. -/
def changing : PathPlanner :=
  { preparing with state_ := STATE.LANECHANGE, state_s_ := 50, target_lane := 2 }

/-- The planner `cruising` at the end of a cycle: target speed `ref_v + accel`. -/
def cruising_next : PathPlanner := { cruising with target_speed := 201 / 10 }

/-- The planner `speeding` at the end of a cycle: target speed `ref_v - accel`. -/
def speeding_next : PathPlanner := { speeding with target_speed := 299 / 10 }

/-- The ego state `lone_ego` with a car 8 m ahead in lane 1 and a car 30 m behind in
lane 0, both at rest. -/
def traffic_ego : ego_t :=
  { lone_ego with cars := [⟨1, 58, -6, 0, 0, 58, 6⟩, ⟨2, 20, -2, 0, 0, 20, 2⟩] }

/-- The planner `cruising` after `process_sensor_fusion` on `traffic_ego`. -/
def sensed : PathPlanner :=
  { cruising with
    lane_info :=
      [{ back_car := 2, back_gap := -30, back_speed := 0, back_gap_next := -30 },
       { front_car := 1, front_gap := 8, front_speed := 0, front_gap_next := 8,
         feasible := false },
       {}] }

/-- Two waypoint records of a road that runs against the x-axis. -/
def west_records : List waypoint_t := [⟨1000, 0, 0, 0, 1⟩, ⟨0, 0, 1000, 0, 1⟩]

/-- The table that `load` builds from `west_records`. -/
def west_road : RoadMap :=
  { waypoints :=
      { x := [1000, 0, 1000], y := [0, 0, 0], s := [0, 1000, 6945554 / 1000],
        dx := [0, 0, 0], dy := [1, 1, 1] } }

/-- The occupancy of a lane whose leader, 8 m ahead, drives at 10 m/s. -/
def slow_leader : lane_info_t :=
  { front_car := 7, front_gap := 8, front_speed := 10, front_gap_next := 8, feasible := false }

/-- The planner `cruising` 150 m into state `KEEPLANE`, behind a slow leader in lane 1. -/
def tailing : PathPlanner := { cruising with lane_info := [{}, slow_leader, {}], ref_s := 150 }

/-- The planner `cruising` in state `LANECHANGE`, arrived in the centre of its target lane 1
after 60 m, on the way to lane 2. -/
def arriving : PathPlanner :=
  { cruising with state_ := STATE.LANECHANGE, changing_lane := 2, ref_s := 60 }

/-- The planner `arriving` after `create_plan`. -/
def arrived : PathPlanner := { cruising with ref_s := 60, state_s_ := 60 }

/-- A planner in state `PRELANECHANGE` whose reference lane and change target are both
lane 0. -/
def stuck : PathPlanner :=
  { cruising with
    state_ := STATE.PRELANECHANGE, changing_lane := 0, ref_lane := 0, ref_d := 2,
    target_lane := 0 }

/-- The planner `cruising` with the collision warning left set by an earlier cycle. -/
def alarmed : PathPlanner := { cruising with warning_collision := true }

/-- The ego state `lone_ego` in lane 1 with a previous path of two points that ends in
lane 0, at `s = 59`, `d = 2`. -/
def resuming_ego : ego_t :=
  { lone_ego with previous_path := ⟨[586 / 10, 59], [-2, -2]⟩, end_path := ⟨59, 2⟩ }

/-- The planner `cruising.reset` after steps 1a to 3 of `run` on `lone_ego`. -/
def first_plan : PathPlanner :=
  { cruising with
    ref_points := 50, ego_start_position := ⟨50, 6⟩, ego_laps_tick := 1, state_s_ := 50,
    target_speed := 22152 / 1000 }

/-- The ego state `lone_ego` with one car in lane 1, 1200 m ahead. -/
def far_ego : ego_t := { lone_ego with cars := [⟨3, 1250, -6, 0, 0, 1250, 6⟩] }

/-- The entry of lane 1 in `sensed`. -/
def ahead_entry : lane_info_t :=
  { front_car := 1, front_gap := 8, front_speed := 0, front_gap_next := 8, feasible := false }

/-- The entry of lane 0 in `sensed`. -/
def behind_entry : lane_info_t :=
  { back_car := 2, back_gap := -30, back_speed := 0, back_gap_next := -30 }

/-- The ego state `lone_ego` with a leader in each lane: 30, 20 and 10 m ahead, driving at
0, 0.4 and 0.8 m/s. -/
def queue_ego : ego_t :=
  { lone_ego with
    cars := [⟨1, 80, -2, 0, 0, 80, 2⟩, ⟨2, 70, -6, 4 / 10, 0, 70, 6⟩,
             ⟨3, 60, -10, 8 / 10, 0, 60, 10⟩] }

/-- The planner `cruising` after `process_sensor_fusion` on `queue_ego`. -/
def queued : PathPlanner :=
  { cruising with
    lane_info :=
      [{ front_car := 1, front_gap := 30, front_speed := 0, front_gap_next := 30 },
       { front_car := 2, front_gap := 20, front_speed := 4 / 10, front_gap_next := 20 },
       { front_car := 3, front_gap := 10, front_speed := 8 / 10, front_gap_next := 10,
         feasible := false }] }

/-- The ego state `resuming_ego` with one car in lane 1, 20 m ahead of the reference point
of `cruising`, driving at 10 m/s. -/
def convoy_ego : ego_t := { resuming_ego with cars := [⟨4, 70, -6, 10, 0, 70, 6⟩] }

/-- The planner `cruising` after `process_sensor_fusion` on `convoy_ego`: over the two
points of the previous path the leader gains 10 * 2 * 0.02 = 0.4 m. -/
def convoyed : PathPlanner :=
  { cruising with
    lane_info :=
      [{}, { front_car := 4, front_gap := 20, front_speed := 10, front_gap_next := 204 / 10 },
       {}] }

/-- The ego state `lone_ego` turned round: it heads west on the eastward road. -/
def reversed_ego : ego_t := { lone_ego with yaw := grid.M_PI }

/-- The planner `cruising` after `get_reference` on `reversed_ego`. -/
def reversed : PathPlanner :=
  { cruising with ref_yaw := grid.M_PI, ref_x_prev := 51, ref_points := 50 }

/-- The ego state `lone_ego` at rest, 3 m behind a stationary car in its lane. -/
def halted_ego : ego_t := { lone_ego with v := 0, cars := [⟨7, 53, -6, 0, 0, 53, 6⟩] }

/-- A path of 25 points, all at the point `(50, -6)`. -/
def halted_path : path_t := ⟨List.replicate 25 50, List.replicate 25 (-6)⟩

/-- The ego state `halted_ego` one cycle later: still at rest, with the previous path
`halted_path`. -/
def halted_again : ego_t := { halted_ego with previous_path := halted_path }

/-- A road of 23 lanes seen from lane 0 at `s = 150`, at 20 m/s: a leader 8 m ahead in every
lane, at 16 m/s in lane 0 and at 15, 14.5, ..., 4.5 m/s in lanes 1 to 22, so that any two
lanes differ in speed by 0.5 m/s or more. -/
def jam_ego : ego_t :=
  { lone_ego with
    x := 150, y := -2, s := 150, d := 2
    cars := (List.range 23).map (fun i : Nat =>
      (⟨i, 158, -(4 * i + 2), if i = 0 then 16 else (31 - i) / 2, 0, 158, 4 * i + 2⟩ :
        car_t)) }

/-- The planner `cruising` on a road of 23 lanes, with target lane 0. -/
def broad : PathPlanner :=
  { cruising with lane := { lane_count := 23 }, target_lane := 0 }

/-- The arc tangent on `[-1, 1]`, to within 0.004. -/
def atan_unit (t : ℚ) : ℚ :=
  t * (884279719003555 / 281474976710656 / 4 + 273 / 1000 * (1 - |t|))

/-- The library `grid` with an `atan2` that is within 0.004 of the angle off the axes too;
on the axes it is the `atan2` of `grid`. -/
def compass : Extern :=
  { grid with
    atan2 := fun y x =>
      let pi : ℚ := 884279719003555 / 281474976710656
      let atan : ℚ → ℚ := fun t =>
        if |t| ≤ 1 then atan_unit t
        else if 0 < t then pi / 2 - atan_unit (1 / t)
        else -(pi / 2) - atan_unit (1 / t)
      if y = 0 then (if 0 ≤ x then 0 else pi)
      else if x = 0 then (if 0 < y then pi / 2 else -(pi / 2))
      else if 0 < x then atan (y / x)
      else if 0 < y then pi + atan (y / x)
      else -pi + atan (y / x) }

/-! ## Lemmas on the result type -/

@[simp] theorem bind_ok {α β : Type} (a : α) (f : α → Except Fault β) :
    (Except.ok a >>= f) = f a := rfl

@[simp] theorem bind_error {α β : Type} (x : Fault) (f : α → Except Fault β) :
    ((Except.error x : Except Fault α) >>= f) = Except.error x := rfl

@[simp] theorem pure_eq_ok {α : Type} (a : α) : (pure a : Except Fault α) = Except.ok a := rfl

theorem bind_eq_ok {α β : Type} {x : Except Fault α} {f : α → Except Fault β} {b : β}
    (h : (x >>= f) = Except.ok b) : ∃ a, x = Except.ok a ∧ f a = Except.ok b := by
  cases x with
  | error x => simp at h
  | ok a => exact ⟨a, rfl, by simpa using h⟩

theorem vec_at_eq_ok {α : Type} {v : List α} {i : Int} {a : α} (h : vec_at v i = Except.ok a) :
    0 ≤ i ∧ i.toNat < v.length ∧ v.get? i.toNat = some a := by
  unfold vec_at at h
  split_ifs at h with hi
  cases hg : v.get? i.toNat with
  | none => rw [hg] at h; simp at h
  | some b =>
    rw [hg] at h
    simp only [Except.ok.injEq] at h
    subst h
    have hlt : i.toNat < v.length := by
      by_contra hge
      have hnone : v.get? i.toNat = none := List.get?_eq_none.mpr (not_lt.mp hge)
      rw [hnone] at hg
      exact absurd hg (by simp)
    exact ⟨hi, hlt, rfl⟩

/-! ## Lane model -/

/-- C6: for every `d` with `0 ≤ d < lane_count * lane_width`, `lane_at d` is an index in
`[0, lane_count)` and `lane_at (lane_center (lane_at d)) = lane_at d` (for a positive lane
width and the road width `lane_width * lane_count` of the source). -/
theorem lane_at_membership (l : Lane) (d : ℚ) (hw : 0 < l.lane_width)
    (hr : l.road_width = l.lane_width * l.lane_count) (h0 : 0 ≤ d)
    (h1 : d < l.lane_count * l.lane_width) :
    0 ≤ l.lane_at d ∧ l.lane_at d < l.lane_count ∧
      l.lane_at (l.lane_center (l.lane_at d)) = l.lane_at d := by
  have e1 : l.lane_at d = ⌊d / l.lane_width⌋ := by
    unfold Lane.lane_at
    rw [if_neg (not_lt.mpr h0), if_neg]
    rw [hr]
    linarith [mul_comm l.lane_width (l.lane_count : ℚ)]
  have hi0 : 0 ≤ ⌊d / l.lane_width⌋ := Int.floor_nonneg.mpr (div_nonneg h0 hw.le)
  have hi1 : ⌊d / l.lane_width⌋ < l.lane_count :=
    Int.floor_lt.mpr ((div_lt_iff₀ hw).mpr h1)
  rw [e1]
  refine ⟨hi0, hi1, ?_⟩
  have hq0 : (0 : ℚ) ≤ (⌊d / l.lane_width⌋ : ℚ) := by exact_mod_cast hi0
  have hq1 : (⌊d / l.lane_width⌋ : ℚ) + 1 ≤ (l.lane_count : ℚ) := by exact_mod_cast hi1
  unfold Lane.lane_at Lane.lane_center
  rw [if_neg, if_neg]
  · rw [mul_div_assoc, div_self hw.ne', mul_one, Int.floor_eq_iff]
    constructor <;> linarith
  · rw [hr, not_lt]
    nlinarith
  · rw [not_lt]
    positivity

/-- Witness of C6 on the default lane configuration at `d = 5 / 2`. -/
theorem lane_at_membership_witness :
    0 ≤ ({} : Lane).lane_at (5 / 2) ∧ ({} : Lane).lane_at (5 / 2) < ({} : Lane).lane_count ∧
      ({} : Lane).lane_at (({} : Lane).lane_center (({} : Lane).lane_at (5 / 2)))
        = ({} : Lane).lane_at (5 / 2) :=
  lane_at_membership {} (5 / 2) (by decide!) (by decide!) (by decide!) (by decide!)

/-- C7: `lane_at` returns the index `lane_count`, outside `[0, lane_count)`, at
`d = road_width`: on the default configuration `lane_at 12 = 3`, and
`process_sensor_fusion` on a car at `d = 12` indexes `lane_info` beyond its three entries. -/
theorem lane_at_road_width_out_of_range :
    ({} : Lane).road_width = 12 ∧ ({} : Lane).lane_count = 3 ∧ ({} : Lane).lane_at 12 = 3 ∧
      PathPlanner.process_sensor_fusion grid cruising edge_ego (1 / 50)
        = Except.error Fault.out_of_range := by
  decide!

/-! ## Speed control and collision avoidance -/

/-- C3: for every reference speed `ref_v ≥ 0` and every incoming target speed, the speed that
`speed_control` produces differs from `ref_v` by at most `accel`, except that with the
collision warning set while decelerating the difference is at most `emergy_accel` (for
non-negative acceleration limits, as in the source). -/
theorem speed_control_rate (p : PathPlanner) (hv : 0 ≤ p.ref_v) (ha : 0 ≤ p.accel)
    (he : 0 ≤ p.emergy_accel) :
    (p.warning_collision = true ∧ p.target_speed < p.ref_v →
        |p.speed_control.target_speed - p.ref_v| ≤ p.emergy_accel) ∧
      (¬ (p.warning_collision = true ∧ p.target_speed < p.ref_v) →
        |p.speed_control.target_speed - p.ref_v| ≤ p.accel) := by
  constructor
  · rintro ⟨hw, hlt⟩
    simp only [PathPlanner.speed_control, if_pos hlt, if_pos hw]
    rw [abs_le]
    constructor
    · have := le_max_right p.target_speed (p.ref_v - p.emergy_accel)
      have := le_max_left (max p.target_speed (p.ref_v - p.emergy_accel)) 0
      linarith
    · have : max (max p.target_speed (p.ref_v - p.emergy_accel)) 0 ≤ p.ref_v :=
        max_le (max_le hlt.le (by linarith)) hv
      linarith
  · intro hn
    rw [abs_le]
    by_cases hlt : p.target_speed < p.ref_v
    · have hw : ¬ p.warning_collision = true := fun hw => hn ⟨hw, hlt⟩
      simp only [PathPlanner.speed_control, if_pos hlt, if_neg hw]
      constructor
      · have := le_max_right p.target_speed (p.ref_v - p.accel)
        have := le_max_left (max p.target_speed (p.ref_v - p.accel)) 0
        linarith
      · have : max (max p.target_speed (p.ref_v - p.accel)) 0 ≤ p.ref_v :=
          max_le (max_le hlt.le (by linarith)) hv
        linarith
    · by_cases hgt : p.target_speed > p.ref_v
      · simp only [PathPlanner.speed_control, if_neg hlt, if_pos hgt]
        have h1 : p.ref_v ≤ min p.target_speed (p.ref_v + p.accel) :=
          le_min hgt.le (by linarith)
        have h2 := le_max_left (min p.target_speed (p.ref_v + p.accel)) 0
        have h3 : max (min p.target_speed (p.ref_v + p.accel)) 0 ≤ p.ref_v + p.accel :=
          max_le (min_le_right _ _) (by linarith)
        constructor <;> linarith
      · simp only [PathPlanner.speed_control, if_neg hlt, if_neg hgt]
        rw [max_eq_left hv]
        constructor <;> linarith

/-- Witness of C3: `cruising` (reference speed 20, target speed 0, no warning). -/
theorem speed_control_rate_witness :
    (cruising.warning_collision = true ∧ cruising.target_speed < cruising.ref_v →
        |cruising.speed_control.target_speed - cruising.ref_v| ≤ cruising.emergy_accel) ∧
      (¬ (cruising.warning_collision = true ∧ cruising.target_speed < cruising.ref_v) →
        |cruising.speed_control.target_speed - cruising.ref_v| ≤ cruising.accel) :=
  speed_control_rate cruising (by decide!) (by decide!) (by decide!)

/-- C5: when the target lane's front gap is below `lane_change_front_buffer`,
`collision_avoidance` leaves `target_speed` in `[0, max 0 front_speed]`; when the gap is also
below `lane_emergy_front_buffer` it leaves it in `[0, max 0 (front_speed - 0.2)]` and sets
`warning_collision`; a stationary leader yields `target_speed = 0`. -/
theorem collision_avoidance_caps (p : PathPlanner) (l : lane_info_t)
    (hl : vec_at p.lane_info p.target_lane = Except.ok l)
    (hg : l.front_gap < p.lane_change_front_buffer) :
    ∃ q, p.collision_avoidance = Except.ok q ∧
      0 ≤ q.target_speed ∧ q.target_speed ≤ max 0 l.front_speed ∧
      (l.front_gap < p.lane_emergy_front_buffer →
        q.target_speed ≤ max 0 (l.front_speed - 2 / 10) ∧ q.warning_collision = true) ∧
      (l.front_speed = 0 → q.target_speed = 0) := by
  unfold PathPlanner.collision_avoidance
  rw [hl]
  simp only [bind_ok, if_pos hg]
  by_cases he : l.front_gap < p.lane_emergy_front_buffer
  · rw [if_pos he]
    refine ⟨_, rfl, le_max_left _ _, ?_, fun _ => ⟨?_, rfl⟩, ?_⟩
    · exact max_le_max le_rfl ((min_le_right _ _).trans (by linarith))
    · exact max_le_max le_rfl (min_le_right _ _)
    · intro h0
      apply le_antisymm _ (le_max_left _ _)
      exact max_le le_rfl ((min_le_right _ _).trans (by rw [h0]; norm_num))
  · rw [if_neg he]
    refine ⟨_, rfl, le_max_left _ _, ?_, fun h => absurd h he, ?_⟩
    · exact max_le_max le_rfl (min_le_right _ _)
    · intro h0
      apply le_antisymm _ (le_max_left _ _)
      exact max_le le_rfl ((min_le_right _ _).trans (by rw [h0]))

/-- Witness of C5: `blocked`, whose target lane has a stationary leader 3 m ahead. -/
theorem collision_avoidance_caps_witness :
    ∃ q, blocked.collision_avoidance = Except.ok q ∧
      0 ≤ q.target_speed ∧ q.target_speed ≤ max 0 stopped_leader.front_speed ∧
      (stopped_leader.front_gap < blocked.lane_emergy_front_buffer →
        q.target_speed ≤ max 0 (stopped_leader.front_speed - 2 / 10) ∧
          q.warning_collision = true) ∧
      (stopped_leader.front_speed = 0 → q.target_speed = 0) :=
  collision_avoidance_caps blocked stopped_leader (by decide!) (by decide!)

/-! ## Behaviour planning -/

namespace PathPlanner

theorem set_state_eq (p : PathPlanner) (st : STATE) :
    p.set_state st =
      { p with state_ := st, state_s_ := if p.state_ ≠ st then p.ref_s else p.state_s_ } := by
  unfold set_state
  split_ifs with h
  · rfl
  · simp only [ne_eq, not_not] at h
    subst h
    rfl

@[simp] theorem set_state_state (p : PathPlanner) (st : STATE) :
    (p.set_state st).state_ = st := by rw [set_state_eq]

@[simp] theorem set_state_lane_info (p : PathPlanner) (st : STATE) :
    (p.set_state st).lane_info = p.lane_info := by rw [set_state_eq]

@[simp] theorem set_state_target_lane (p : PathPlanner) (st : STATE) :
    (p.set_state st).target_lane = p.target_lane := by rw [set_state_eq]

@[simp] theorem set_state_target_speed (p : PathPlanner) (st : STATE) :
    (p.set_state st).target_speed = p.target_speed := by rw [set_state_eq]

@[simp] theorem set_state_lane (p : PathPlanner) (st : STATE) :
    (p.set_state st).lane = p.lane := by rw [set_state_eq]

@[simp] theorem set_state_ref_v (p : PathPlanner) (st : STATE) :
    (p.set_state st).ref_v = p.ref_v := by rw [set_state_eq]

@[simp] theorem set_state_accel (p : PathPlanner) (st : STATE) :
    (p.set_state st).accel = p.accel := by rw [set_state_eq]

@[simp] theorem set_state_emergy_accel (p : PathPlanner) (st : STATE) :
    (p.set_state st).emergy_accel = p.emergy_accel := by rw [set_state_eq]

/-- The loop on `meters_in_state` ends: more than `n` units of fuel are enough for a start
value of at least `-n * max_s`, and the result is not negative. -/
theorem wrap_meters_ends (max_s : ℚ) :
    ∀ (n : Nat) (x : ℚ), -x ≤ n * max_s → ∀ fuel : Nat, n < fuel →
      ∃ m, wrap_meters max_s fuel x = Except.ok m ∧ 0 ≤ m := by
  intro n
  induction n with
  | zero =>
    intro x hx fuel hf
    obtain ⟨f, rfl⟩ : ∃ f, fuel = f + 1 := ⟨fuel - 1, by omega⟩
    have h0 : ¬ x < 0 := by
      simp only [Nat.cast_zero, zero_mul] at hx
      linarith
    exact ⟨x, by simp only [wrap_meters, if_neg h0], not_lt.mp h0⟩
  | succ n ih =>
    intro x hx fuel hf
    obtain ⟨f, rfl⟩ : ∃ f, fuel = f + 1 := ⟨fuel - 1, by omega⟩
    by_cases h0 : x < 0
    · obtain ⟨m, hm, hm0⟩ := ih (x + max_s) (by push_cast at hx; linarith) f (by omega)
      exact ⟨m, by simp only [wrap_meters, if_pos h0, hm], hm0⟩
    · exact ⟨x, by simp only [wrap_meters, if_neg h0], not_lt.mp h0⟩

theorem plan_start_same_inputs (p : PathPlanner) : same_inputs p p.plan_start := by
  unfold plan_start same_inputs
  split_ifs <;> simp

theorem plan_keeplane_same_inputs {p q : PathPlanner} {ego : ego_t} {best_lane : Int} {m : ℚ}
    (h : p.plan_keeplane ego best_lane m = Except.ok q) : same_inputs p q := by
  simp only [plan_keeplane] at h
  obtain ⟨tl, -, h⟩ := bind_eq_ok h
  split_ifs at h
  · obtain ⟨bl, -, h⟩ := bind_eq_ok h
    obtain ⟨sl, -, h⟩ := bind_eq_ok h
    split_ifs at h <;>
      · simp only [pure_eq_ok, Except.ok.injEq] at h
        subst h
        simp [same_inputs]
  · simp only [pure_eq_ok, Except.ok.injEq] at h
    subst h
    simp [same_inputs]

theorem plan_prelanechange_same_inputs {p q : PathPlanner} {best_lane : Int} {m : ℚ}
    (h : p.plan_prelanechange best_lane m = Except.ok q) : same_inputs p q := by
  simp only [plan_prelanechange] at h
  obtain ⟨tl, -, h⟩ := bind_eq_ok h
  split_ifs at h
  · simp only [pure_eq_ok, Except.ok.injEq] at h
    subst h
    simp [same_inputs]
  · simp only [pure_eq_ok, Except.ok.injEq] at h
    subst h
    simp [same_inputs]
  · obtain ⟨rl, -, h⟩ := bind_eq_ok h
    split_ifs at h
    · obtain ⟨tl2, -, h⟩ := bind_eq_ok h
      simp only [pure_eq_ok, Except.ok.injEq] at h
      subst h
      simp [same_inputs]
    · simp only [pure_eq_ok, Except.ok.injEq] at h
      subst h
      simp [same_inputs]

theorem plan_lanechange_same_inputs {p q : PathPlanner} {m : ℚ}
    (h : p.plan_lanechange m = Except.ok q) : same_inputs p q := by
  simp only [plan_lanechange] at h
  obtain ⟨tl, -, h⟩ := bind_eq_ok h
  split_ifs at h <;>
    · simp only [pure_eq_ok, Except.ok.injEq] at h
      subst h
      simp [same_inputs]

theorem plan_branch_same_inputs {p q : PathPlanner} {ego : ego_t} {best_lane : Int} {m : ℚ}
    (h : p.plan_branch ego best_lane m = Except.ok q) : same_inputs p q := by
  unfold plan_branch at h
  split at h
  · exact plan_keeplane_same_inputs h
  · exact plan_prelanechange_same_inputs h
  · exact plan_lanechange_same_inputs h
  · simp at h

/-- The clamp that ends `create_plan`: its target speed is in `[0, road_speed_limit]` when
that limit is not negative, and the inputs of the later steps are as before. -/
theorem create_plan_clamp {e : Extern} {fuel : Nat} {p q : PathPlanner} {ego : ego_t}
    (h : create_plan e fuel p ego = Except.ok q) :
    same_inputs p q ∧ 0 ≤ q.target_speed ∧
      (0 ≤ p.road_speed_limit → q.target_speed ≤ p.road_speed_limit) := by
  unfold create_plan at h
  obtain ⟨best_lane, -, h⟩ := bind_eq_ok h
  obtain ⟨meters, -, h⟩ := bind_eq_ok h
  obtain ⟨p2, hp2, h⟩ := bind_eq_ok h
  simp only [pure_eq_ok, Except.ok.injEq] at h
  subst h
  obtain ⟨a1, a2, a3, a4, a5⟩ := plan_start_same_inputs p
  obtain ⟨b1, b2, b3, b4, b5⟩ := plan_branch_same_inputs hp2
  refine ⟨⟨b1.trans a1, b2.trans a2, b3.trans a3, b4.trans a4, b5.trans a5⟩,
    le_max_left _ _, fun hL => ?_⟩
  have hl : p2.road_speed_limit = p.road_speed_limit := by
    unfold road_speed_limit
    rw [b1, a1]
  simp only [hl]
  exact max_le hL (min_le_left _ _)

/-- Target speed bounds after `collision_avoidance`: it never raises the target speed. -/
theorem collision_avoidance_le {p q : PathPlanner} (h : p.collision_avoidance = Except.ok q)
    (h0 : 0 ≤ p.target_speed) :
    same_inputs p q ∧ 0 ≤ q.target_speed ∧ q.target_speed ≤ p.target_speed := by
  unfold collision_avoidance at h
  obtain ⟨tl, -, h⟩ := bind_eq_ok h
  split_ifs at h <;>
    · simp only [Except.ok.injEq] at h
      subst h
      simp [same_inputs, h0]

/-- Counterexample to C2 as stated: for an ego at 30 m/s on an empty road, with no previous
path, the reference speed is 30 and the cycle ends with target speed 29.9, above
`mph2mps 50 - 0.2 = 22.152`. -/
theorem plan_cycle_above_limit :
    (get_reference grid cruising fast_ego (1 / 50) >>=
        fun p => process_sensor_fusion grid p fast_ego (1 / 50)) = Except.ok speeding ∧
      plan_cycle grid 1 speeding fast_ego = Except.ok speeding_next ∧
      speeding.road_speed_limit = 22152 / 1000 ∧
      ¬ speeding_next.target_speed ≤ speeding.road_speed_limit := by
  decide!

/-- C2, amended: when a planning cycle (`create_plan`, `collision_avoidance`,
`speed_control`) completes, with a non-negative `road_speed_limit` and non-negative
acceleration limits, the target speed it ends with lies in `[0, max road_speed_limit ref_v]`;
it lies in `[0, road_speed_limit]` whenever `ref_v ≤ road_speed_limit`. -/
theorem plan_cycle_speed_range (e : Extern) (fuel : Nat) (p q : PathPlanner) (ego : ego_t)
    (h : plan_cycle e fuel p ego = Except.ok q) (hL : 0 ≤ p.road_speed_limit)
    (ha : 0 ≤ p.accel) (he : 0 ≤ p.emergy_accel) :
    0 ≤ q.target_speed ∧ q.target_speed ≤ max p.road_speed_limit p.ref_v ∧
      (p.ref_v ≤ p.road_speed_limit → q.target_speed ≤ p.road_speed_limit) := by
  unfold plan_cycle at h
  obtain ⟨p1, h1, h⟩ := bind_eq_ok h
  obtain ⟨p2, h2, h⟩ := bind_eq_ok h
  simp only [pure_eq_ok, Except.ok.injEq] at h
  subst h
  obtain ⟨⟨-, -, a3, a4, a5⟩, c0, cL⟩ := create_plan_clamp h1
  obtain ⟨⟨-, -, b3, b4, b5⟩, d0, dL⟩ := collision_avoidance_le h2 c0
  have hv : p2.ref_v = p.ref_v := b3.trans a3
  have hac : p2.accel = p.accel := b4.trans a4
  have hem : p2.emergy_accel = p.emergy_accel := b5.trans a5
  have hts : p2.target_speed ≤ p.road_speed_limit := dL.trans (cL hL)
  have key : p2.speed_control.target_speed ≤ max p.road_speed_limit p.ref_v := by
    unfold speed_control
    split_ifs with c1 c2 c3
    · exact max_le (max_le (hts.trans (le_max_left _ _))
        (le_max_of_le_right (by rw [hv, hem]; linarith))) (le_max_of_le_left hL)
    · exact max_le (max_le (hts.trans (le_max_left _ _))
        (le_max_of_le_right (by rw [hv, hac]; linarith))) (le_max_of_le_left hL)
    · exact max_le ((min_le_left _ _).trans (hts.trans (le_max_left _ _)))
        (le_max_of_le_left hL)
    · exact max_le (by rw [hv]; exact le_max_right _ _) (le_max_of_le_left hL)
  refine ⟨?_, key, fun hr => ?_⟩
  · unfold speed_control
    exact le_max_right _ _
  · rwa [max_eq_left hr] at key

/-- Witness of C2, amended: `cruising` ends its cycle with target speed 20.1. -/
theorem plan_cycle_speed_range_witness :
    0 ≤ cruising_next.target_speed ∧
      cruising_next.target_speed ≤ max cruising.road_speed_limit cruising.ref_v ∧
      (cruising.ref_v ≤ cruising.road_speed_limit →
        cruising_next.target_speed ≤ cruising.road_speed_limit) :=
  plan_cycle_speed_range grid 1 cruising cruising_next lone_ego
    (by decide!) (by decide!) (by decide!) (by decide!)

end PathPlanner

/-! ## Traffic model -/

namespace PathPlanner

theorem vec_set_eq_ok {α : Type} {v w : List α} {i : Int} {a : α}
    (h : vec_set v i a = Except.ok w) : 0 ≤ i ∧ w = v.set i.toNat a := by
  unfold vec_set at h
  split_ifs at h with hi
  simp only [Except.ok.injEq] at h
  exact ⟨hi.1, h.symm⟩

/-- One car keeps the number of lanes and the feasibility test of every lane, and changes
no lane but its own. -/
theorem sense_car_inv {e : Extern} {p : PathPlanner} {n : Int} {dt : ℚ}
    {L L' : List lane_info_t} {car : car_t} (h : sense_car e p n dt L car = Except.ok L')
    (hL : ∀ l ∈ L, feasible_ok p l) :
    L'.length = L.length ∧ (∀ l ∈ L', feasible_ok p l) ∧
      ∀ i : Nat, p.lane.lane_at car.d ≠ (i : Int) → L'.get? i = L.get? i := by
  simp only [sense_car] at h
  split_ifs at h with hc
  · obtain ⟨laneinfo, -, h⟩ := bind_eq_ok h
    obtain ⟨h0, rfl⟩ := vec_set_eq_ok h
    refine ⟨List.length_set _ _ _, fun l hl => ?_, fun i hi => ?_⟩
    · rcases List.mem_or_eq_of_mem_set hl with hm | rfl
      · exact hL l hm
      · simp [feasible_ok, evaluate_feasible, and_assoc]
    · have hne : (p.lane.lane_at car.d).toNat ≠ i := by
        intro heq
        apply hi
        rw [← heq, Int.toNat_of_nonneg h0]
      simp only [List.get?_eq_getElem?]
      exact List.getElem?_set_ne hne
  · have h' : Except.ok L = Except.ok L' := h
    simp only [Except.ok.injEq] at h'
    subst h'
    exact ⟨rfl, hL, fun _ _ => rfl⟩

/-- The loop over the cars keeps the number of lanes and the feasibility test of every
lane, and leaves a lane that no car is in as it was. -/
theorem sense_cars_inv {e : Extern} {p : PathPlanner} {n : Int} {dt : ℚ} (cars : List car_t) :
    ∀ {L L' : List lane_info_t}, cars.foldlM (sense_car e p n dt) L = Except.ok L' →
      (∀ l ∈ L, feasible_ok p l) →
      L'.length = L.length ∧ (∀ l ∈ L', feasible_ok p l) ∧
        ∀ i : Nat, (∀ car ∈ cars, p.lane.lane_at car.d ≠ (i : Int)) → L'.get? i = L.get? i := by
  induction cars with
  | nil =>
    intro L L' h hL
    simp only [List.foldlM_nil, pure_eq_ok, Except.ok.injEq] at h
    subst h
    exact ⟨rfl, hL, fun _ _ => rfl⟩
  | cons car cars ih =>
    intro L L' h hL
    rw [List.foldlM_cons] at h
    obtain ⟨L1, h1, h⟩ := bind_eq_ok h
    obtain ⟨a1, a2, a3⟩ := sense_car_inv h1 hL
    obtain ⟨b1, b2, b3⟩ := ih h a2
    refine ⟨b1.trans a1, b2, fun i hi => ?_⟩
    rw [b3 i (fun c hc => hi c (List.mem_cons_of_mem _ hc)), a3 i (hi car (List.mem_cons_self _ _))]

/-- C8: after `process_sensor_fusion` there is one entry per lane; in every entry the
`feasible` flag is true if and only if `front_gap` and `front_gap_next` exceed
`lane_change_front_buffer` and `back_gap` and `back_gap_next` are below
`lane_change_back_buffer`, on the values recorded last; and the entry of a lane in which no
observation lies is the initial one, which is feasible and clear (for buffers inside the
initial gaps `1000` and `-1000`, as the source's `10` and `-10`). -/
theorem process_sensor_fusion_feasible (e : Extern) (p q : PathPlanner) (ego : ego_t) (dt : ℚ)
    (h : process_sensor_fusion e p ego dt = Except.ok q)
    (hf : p.lane_change_front_buffer < 1000) (hb : -1000 < p.lane_change_back_buffer) :
    (q.lane_info.length : Int) = p.lane.lane_count ∧
      (∀ l ∈ q.lane_info, feasible_ok p l) ∧
      ∀ (i : Nat) (l : lane_info_t), q.lane_info.get? i = some l →
        (∀ car ∈ ego.cars, p.lane.lane_at car.d ≠ (i : Int)) →
        l = {} ∧ l.feasible = true ∧ l.is_clear = true := by
  unfold process_sensor_fusion at h
  split_ifs at h with hc
  obtain ⟨L, hfold, h⟩ := bind_eq_ok h
  simp only [pure_eq_ok, Except.ok.injEq] at h
  subst h
  have hinit : ∀ l ∈ List.replicate p.lane.lane_count.toNat ({} : lane_info_t),
      feasible_ok p l := by
    intro l hl
    rw [List.eq_of_mem_replicate hl]
    simp [feasible_ok, hf, hb]
  obtain ⟨a1, a2, a3⟩ := sense_cars_inv ego.cars hfold hinit
  refine ⟨?_, a2, fun i l hl hno => ?_⟩
  · simp only [a1, List.length_replicate]
    exact Int.toNat_of_nonneg (not_lt.mp hc)
  · simp only at hl
    rw [a3 i hno] at hl
    have hmem : l ∈ List.replicate p.lane.lane_count.toNat ({} : lane_info_t) :=
      List.get?_mem hl
    rw [List.eq_of_mem_replicate hmem]
    exact ⟨rfl, rfl, by decide⟩

/-- Witness of C8: `cruising` senses a car ahead in lane 1 and a car behind in lane 0;
lane 2 has no observation. -/
theorem process_sensor_fusion_feasible_witness :
    (sensed.lane_info.length : Int) = cruising.lane.lane_count ∧
      (∀ l ∈ sensed.lane_info, feasible_ok cruising l) ∧
      ∀ (i : Nat) (l : lane_info_t), sensed.lane_info.get? i = some l →
        (∀ car ∈ traffic_ego.cars, cruising.lane.lane_at car.d ≠ (i : Int)) →
        l = {} ∧ l.feasible = true ∧ l.is_clear = true :=
  process_sensor_fusion_feasible grid cruising sensed traffic_ego (1 / 50)
    (by decide!) (by decide!) (by decide!)

end PathPlanner

/-! ## Trajectory synthesis -/

namespace PathPlanner

theorem to_reference_ok (e : Extern) (p : PathPlanner) :
    ∀ (xs ys : List ℚ), xs.length = ys.length → ∃ r, to_reference e p xs ys = Except.ok r := by
  intro xs
  induction xs with
  | nil => intro ys _; exact ⟨_, rfl⟩
  | cons a xs ih =>
    intro ys h
    cases ys with
    | nil => simp at h
    | cons b ys =>
      obtain ⟨r, hr⟩ := ih ys (by simpa using h)
      simp only [to_reference, hr, bind_ok, pure_eq_ok]
      exact ⟨_, rfl⟩

theorem anchors_length {e : Extern} {fuel : Nat} {p : PathPlanner} {d : ℚ} {a : path_t}
    (h : anchors e fuel p d = Except.ok a) : a.x.length = a.y.length := by
  simp only [anchors] at h
  obtain ⟨w1, -, h⟩ := bind_eq_ok h
  obtain ⟨w2, -, h⟩ := bind_eq_ok h
  obtain ⟨w3, -, h⟩ := bind_eq_ok h
  simp only [pure_eq_ok, Except.ok.injEq] at h
  subst h
  simp [path_t.append]

/-- The sampling loop from the counter `i` on a path of `len` points: with
`r = n_path_points - len - i + 1`, it appends `(r + 1) / 2` points and stops. -/
theorem sample_loop_appends (e : Extern) (p : PathPlanner) (curve : ℚ → ℚ) (t ts : ℚ)
    (hn : p.n_path_points < 2 ^ 31) :
    ∀ (fuel : Nat) (i : Int) (path : path_t), 1 ≤ i → (path.x.length : Int) ≤ p.n_path_points →
      -1 ≤ p.n_path_points - path.x.length - i + 1 →
      (p.n_path_points - path.x.length - i + 1 + 1) / 2 < fuel →
      ∃ new_x new_y, sample_loop e p curve t ts fuel i path
          = Except.ok ⟨path.x ++ new_x, path.y ++ new_y⟩ ∧
        (new_x.length : Int) = (p.n_path_points - path.x.length - i + 1 + 1) / 2 ∧
        new_y.length = new_x.length := by
  intro fuel
  induction fuel with
  | zero =>
    intro i path _ _ hr hf
    exfalso
    have : 0 ≤ (p.n_path_points - path.x.length - i + 1 + 1) / 2 :=
      Int.ediv_nonneg (by linarith) (by norm_num)
    simp only [Nat.cast_zero] at hf
    linarith
  | succ fuel ih =>
    intro i path hi hlen hr hf
    have hN : to_size_t p.n_path_points = p.n_path_points := by
      unfold to_size_t
      exact Int.emod_eq_of_lt (by linarith [Int.ofNat_zero_le path.x.length])
        (by linarith [show (2 : Int) ^ 31 < 2 ^ 64 by norm_num])
    have hI : to_size_t i = i := by
      unfold to_size_t
      exact Int.emod_eq_of_lt (by linarith)
        (by linarith [show (2 : Int) ^ 31 < 2 ^ 64 by norm_num,
          Int.ofNat_zero_le path.x.length])
    have hD : to_size_t (p.n_path_points - path.x.length) = p.n_path_points - path.x.length := by
      unfold to_size_t
      exact Int.emod_eq_of_lt (by linarith)
        (by linarith [show (2 : Int) ^ 31 < 2 ^ 64 by norm_num,
          Int.ofNat_zero_le path.x.length])
    unfold sample_loop
    rw [hN, hI, hD]
    by_cases hc : i ≤ p.n_path_points - path.x.length
    · rw [if_pos hc]
      have hlen' : (((path.append_xy (sample_point e p curve t ts i)).x.length : Nat) : Int)
          = path.x.length + 1 := by
        simp [path_t.append_xy]
      obtain ⟨nx, ny, h1, h2, h3⟩ := ih (i + 1)
        (path.append_xy (sample_point e p curve t ts i))
        (by linarith) (by rw [hlen']; linarith) (by rw [hlen']; linarith)
        (by
          rw [hlen']
          push_cast at hf
          omega)
      refine ⟨(sample_point e p curve t ts i).x :: nx, (sample_point e p curve t ts i).y :: ny,
        ?_, ?_, ?_⟩
      · rw [h1]
        simp only [path_t.append_xy, List.append_assoc, List.singleton_append]
      · rw [hlen'] at h2
        simp only [List.length_cons, Nat.cast_add, Nat.cast_one, h2]
        omega
      · simp [h3]
    · rw [if_neg hc]
      refine ⟨[], [], by simp, ?_, rfl⟩
      simp only [List.length_nil, Nat.cast_zero]
      omega

/-- C1: for a previous path of `p ≤ n_path_points` points, `create_trajectory` writes the
previous-path points, unchanged and in order, followed by `(n_path_points - p + 1) / 2`
newly sampled points, not by `n_path_points - p`: the bound of the sampling loop is read
again as the path grows. -/
theorem create_trajectory_length (e : Extern) (fuel : Nat) (p : PathPlanner) (ego : ego_t)
    (target_lane : Int) (target_speed dt : ℚ) (a : path_t)
    (ha : anchors e fuel p (p.lane.safe_lane_center target_lane) = Except.ok a)
    (hn : p.n_path_points < 2 ^ 31)
    (hp : (ego.previous_path.x.length : Int) ≤ p.n_path_points)
    (hf : (p.n_path_points - ego.previous_path.x.length + 1) / 2 < fuel) :
    ∃ new_x new_y, create_trajectory e fuel p ego target_lane target_speed dt
        = Except.ok ⟨ego.previous_path.x ++ new_x, ego.previous_path.y ++ new_y⟩ ∧
      (new_x.length : Int) = (p.n_path_points - ego.previous_path.x.length + 1) / 2 ∧
      new_y.length = new_x.length := by
  obtain ⟨r, hr⟩ := to_reference_ok e p a.x a.y (anchors_length ha)
  have hrw : p.n_path_points - (ego.previous_path.x.length : Int) - 1 + 1 + 1
      = p.n_path_points - ego.previous_path.x.length + 1 := by ring
  obtain ⟨nx, ny, h1, h2, h3⟩ := sample_loop_appends e p (e.spline r.x r.y)
    (30 / norm e 30 (e.spline r.x r.y 30) * dt) target_speed hn fuel 1
    ⟨ego.previous_path.x, ego.previous_path.y⟩ le_rfl hp (by simp only; linarith)
    (by simp only; rw [hrw]; exact hf)
  refine ⟨nx, ny, ?_, ?_, h3⟩
  · simp only [create_trajectory, ha, hr, bind_ok]
    exact h1
  · rw [h2]
    simp only
    rw [hrw]

/-- Witness of C1: with no previous path and `n_path_points = 50`, `create_trajectory`
writes 25 points. -/
theorem create_trajectory_length_witness :
    ∃ new_x new_y, create_trajectory grid 60 cruising lone_ego 1 20 (1 / 50)
        = Except.ok ⟨lone_ego.previous_path.x ++ new_x, lone_ego.previous_path.y ++ new_y⟩ ∧
      (new_x.length : Int) = 25 ∧ new_y.length = new_x.length := by
  obtain ⟨nx, ny, h1, h2, h3⟩ := create_trajectory_length grid 60 cruising lone_ego 1 20 (1 / 50)
    ⟨[49, 50, 80, 110, 140], [-6, -6, -6, -6, -6]⟩ (by decide!) (by decide!) (by decide!)
    (by decide!)
  exact ⟨nx, ny, h1, h2.trans (by decide!), h3⟩

end PathPlanner

/-! ## Road map -/

namespace RoadMap

theorem get_eq_ok {w : waypoints_list} {i : Int} {wp : waypoint_t}
    (h : w.get i = Except.ok wp) :
    0 ≤ i ∧ i < w.size ∧ w.s.get? i.toNat = some wp.s := by
  unfold waypoints_list.get at h
  obtain ⟨x, hx, h⟩ := bind_eq_ok h
  obtain ⟨y, -, h⟩ := bind_eq_ok h
  obtain ⟨s, hs, h⟩ := bind_eq_ok h
  obtain ⟨dx, -, h⟩ := bind_eq_ok h
  obtain ⟨dy, -, h⟩ := bind_eq_ok h
  simp only [pure_eq_ok, Except.ok.injEq] at h
  subst h
  obtain ⟨h0, hlt, -⟩ := vec_at_eq_ok hx
  obtain ⟨-, -, hget⟩ := vec_at_eq_ok hs
  refine ⟨h0, ?_, hget⟩
  unfold waypoints_list.size
  omega

/-- When `s` is above every `s` of the table, the segment scan never stops inside the table:
it ends in a fault, the read of `waypoints[size]` unless the fuel ends first. -/
theorem scan_beyond_table (w : waypoints_list) (s : ℚ) (hsize : w.size < 2 ^ 31)
    (hs : ∀ v ∈ w.s, v < s) :
    ∀ (fuel : Nat) (prev_wp : Int), ∃ f, scan w s fuel prev_wp = Except.error f := by
  intro fuel
  induction fuel with
  | zero => intro prev_wp; exact ⟨_, rfl⟩
  | succ fuel ih =>
    intro prev_wp
    unfold scan
    cases hg : w.get (prev_wp + 1) with
    | error f => exact ⟨f, rfl⟩
    | ok wp =>
      obtain ⟨h0, hlt, hget⟩ := get_eq_ok hg
      have hlast : to_int (to_size_t (w.size - 1)) = w.size - 1 := by
        unfold to_int to_size_t
        omega
      have hcond : s > wp.s ∧ prev_wp < to_int (to_size_t (w.size - 1)) :=
        ⟨hs _ (List.get?_mem hget), by rw [hlast]; omega⟩
      simp only [bind_ok, if_pos hcond]
      exact ih (prev_wp + 1)

/-- C9: `to_xy` does not wrap `s`.  For every table whose `s` values are at most `max_s` and
every `k > 0`, `to_xy (max_s + k) d` scans past the closing record and reads the table out of
range, so it is not the point `to_xy k d` wherever that point is defined. -/
theorem to_xy_no_wrap (e : Extern) (fuel : Nat) (r : RoadMap) (k d : ℚ)
    (hsize : r.waypoints.size < 2 ^ 31) (hs : ∀ v ∈ r.waypoints.s, v ≤ r.max_s) (hk : 0 < k) :
    (∃ f, r.to_xy e fuel (r.max_s + k) d = Except.error f) ∧
      ∀ xy, r.to_xy e fuel k d = Except.ok xy →
        r.to_xy e fuel (r.max_s + k) d ≠ r.to_xy e fuel k d := by
  have herr : ∃ f, r.to_xy e fuel (r.max_s + k) d = Except.error f := by
    obtain ⟨f, hf⟩ := scan_beyond_table r.waypoints (r.max_s + k) hsize
      (fun v hv => by linarith [hs v hv]) fuel (-1)
    exact ⟨f, by simp only [to_xy, hf, bind_error]⟩
  refine ⟨herr, fun xy hxy => ?_⟩
  obtain ⟨f, hf⟩ := herr
  rw [hf, hxy]
  exact fun h => by cases h

/-- Witness of C9 on the table loaded from `east_records`, at `k = 5`, `d = 0`. -/
theorem to_xy_no_wrap_witness :
    RoadMap.load {} east_records = Except.ok east_road ∧
      east_road.to_xy grid 10 5 0 = Except.ok ⟨5, 0⟩ ∧
      (∃ f, east_road.to_xy grid 10 (east_road.max_s + 5) 0 = Except.error f) ∧
      ∀ xy, east_road.to_xy grid 10 5 0 = Except.ok xy →
        east_road.to_xy grid 10 (east_road.max_s + 5) 0 ≠ east_road.to_xy grid 10 5 0 :=
  ⟨by decide!, by decide!,
    to_xy_no_wrap grid 10 east_road 5 0 (by decide!) (by decide!) (by decide!)⟩

/-- The sign of `d` in `to_frenet` is decided by the distance to the point `(1000, 2000)`:
on the table loaded from `west_records`, the point `to_xy 5 2` is `(995, 2)`, and `to_frenet`
with the heading π of the segment returns `(5, -2)`. -/
theorem to_frenet_to_xy_sign :
    RoadMap.load {} west_records = Except.ok west_road ∧
      west_road.to_xy grid 10 5 2 = Except.ok ⟨995, 2⟩ ∧
      grid.atan2 (0 - 0) (0 - 1000) = grid.M_PI ∧
      west_road.to_frenet grid 995 2 grid.M_PI = Except.ok ⟨5, -2⟩ := by
  decide!

/-- A point at arc length `σ` along a segment and lateral offset `d` to its right is mapped
back to `(s, d)` when the segment direction `(c, sn)` is a unit vector, `sqrt` is exact on
`σ * σ` and `d * d`, and the point is farther from `(1000, 2000)` than its projection. -/
theorem frenet_on_segment_exact (e : Extern) (A B : waypoint_t) (x y σ d c sn len : ℚ)
    (hlen : 0 < len) (hunit : c * c + sn * sn = 1)
    (hx : B.x - A.x = len * c) (hy : B.y - A.y = len * sn)
    (hxx : x - A.x = σ * c + d * sn) (hyy : y - A.y = σ * sn - d * c)
    (hsqs : e.sqrt (σ * σ) = σ) (hsqd : e.sqrt (d * d) = d)
    (hfar : distance e (1000 - A.x) (2000 - A.y) (σ * c) (σ * sn)
      < distance e (1000 - A.x) (2000 - A.y) (σ * c + d * sn) (σ * sn - d * c)) :
    frenet_on_segment e A B x y = ⟨A.s + σ, d⟩ := by
  have hne : len ≠ 0 := hlen.ne'
  have hnum : (σ * c + d * sn) * (len * c) + (σ * sn - d * c) * (len * sn) = len * σ := by
    linear_combination (len * σ) * hunit
  have hden : len * c * (len * c) + len * sn * (len * sn) = len * len := by
    linear_combination (len * len) * hunit
  have hpn : ((σ * c + d * sn) * (len * c) + (σ * sn - d * c) * (len * sn))
      / (len * c * (len * c) + len * sn * (len * sn)) = σ / len := by
    rw [hnum, hden]
    field_simp
    ring
  have hpx : σ / len * (len * c) = σ * c := by
    field_simp
    ring
  have hpy : σ / len * (len * sn) = σ * sn := by
    field_simp
    ring
  have hs2 : (σ * c - 0) * (σ * c - 0) + (σ * sn - 0) * (σ * sn - 0) = σ * σ := by
    linear_combination (σ * σ) * hunit
  have hd2 : (σ * c - (σ * c + d * sn)) * (σ * c - (σ * c + d * sn))
      + (σ * sn - (σ * sn - d * c)) * (σ * sn - (σ * sn - d * c)) = d * d := by
    linear_combination (d * d) * hunit
  simp only [distance, norm] at hfar
  simp only [frenet_on_segment, distance, norm, hxx, hyy, hx, hy, hpn, hpx, hpy, hs2, hd2,
    hsqs, hsqd, if_neg (not_le.mpr hfar)]

/-- The round trip on a segment where the library is exact.  When the segment scan places
`s` on the segment from waypoint `i ≥ 0` to waypoint `i + 1`, `cos` and `sin` of the segment
heading are its direction cosines, the turn by `M_PI / 2` is exact, `sqrt` is exact on the
squares of `s - waypoints[i].s` and of `d`, `next_waypoint` returns `i + 1` for the point
`to_xy s d`, and that point is farther from `(1000, 2000)` than its projection on the
segment, then `to_frenet` of the point `to_xy s d` returns `(s, d)`. -/
theorem to_frenet_to_xy_exact (e : Extern) (fuel : Nat) (r : RoadMap) (s d theta : ℚ)
    (i : Int) (A B : waypoint_t) (len : ℚ) (hsize : r.waypoints.size < 2 ^ 31)
    (hscan : scan r.waypoints s fuel (-1) = Except.ok i)
    (hA : r.waypoints.get i = Except.ok A) (hB : r.waypoints.get (i + 1) = Except.ok B)
    (hlen : 0 < len)
    (hx : B.x - A.x = len * e.cos (e.atan2 (B.y - A.y) (B.x - A.x)))
    (hy : B.y - A.y = len * e.sin (e.atan2 (B.y - A.y) (B.x - A.x)))
    (hunit : e.cos (e.atan2 (B.y - A.y) (B.x - A.x)) * e.cos (e.atan2 (B.y - A.y) (B.x - A.x))
      + e.sin (e.atan2 (B.y - A.y) (B.x - A.x)) * e.sin (e.atan2 (B.y - A.y) (B.x - A.x)) = 1)
    (hpc : e.cos (e.atan2 (B.y - A.y) (B.x - A.x) - e.M_PI / 2)
      = e.sin (e.atan2 (B.y - A.y) (B.x - A.x)))
    (hps : e.sin (e.atan2 (B.y - A.y) (B.x - A.x) - e.M_PI / 2)
      = -e.cos (e.atan2 (B.y - A.y) (B.x - A.x)))
    (hsqs : e.sqrt ((s - A.s) * (s - A.s)) = s - A.s) (hsqd : e.sqrt (d * d) = d)
    (hnext : next_waypoint e r (xy_on_segment e B A s d).x (xy_on_segment e B A s d).y theta
      = Except.ok (i + 1))
    (hfar : distance e (1000 - A.x) (2000 - A.y)
        ((s - A.s) * e.cos (e.atan2 (B.y - A.y) (B.x - A.x)))
        ((s - A.s) * e.sin (e.atan2 (B.y - A.y) (B.x - A.x)))
      < distance e (1000 - A.x) (2000 - A.y)
        ((s - A.s) * e.cos (e.atan2 (B.y - A.y) (B.x - A.x))
          + d * e.sin (e.atan2 (B.y - A.y) (B.x - A.x)))
        ((s - A.s) * e.sin (e.atan2 (B.y - A.y) (B.x - A.x))
          - d * e.cos (e.atan2 (B.y - A.y) (B.x - A.x)))) :
    r.to_xy e fuel s d = Except.ok (xy_on_segment e B A s d) ∧
      r.to_frenet e (xy_on_segment e B A s d).x (xy_on_segment e B A s d).y theta
        = Except.ok ⟨s, d⟩ := by
  obtain ⟨hi0, -, -⟩ := get_eq_ok hA
  obtain ⟨-, hi1, -⟩ := get_eq_ok hB
  have hsz : to_size_t r.waypoints.size = r.waypoints.size := by
    unfold to_size_t
    omega
  have hwp2 : to_int (to_size_t (i + 1) % to_size_t r.waypoints.size) = i + 1 := by
    have h1 : to_size_t (i + 1) = i + 1 := by
      unfold to_size_t
      omega
    rw [h1, hsz, Int.emod_eq_of_lt (by omega) hi1]
    unfold to_int
    omega
  have hprev : to_int (to_size_t (i + 1 - 1) % to_size_t r.waypoints.size) = i := by
    have h1 : to_size_t (i + 1 - 1) = i := by
      unfold to_size_t
      omega
    rw [h1, hsz, Int.emod_eq_of_lt hi0 (by omega)]
    unfold to_int
    omega
  refine ⟨?_, ?_⟩
  · simp only [to_xy, hscan, bind_ok, hwp2, hA, hB, pure_eq_ok]
  · simp only [to_frenet, hnext, bind_ok, hprev, hA, hB, pure_eq_ok, Except.ok.injEq]
    have h := frenet_on_segment_exact e A B (xy_on_segment e B A s d).x
      (xy_on_segment e B A s d).y (s - A.s) d
      (e.cos (e.atan2 (B.y - A.y) (B.x - A.x))) (e.sin (e.atan2 (B.y - A.y) (B.x - A.x)))
      len hlen hunit hx hy
      (by simp only [xy_on_segment, hpc]; ring)
      (by simp only [xy_on_segment, hps]; ring)
      hsqs hsqd hfar
    rw [h]
    congr 1
    ring

/-- The round trip of `s = 5`, `d = 2` on the table loaded from `east_records`. -/
theorem to_frenet_to_xy_exact_witness :
    east_road.to_xy grid 10 5 2
        = Except.ok (xy_on_segment grid ⟨1000, 0, 1000, 0, -1⟩ ⟨0, 0, 0, 0, -1⟩ 5 2) ∧
      east_road.to_frenet grid
          (xy_on_segment grid ⟨1000, 0, 1000, 0, -1⟩ ⟨0, 0, 0, 0, -1⟩ 5 2).x
          (xy_on_segment grid ⟨1000, 0, 1000, 0, -1⟩ ⟨0, 0, 0, 0, -1⟩ 5 2).y 0
        = Except.ok ⟨5, 2⟩ :=
  to_frenet_to_xy_exact grid 10 east_road 5 2 0 0 ⟨0, 0, 0, 0, -1⟩ ⟨1000, 0, 1000, 0, -1⟩ 1000
    (by decide!) (by decide!) (by decide!) (by decide!) (by decide!) (by decide!) (by decide!)
    (by decide!) (by decide!) (by decide!) (by decide!) (by decide!) (by decide!) (by decide!)

/-- C10: the round trip of `s = 999`, `d = 6` on the table loaded from `east_records`, for
every library that is exact on `sqrt 1` and `sqrt 36`, orders the square roots of the
squared distances involved, and whose `atan2 6 1` (1.4056 rad) is above `M_PI / 4` and below
`2 * M_PI - M_PI / 4`.  The point `(999, -6)` lies abeam of waypoint 1 at `(1000, 0)`: the
bearing to it is more than `M_PI / 4` off the heading 0 of the segment, `next_waypoint`
returns 2, and `to_frenet` projects the point on the closing segment: it returns
`s' = 1001`, `d' = 6`. -/
theorem to_frenet_abeam (e : Extern)
    (hone : e.sqrt 1 = 1) (hsix : e.sqrt 36 = 6)
    (hnear : e.sqrt 37 < e.sqrt 998037) (hmax : e.sqrt 998037 < DBL_MAX)
    (hside : e.sqrt 4000001 < e.sqrt 4024037)
    (hlo : e.M_PI / 4 < e.atan2 6 1) (hhi : e.atan2 6 1 < 2 * e.M_PI - e.M_PI / 4) :
    next_waypoint e east_road 999 (-6) 0 = Except.ok 2 ∧
      east_road.to_frenet e 999 (-6) 0 = Except.ok ⟨1001, 6⟩ := by
  have hpi : 0 < e.M_PI := by linarith
  have hd0 : distance e 999 (-6) 0 0 = e.sqrt 998037 := by
    unfold distance norm; norm_num
  have hd1 : distance e 999 (-6) 1000 0 = e.sqrt 37 := by
    unfold distance norm; norm_num
  have hclosest : closet_waypoint e east_road 999 (-6) = Except.ok 1 := by
    simp only [closet_waypoint, east_road, closet_loop, hd0, hd1, hmax, hnear, if_true,
      if_neg (not_lt.mpr (le_of_lt hnear))]
    norm_num
  have hangle : min (2 * e.M_PI - |(0 : ℚ) - e.atan2 (0 - -6) (1000 - 999)|)
      |(0 : ℚ) - e.atan2 (0 - -6) (1000 - 999)| > e.M_PI / 4 := by
    have h61 : e.atan2 (0 - -6) (1000 - 999) = e.atan2 6 1 := by norm_num
    rw [h61, zero_sub, abs_neg, abs_of_pos (by linarith)]
    exact lt_min (by linarith) hlo
  have hnext : next_waypoint e east_road 999 (-6) 0 = Except.ok 2 := by
    have hx : vec_at east_road.waypoints.x 1 = Except.ok 1000 := by decide!
    have hy : vec_at east_road.waypoints.y 1 = Except.ok 0 := by decide!
    have hidx : to_int (to_size_t (1 + 1) % to_size_t east_road.waypoints.size) = 2 := by
      decide!
    simp only [next_waypoint, hclosest, bind_ok, hx, hy, if_pos hangle, hidx, pure_eq_ok]
  refine ⟨hnext, ?_⟩
  have hprev : to_int (to_size_t (2 - 1) % to_size_t east_road.waypoints.size) = 1 := by
    decide!
  have hg2 : east_road.waypoints.get 2 = Except.ok ⟨0, 0, 6945554 / 1000, 0, -1⟩ := by
    decide!
  have hg1 : east_road.waypoints.get 1 = Except.ok ⟨1000, 0, 1000, 0, -1⟩ := by decide!
  simp only [to_frenet, hnext, bind_ok, hprev, hg2, hg1, pure_eq_ok, frenet_on_segment,
    distance, norm]
  norm_num [hone, hsix, not_le.mpr hside]

/-- Witness of C10 with the library `compass`: the table is the one loaded from
`east_records`, the point `(999, -6)` is `to_xy 999 6`, and the heading of the segment
is 0. -/
theorem to_frenet_abeam_witness :
    RoadMap.load {} east_records = Except.ok east_road ∧
      east_road.to_xy compass 10 999 6 = Except.ok ⟨999, -6⟩ ∧
      compass.atan2 (0 - 0) (1000 - 0) = 0 ∧
      next_waypoint compass east_road 999 (-6) 0 = Except.ok 2 ∧
      east_road.to_frenet compass 999 (-6) 0 = Except.ok ⟨1001, 6⟩ :=
  ⟨by decide!, by decide!, by decide!,
    to_frenet_abeam compass (by decide!) (by decide!) (by decide!) (by decide!) (by decide!)
      (by decide!) (by decide!)⟩

end RoadMap

/-! ## Loading the map -/

namespace RoadMap

theorem foldl_push_back (records : List waypoint_t) :
    ∀ w : waypoints_list, records.foldl waypoints_list.push_back w =
      ⟨w.x ++ records.map (·.x), w.y ++ records.map (·.y), w.s ++ records.map (·.s),
        w.dx ++ records.map (·.dx), w.dy ++ records.map (·.dy)⟩ := by
  induction records with
  | nil => intro w; simp
  | cons r rs ih =>
    intro w
    simp only [List.foldl_cons, ih, waypoints_list.push_back, List.map_cons, List.append_assoc,
      List.singleton_append]

theorem vec_at_append_left {α : Type} (v w : List α) (i : Nat) (h : i < v.length) :
    vec_at (v ++ w) (i : Int) = Except.ok (v.get ⟨i, h⟩) := by
  unfold vec_at
  rw [if_pos (Int.ofNat_zero_le i)]
  simp only [Int.toNat_ofNat, List.get?_eq_getElem?]
  rw [List.getElem?_append_left h, List.getElem?_eq_getElem h]
  rfl

theorem vec_at_append_length {α : Type} (v : List α) (a : α) :
    vec_at (v ++ [a]) (v.length : Int) = Except.ok a := by
  unfold vec_at
  rw [if_pos (Int.ofNat_zero_le _)]
  simp

/-- The table that `load` builds from a non-empty list of records. -/
theorem load_cons (r : RoadMap) (first : waypoint_t) (rest : List waypoint_t) :
    r.load (first :: rest) = Except.ok
      { r with waypoints :=
        ⟨(first :: rest).map (·.x) ++ [first.x], (first :: rest).map (·.y) ++ [first.y],
          (first :: rest).map (·.s) ++ [r.max_s], (first :: rest).map (·.dx) ++ [first.dx],
          (first :: rest).map (·.dy) ++ [first.dy]⟩ } := by
  simp only [load, foldl_push_back, List.nil_append, List.map_cons, vec_at, le_refl, if_true,
    Int.toNat_zero, List.get?_cons_zero, bind_ok, pure_eq_ok, waypoints_list.push_back]

/-- C11: for every non-empty ordered list of `n` waypoint records, `load` produces a table
of `n + 1` entries; entry `i < n` is record `i`, and entry `n` has the `x`, `y`, `dx`, `dy`
of the first record and `s = max_s`. -/
theorem load_table (r : RoadMap) (first : waypoint_t) (rest : List waypoint_t) :
    ∃ t, r.load (first :: rest) = Except.ok t ∧ t.max_s = r.max_s ∧
      t.waypoints.size = ((first :: rest).length : Int) + 1 ∧
      (∀ (i : Nat) (h : i < (first :: rest).length),
        t.waypoints.get (i : Int) = Except.ok ((first :: rest).get ⟨i, h⟩)) ∧
      t.waypoints.get ((first :: rest).length : Int)
        = Except.ok ⟨first.x, first.y, r.max_s, first.dx, first.dy⟩ := by
  refine ⟨_, load_cons r first rest, rfl, ?_, ?_, ?_⟩
  · simp [waypoints_list.size]
  · intro i h
    have hx := vec_at_append_left ((first :: rest).map (·.x)) [first.x] i (by simpa using h)
    have hy := vec_at_append_left ((first :: rest).map (·.y)) [first.y] i (by simpa using h)
    have hs := vec_at_append_left ((first :: rest).map (·.s)) [r.max_s] i (by simpa using h)
    have hdx := vec_at_append_left ((first :: rest).map (·.dx)) [first.dx] i (by simpa using h)
    have hdy := vec_at_append_left ((first :: rest).map (·.dy)) [first.dy] i (by simpa using h)
    simp only [waypoints_list.get, hx, hy, hs, hdx, hdy, bind_ok,
      pure_eq_ok, List.get_eq_getElem, List.getElem_map]
  · have hx := vec_at_append_length ((first :: rest).map (·.x)) first.x
    have hy := vec_at_append_length ((first :: rest).map (·.y)) first.y
    have hs := vec_at_append_length ((first :: rest).map (·.s)) r.max_s
    have hdx := vec_at_append_length ((first :: rest).map (·.dx)) first.dx
    have hdy := vec_at_append_length ((first :: rest).map (·.dy)) first.dy
    simp only [List.length_map] at hx hy hs hdx hdy
    simp only [waypoints_list.get, hx, hy, hs, hdx, hdy, bind_ok, pure_eq_ok]

/-- C12: on zero records `load` has no check and no error of its own: it reads
`waypoints.x[0]` of the empty vector, an out-of-range access, where the claim has it fail
with `MapLoadError`. -/
theorem load_empty (r : RoadMap) : r.load [] = Except.error Fault.out_of_range := by
  simp [load, vec_at]

end RoadMap

/-! ## Behaviour planning: the state machine -/

namespace PathPlanner

theorem vec_at_length_le {α : Type} (v : List α) (i : Int) (h : (v.length : Int) ≤ i) :
    vec_at v i = Except.error Fault.out_of_range := by
  unfold vec_at
  split_ifs with h0
  · have : v.length ≤ i.toNat := by omega
    rw [List.get?_eq_none.mpr this]
  · rfl

theorem lane_info_at_double_length_le (p : PathPlanner) (x : ℚ)
    (h : (p.lane_info.length : Int) ≤ trunc x) :
    p.lane_info_at_double x = Except.error Fault.out_of_range := by
  unfold lane_info_at_double
  split_ifs
  · exact vec_at_length_le _ _ h
  · rfl

/-- Once the `KEEPLANE` branch decides on a lane change it reads `lane_info[target_speed]`;
with at most `trunc road_speed_limit` entries in `lane_info` that access is out of range. -/
theorem plan_keeplane_speed_index (p : PathPlanner) (ego : ego_t) (best_lane : Int) (m : ℚ)
    (tl : lane_info_t) (htl : vec_at p.lane_info p.target_lane = Except.ok tl)
    (hgap : tl.front_gap < p.lane_change_front_buffer) (hsp : tl.front_speed < ego.v)
    (hm : m > 100) (hidx : (p.lane_info.length : Int) ≤ trunc p.road_speed_limit) :
    p.plan_keeplane ego best_lane m = Except.error Fault.out_of_range := by
  simp only [plan_keeplane, htl, bind_ok]
  rw [if_pos ⟨hgap, hsp, hm⟩]
  cases hb : vec_at p.lane_info best_lane with
  | error f =>
    unfold vec_at at hb
    split_ifs at hb
    · split at hb
      · simp at hb
      · simp only [Except.error.injEq] at hb
        subst hb
        rfl
    · simp only [Except.error.injEq] at hb
      subst hb
      rfl
  | ok bl =>
    simp only [bind_ok]
    have := lane_info_at_double_length_le
      { p with target_speed := p.road_speed_limit, changing_lane := -1 } p.road_speed_limit hidx
    rw [this]
    rfl

/-- C15: in state `KEEPLANE`, with the target lane's front gap below
`lane_change_front_buffer`, its front speed below `ego.v` and more than 100 m travelled,
`create_plan` compares the best lane's front speed with `lane_info[target_speed]`, the entry
at the truncated speed limit, not with the target lane's entry; when `lane_info` has at most
`trunc road_speed_limit` entries (3 against 22 in the source) that access is out of range and
no transition is made. -/
theorem keeplane_change_out_of_range (e : Extern) (fuel : Nat) (p : PathPlanner) (ego : ego_t)
    (best_lane : Int) (m : ℚ) (tl : lane_info_t) (hs : p.state_ = STATE.KEEPLANE)
    (hbest : get_best_lane e p = Except.ok best_lane)
    (hm : wrap_meters p.roadmap.max_s fuel (p.ref_s - p.state_s_) = Except.ok m)
    (htl : vec_at p.lane_info p.target_lane = Except.ok tl)
    (hgap : tl.front_gap < p.lane_change_front_buffer) (hsp : tl.front_speed < ego.v)
    (h100 : m > 100) (hidx : (p.lane_info.length : Int) ≤ trunc p.road_speed_limit) :
    create_plan e fuel p ego = Except.error Fault.out_of_range := by
  have hst : plan_start p = p := by
    unfold plan_start
    rw [if_neg (by rw [hs]; decide)]
  simp only [create_plan, hst, hbest, hm, bind_ok, plan_branch, hs,
    plan_keeplane_speed_index p ego best_lane m tl htl hgap hsp h100 hidx, bind_error]

/-- Witness of C15: `tailing`, 150 m into `KEEPLANE` behind a slower leader, lane 0 best. -/
theorem keeplane_change_out_of_range_witness :
    create_plan grid 1 tailing lone_ego = Except.error Fault.out_of_range :=
  keeplane_change_out_of_range grid 1 tailing lone_ego 0 150 slow_leader (by decide!)
    (by decide!) (by decide!) (by decide!) (by decide!) (by decide!) (by decide!) (by decide!)

/-- C16: in state `LANECHANGE`, when `ref_lane` equals `target_lane`, `|cte| ≤ 0.3` and more
than 50 m have been travelled, `create_plan` ends in state `KEEPLANE` with `changing_lane`
cleared, whatever `changing_lane` was: the call `set_state(PRELANECHANGE)` for a change
target different from `ref_lane` is followed at once by `set_state(KEEPLANE)`. -/
theorem lanechange_done_keeplane (e : Extern) (fuel : Nat) (p q : PathPlanner) (ego : ego_t)
    (m : ℚ) (hs : p.state_ = STATE.LANECHANGE)
    (hm : wrap_meters p.roadmap.max_s fuel (p.ref_s - p.state_s_) = Except.ok m)
    (hlane : p.ref_lane = p.target_lane)
    (hcte : |p.ref_d - p.lane.lane_center p.target_lane| ≤ 3 / 10) (h50 : m > 50)
    (h : create_plan e fuel p ego = Except.ok q) :
    q.state_ = STATE.KEEPLANE ∧ q.changing_lane = -1 := by
  have hst : plan_start p = p := by
    unfold plan_start
    rw [if_neg (by rw [hs]; decide)]
  unfold create_plan at h
  rw [hst] at h
  obtain ⟨best_lane, -, h⟩ := bind_eq_ok h
  rw [hm] at h
  simp only [bind_ok] at h
  obtain ⟨p2, hp2, h⟩ := bind_eq_ok h
  simp only [pure_eq_ok, Except.ok.injEq] at h
  subst h
  simp only [plan_branch, hs, plan_lanechange] at hp2
  rw [if_pos ⟨hlane, hcte, h50⟩] at hp2
  obtain ⟨tl, -, hp2⟩ := bind_eq_ok hp2
  split_ifs at hp2 <;>
    · simp only [pure_eq_ok, Except.ok.injEq] at hp2
      subst hp2
      simp [set_state_eq]

/-- Witness of C16: `arriving` has reached lane 1 on the way to lane 2 and ends in
`KEEPLANE`. -/
theorem lanechange_done_keeplane_witness :
    arriving.changing_lane ≥ 0 ∧ arriving.changing_lane ≠ arriving.ref_lane ∧
      arrived.state_ = STATE.KEEPLANE ∧ arrived.changing_lane = -1 :=
  ⟨by decide!, by decide!,
    lanechange_done_keeplane grid 1 arriving arrived lone_ego 60 (by decide!) (by decide!)
      (by decide!) (by decide!) (by decide!) (by decide!)⟩

/-- C17: `create_plan` in state `PRELANECHANGE` with `ref_lane = changing_lane = 0`, both
valid lane indices.  On three lanes (`stuck`) the working target lane is `-1` and
`create_plan` reads `lane_info[-1]`.  The state is one the planner reaches by itself: on 23
lanes (where the read `lane_info[target_speed]` of `KEEPLANE` is in range) with a leader in
every lane and the fastest in the ego lane 0, the first cycle finds lane 0 the best lane and
enters `PRELANECHANGE` with `changing_lane = ref_lane = 0`; in the second cycle the best
lane is still computed, the working target lane is `-1`, and `create_plan` reads
`lane_info[-1]`. -/
theorem prelanechange_same_lane :
    (stuck.state_ = STATE.PRELANECHANGE ∧ stuck.ref_lane = 0 ∧ stuck.changing_lane = 0 ∧
        stuck.lane.lane_count = 3 ∧ stuck.adjacent_lane = -1 ∧
        create_plan grid 1 stuck lone_ego = Except.error Fault.out_of_range) ∧
      (run_plan grid 1 broad jam_ego (1 / 50)).map
          (fun q => (q.state_, q.ref_lane, q.changing_lane, q.adjacent_lane)) =
        Except.ok (STATE.PRELANECHANGE, 0, 0, -1) ∧
      ((run_plan grid 1 broad jam_ego (1 / 50)) >>= fun q =>
          (run_sense grid q jam_ego (1 / 50)).map
            (fun q => (get_best_lane grid q, vec_at q.lane_info q.adjacent_lane))) =
        Except.ok (Except.ok 0, Except.error Fault.out_of_range) ∧
      ((run_plan grid 1 broad jam_ego (1 / 50)) >>= fun q =>
          run_plan grid 1 q jam_ego (1 / 50)) = Except.error Fault.out_of_range := by
  decide!

/-- The working target lane of the `PRELANECHANGE` branch when `ref_lane` and
`changing_lane` are valid lane indices and differ: it is a valid lane index next to
`ref_lane` on the side of `changing_lane`, and the `lane_info` lookup at it is in bounds
when `lane_info` has `lane_count` entries. -/
theorem adjacent_lane_valid (p : PathPlanner) (hr0 : 0 ≤ p.ref_lane)
    (hr1 : p.ref_lane < p.lane.lane_count) (hc0 : 0 ≤ p.changing_lane)
    (hc1 : p.changing_lane < p.lane.lane_count) (hne : p.changing_lane ≠ p.ref_lane)
    (hlen : (p.lane_info.length : Int) = p.lane.lane_count) :
    0 ≤ p.adjacent_lane ∧ p.adjacent_lane < p.lane.lane_count ∧
      (p.ref_lane < p.changing_lane →
        p.adjacent_lane = p.ref_lane + 1 ∧ p.adjacent_lane ≤ p.changing_lane) ∧
      (p.changing_lane < p.ref_lane →
        p.adjacent_lane = p.ref_lane - 1 ∧ p.changing_lane ≤ p.adjacent_lane) ∧
      ∃ l, vec_at p.lane_info p.adjacent_lane = Except.ok l := by
  have hadj : 0 ≤ p.adjacent_lane ∧ p.adjacent_lane < p.lane.lane_count ∧
      (p.ref_lane < p.changing_lane →
        p.adjacent_lane = p.ref_lane + 1 ∧ p.adjacent_lane ≤ p.changing_lane) ∧
      (p.changing_lane < p.ref_lane →
        p.adjacent_lane = p.ref_lane - 1 ∧ p.changing_lane ≤ p.adjacent_lane) := by
    unfold adjacent_lane
    split_ifs with h
    · refine ⟨by omega, by omega, fun _ => ⟨rfl, by omega⟩, fun h' => by omega⟩
    · refine ⟨by omega, by omega, fun h' => by omega, fun _ => ⟨by ring, by omega⟩⟩
  obtain ⟨a0, a1, a2, a3⟩ := hadj
  refine ⟨a0, a1, a2, a3, ?_⟩
  unfold vec_at
  rw [if_pos a0]
  have hlt : p.adjacent_lane.toNat < p.lane_info.length := by omega
  rw [List.get?_eq_get hlt]
  exact ⟨_, rfl⟩

/-- The working target lane of `preparing`, in lane 1 with change target 2. -/
theorem adjacent_lane_valid_witness :
    0 ≤ preparing.adjacent_lane ∧ preparing.adjacent_lane < preparing.lane.lane_count ∧
      (preparing.ref_lane < preparing.changing_lane →
        preparing.adjacent_lane = preparing.ref_lane + 1 ∧
          preparing.adjacent_lane ≤ preparing.changing_lane) ∧
      (preparing.changing_lane < preparing.ref_lane →
        preparing.adjacent_lane = preparing.ref_lane - 1 ∧
          preparing.changing_lane ≤ preparing.adjacent_lane) ∧
      ∃ l, vec_at preparing.lane_info preparing.adjacent_lane = Except.ok l :=
  adjacent_lane_valid preparing (by decide!) (by decide!) (by decide!) (by decide!)
    (by decide!) (by decide!)

/-- C18: when the target lane's front gap is not below `lane_change_front_buffer`,
`collision_avoidance` changes nothing, so `warning_collision` keeps the value of the
previous cycle: it stays true although the gap is not below `lane_emergy_front_buffer`. -/
theorem collision_avoidance_keeps_flag (p : PathPlanner) (tl : lane_info_t)
    (htl : vec_at p.lane_info p.target_lane = Except.ok tl)
    (hgap : ¬ tl.front_gap < p.lane_change_front_buffer) :
    p.collision_avoidance = Except.ok p := by
  simp only [collision_avoidance, htl, bind_ok, if_neg hgap]

/-- Witness of C18: `alarmed` has the warning set and a free target lane (gap 1000). -/
theorem collision_avoidance_keeps_flag_witness :
    alarmed.warning_collision = true ∧
      ¬ ({} : lane_info_t).front_gap < alarmed.lane_emergy_front_buffer ∧
      alarmed.collision_avoidance = Except.ok alarmed :=
  ⟨by decide!, by decide!, collision_avoidance_keeps_flag alarmed {} (by decide!) (by decide!)⟩

theorem vec_at_replicate {α : Type} (a : α) (n : Nat) (i : Int) (h0 : 0 ≤ i) (h1 : i < n) :
    vec_at (List.replicate n a) i = Except.ok a := by
  unfold vec_at
  rw [if_pos h0]
  have hlt : i.toNat < (List.replicate n a).length := by
    rw [List.length_replicate]
    omega
  rw [List.get?_eq_get hlt]
  simp

theorem track_lap_eq (p : PathPlanner) (ego : ego_t) :
    ∃ sp pz laps tick, track_lap p ego =
        { p with ego_start_position := sp, ego_passed_zero_s := pz, ego_laps := laps,
                 ego_laps_tick := tick } ∧
      (p.ego_laps_tick = 0 → sp = ⟨ego.s, ego.d⟩) := by
  unfold track_lap lap_count lap_passed_zero lap_start
  split_ifs <;> exact ⟨_, _, _, _, rfl, by simp_all⟩

theorem get_reference_eq {e : Extern} {p q : PathPlanner} {ego : ego_t} {dt : ℚ}
    (h : get_reference e p ego dt = Except.ok q) :
    ∃ rx ry rxp ryp rs rd ryaw rv rp, q =
        { p with ref_x := rx, ref_y := ry, ref_x_prev := rxp, ref_y_prev := ryp, ref_s := rs,
                 ref_d := rd, ref_yaw := ryaw, ref_v := rv, ref_lane := p.lane.lane_at rd,
                 ref_points := rp } ∧
      (to_int ego.previous_path.size < 2 → rs = ego.s ∧ rd = ego.d ∧ rv = ego.v) ∧
      (¬ to_int ego.previous_path.size < 2 → rs = ego.end_path.s ∧ rd = ego.end_path.d) := by
  unfold get_reference at h
  obtain ⟨p1, h1, h⟩ := bind_eq_ok h
  simp only [pure_eq_ok, Except.ok.injEq] at h
  subst h
  unfold reference_point at h1
  split_ifs at h1 with hc
  · simp only [Except.ok.injEq] at h1
    subst h1
    exact ⟨_, _, _, _, _, _, _, _, _, rfl, fun _ => ⟨rfl, rfl, rfl⟩, fun hn => absurd hc hn⟩
  · obtain ⟨rx, -, h1⟩ := bind_eq_ok h1
    obtain ⟨ry, -, h1⟩ := bind_eq_ok h1
    obtain ⟨rxp, -, h1⟩ := bind_eq_ok h1
    obtain ⟨ryp, -, h1⟩ := bind_eq_ok h1
    simp only [pure_eq_ok, Except.ok.injEq] at h1
    subst h1
    exact ⟨_, _, _, _, _, _, _, _, _, rfl, fun hn => absurd hn hc, fun _ => ⟨rfl, rfl⟩⟩

theorem sense_car_length {e : Extern} {p : PathPlanner} {n : Int} {dt : ℚ}
    {L L' : List lane_info_t} {car : car_t} (h : sense_car e p n dt L car = Except.ok L') :
    L'.length = L.length := by
  simp only [sense_car] at h
  split_ifs at h with hc
  · obtain ⟨laneinfo, -, h⟩ := bind_eq_ok h
    obtain ⟨-, rfl⟩ := vec_set_eq_ok h
    exact List.length_set _ _ _
  · have h' : Except.ok L = Except.ok L' := h
    simp only [Except.ok.injEq] at h'
    rw [h']

theorem sense_cars_length {e : Extern} {p : PathPlanner} {n : Int} {dt : ℚ}
    (cars : List car_t) :
    ∀ {L L' : List lane_info_t}, cars.foldlM (sense_car e p n dt) L = Except.ok L' →
      L'.length = L.length := by
  induction cars with
  | nil =>
    intro L L' h
    simp only [List.foldlM_nil, pure_eq_ok, Except.ok.injEq] at h
    rw [h]
  | cons car cars ih =>
    intro L L' h
    rw [List.foldlM_cons] at h
    obtain ⟨L1, h1, h⟩ := bind_eq_ok h
    rw [ih h, sense_car_length h1]

theorem process_sensor_fusion_eq {e : Extern} {p q : PathPlanner} {ego : ego_t} {dt : ℚ}
    (h : process_sensor_fusion e p ego dt = Except.ok q) :
    ∃ L, q = { p with lane_info := L } ∧ (L.length : Int) = p.lane.lane_count ∧
      (ego.cars = [] → L = List.replicate p.lane.lane_count.toNat {}) := by
  unfold process_sensor_fusion at h
  split_ifs at h with hc
  obtain ⟨L, hfold, h⟩ := bind_eq_ok h
  simp only [pure_eq_ok, Except.ok.injEq] at h
  subst h
  refine ⟨L, rfl, ?_, fun hcars => ?_⟩
  · rw [sense_cars_length ego.cars hfold, List.length_replicate]
    exact Int.toNat_of_nonneg (not_lt.mp hc)
  · rw [hcars] at hfold
    simp only [List.foldlM_nil, pure_eq_ok, Except.ok.injEq] at hfold
    exact hfold.symm

theorem wrap_meters_nonneg {max_s x m : ℚ} {fuel : Nat} (hx : 0 ≤ x)
    (h : wrap_meters max_s fuel x = Except.ok m) : m = x := by
  cases fuel with
  | zero => simp [wrap_meters] at h
  | succ f =>
    simp only [wrap_meters, if_neg (not_lt.mpr hx), Except.ok.injEq] at h
    exact h.symm

/-- What the `KEEPLANE` branch leaves: the target lane, and the state unless more than
100 m have been travelled and `lane_info` has an entry at the truncated speed limit. -/
theorem plan_keeplane_state {p q : PathPlanner} {ego : ego_t} {best_lane : Int} {m : ℚ}
    (h : p.plan_keeplane ego best_lane m = Except.ok q) :
    q.target_lane = p.target_lane ∧
      (q.state_ = p.state_ ∨
        (m > 100 ∧ trunc p.road_speed_limit < (p.lane_info.length : Int))) := by
  simp only [plan_keeplane] at h
  obtain ⟨tl, -, h⟩ := bind_eq_ok h
  split_ifs at h with hc
  · obtain ⟨bl, -, h⟩ := bind_eq_ok h
    obtain ⟨sl, hsl, h⟩ := bind_eq_ok h
    have hidx : trunc p.road_speed_limit < (p.lane_info.length : Int) := by
      by_contra hn
      have := lane_info_at_double_length_le
        { p with target_speed := p.road_speed_limit, changing_lane := -1 }
        p.road_speed_limit (not_lt.mp hn)
      rw [this] at hsl
      cases hsl
    split_ifs at h <;>
      · simp only [pure_eq_ok, Except.ok.injEq] at h
        subst h
        simp [hc.2.2, hidx]
  · simp only [pure_eq_ok, Except.ok.injEq] at h
    subst h
    simp

theorem create_plan_from_start {e : Extern} {fuel : Nat} {p q : PathPlanner} {ego : ego_t}
    (hs : p.state_ = STATE.START) (h : create_plan e fuel p ego = Except.ok q) :
    q.target_lane = p.ref_lane ∧
      (q.state_ = STATE.KEEPLANE ∨
        ∃ m, wrap_meters p.roadmap.max_s fuel (p.ref_s - p.ego_start_position.s) = Except.ok m ∧
          m > 100 ∧ trunc p.road_speed_limit < (p.lane_info.length : Int)) := by
  unfold create_plan at h
  simp only [plan_start, if_pos hs] at h
  obtain ⟨best_lane, -, h⟩ := bind_eq_ok h
  obtain ⟨m, hm, h⟩ := bind_eq_ok h
  obtain ⟨p2, hp2, h⟩ := bind_eq_ok h
  simp only [pure_eq_ok, Except.ok.injEq] at h
  subst h
  simp only [plan_branch] at hp2
  obtain ⟨h1, h2⟩ := plan_keeplane_state hp2
  refine ⟨h1, ?_⟩
  rcases h2 with h2 | ⟨h2, h3⟩
  · exact Or.inl h2
  · exact Or.inr ⟨m, hm, h2, h3⟩

/-- Counterexample to C13 as stated: on a first cycle with a previous path of two points
that ends in lane 0, for an ego in lane 1, `create_plan` ends with `target_lane = 0`. -/
theorem first_cycle_resumed_path :
    cruising.reset.state_ = STATE.START ∧
      (run_plan grid 1 cruising.reset resuming_ego (1 / 50)).map
        (fun q => (q.state_, q.target_lane)) = Except.ok (STATE.KEEPLANE, 0) ∧
      cruising.reset.lane.lane_at resuming_ego.d = 1 := by
  decide!

/-- C13, amended: on a first cycle (state `START`) that completes up to `create_plan`, the
target lane is the reference lane of `get_reference`: `lane_at ego.d` when the previous path
has fewer than two points, `lane_at end_path.d` otherwise.  The state is `KEEPLANE` when the
previous path has fewer than two points and the lap tick is 0, and also whenever
`lane_count ≤ trunc road_speed_limit` (3 against 22 in the source). -/
theorem first_cycle_plan (e : Extern) (fuel : Nat) (p q : PathPlanner) (ego : ego_t) (dt : ℚ)
    (hs : p.state_ = STATE.START) (h : run_plan e fuel p ego dt = Except.ok q) :
    (to_int ego.previous_path.size < 2 → q.target_lane = p.lane.lane_at ego.d) ∧
      (¬ to_int ego.previous_path.size < 2 → q.target_lane = p.lane.lane_at ego.end_path.d) ∧
      (to_int ego.previous_path.size < 2 → p.ego_laps_tick = 0 → q.state_ = STATE.KEEPLANE) ∧
      (p.lane.lane_count ≤ trunc p.road_speed_limit → q.state_ = STATE.KEEPLANE) := by
  unfold run_plan at h
  obtain ⟨p3, h3, h⟩ := bind_eq_ok h
  unfold run_sense at h3
  obtain ⟨p1, h1, h3⟩ := bind_eq_ok h3
  obtain ⟨rx, ry, rxp, ryp, rs, rd, ryaw, rv, rp, rfl, hshort, hlong⟩ := get_reference_eq h1
  obtain ⟨sp, pz, laps, tick, htl, hsp⟩ := track_lap_eq
    { p with ref_x := rx, ref_y := ry, ref_x_prev := rxp, ref_y_prev := ryp, ref_s := rs,
             ref_d := rd, ref_yaw := ryaw, ref_v := rv, ref_lane := p.lane.lane_at rd,
             ref_points := rp } ego
  rw [htl] at h3
  obtain ⟨L, rfl, hlen, -⟩ := process_sensor_fusion_eq h3
  obtain ⟨ht, hst⟩ := create_plan_from_start (by exact hs) h
  simp only at ht hst hlen hsp
  refine ⟨fun hc => ?_, fun hc => ?_, fun hc htick => ?_, fun hidx => ?_⟩
  · rw [ht, (hshort hc).2.1]
  · rw [ht, (hlong hc).2]
  · rcases hst with hst | ⟨m, hm, h100, -⟩
    · exact hst
    · rw [hsp htick, (hshort hc).1] at hm
      have := wrap_meters_nonneg (by simp) hm
      rw [this] at h100
      norm_num at h100
  · rcases hst with hst | ⟨m, -, -, hlt⟩
    · exact hst
    · exfalso
      simp only [road_speed_limit] at hlt hidx
      omega

/-- Witness of C13, amended: the first cycle of `cruising.reset` on `lone_ego`. -/
theorem first_cycle_plan_witness :
    (to_int lone_ego.previous_path.size < 2 →
        first_plan.target_lane = cruising.reset.lane.lane_at lone_ego.d) ∧
      (¬ to_int lone_ego.previous_path.size < 2 →
        first_plan.target_lane = cruising.reset.lane.lane_at lone_ego.end_path.d) ∧
      (to_int lone_ego.previous_path.size < 2 → cruising.reset.ego_laps_tick = 0 →
        first_plan.state_ = STATE.KEEPLANE) ∧
      (cruising.reset.lane.lane_count ≤ trunc cruising.reset.road_speed_limit →
        first_plan.state_ = STATE.KEEPLANE) :=
  first_cycle_plan grid 1 cruising.reset first_plan lone_ego (1 / 50) (by decide!) (by decide!)

/-- From `START`, on a clear reference lane 1 with the reference point at the start position,
`create_plan` keeps lane 1 at the speed limit. -/
theorem create_plan_clear_start (e : Extern) (f : Nat) (p : PathPlanner) (ego : ego_t)
    (hs : p.state_ = STATE.START) (href : p.ref_lane = 1)
    (hli : vec_at p.lane_info 1 = Except.ok {}) (hm : p.ref_s = p.ego_start_position.s)
    (hbuf : p.lane_change_front_buffer ≤ 1000) :
    ∃ q, create_plan e (f + 1) p ego = Except.ok q ∧ q.state_ = STATE.KEEPLANE ∧
      q.target_lane = 1 ∧ q.target_speed = max 0 (min p.road_speed_limit p.road_speed_limit) ∧
      q.lane_info = p.lane_info ∧ q.ref_v = p.ref_v ∧ q.accel = p.accel ∧
      q.lane_change_front_buffer = p.lane_change_front_buffer := by
  have hnb : ¬ (1000 : ℚ) < p.lane_change_front_buffer := not_lt.mpr hbuf
  simp only [create_plan, plan_start, if_pos hs, get_best_lane, href, hli, bind_ok,
    lane_info_t.is_clear, hm, sub_self, wrap_meters, lt_irrefl, if_false, plan_branch,
    plan_keeplane, pure_eq_ok]
  simp only [Bool.true_and, decide_eq_true_eq, show ((-1 : Int) < 0) by norm_num, if_true,
    pure_eq_ok, bind_ok, plan_branch, plan_keeplane, hli, hnb, false_and, if_false]
  exact ⟨_, rfl, rfl, rfl, rfl, rfl, rfl, rfl, rfl⟩

/-- C14: empty-road scenario.  For a freshly reset planner, no observations, an empty
previous path, ego `d` in lane 1 and `0 ≤ ego.v < road_speed_limit`, one cycle of
`get_reference`, `track_lap`, `process_sensor_fusion`, `create_plan`, `collision_avoidance`
and `speed_control` returns, with state `KEEPLANE`, `target_lane = 1` and
`target_speed = min road_speed_limit (ego.v + accel)` (for at least two lanes, a non-negative
`accel` and a front buffer of at most the initial gap 1000, as in the source). -/
theorem empty_road_cycle (e : Extern) (fuel : Nat) (p : PathPlanner) (ego : ego_t) (dt : ℚ)
    (hfuel : 1 ≤ fuel) (hcars : ego.cars = []) (hpath : ego.previous_path.x = [])
    (hlane : p.lane.lane_at ego.d = 1) (hcount : 2 ≤ p.lane.lane_count)
    (hv0 : 0 ≤ ego.v) (hv : ego.v < p.road_speed_limit) (ha : 0 ≤ p.accel)
    (hbuf : p.lane_change_front_buffer ≤ 1000) :
    ∃ q, run_speed e fuel p.reset ego dt = Except.ok q ∧ q.state_ = STATE.KEEPLANE ∧
      q.target_lane = 1 ∧ q.target_speed = min p.road_speed_limit (ego.v + p.accel) := by
  obtain ⟨f, rfl⟩ : ∃ f, fuel = f + 1 := ⟨fuel - 1, by omega⟩
  have hsize : to_int ego.previous_path.size < 2 := by
    simp [path_t.size, hpath, to_int]
  -- step 1a
  obtain ⟨p1, h1⟩ : ∃ p1, get_reference e p.reset ego dt = Except.ok p1 := by
    simp only [get_reference, reference_point, if_pos hsize, bind_ok, pure_eq_ok]
    exact ⟨_, rfl⟩
  obtain ⟨rx, ry, rxp, ryp, rs, rd, ryaw, rv, rp, hp1, hshort, -⟩ := get_reference_eq h1
  obtain ⟨hrs, hrd, hrv⟩ := hshort hsize
  -- step 1b
  obtain ⟨sp, pz, laps, tick, htl, hsp⟩ := track_lap_eq p1 ego
  have hsp' : sp = ⟨ego.s, ego.d⟩ := hsp (by rw [hp1]; rfl)
  -- step 2
  obtain ⟨p3, h3⟩ : ∃ p3, process_sensor_fusion e (track_lap p1 ego) ego dt = Except.ok p3 := by
    have hc : ¬ (track_lap p1 ego).lane.lane_count < 0 := by
      rw [htl, hp1]
      simp only [reset]
      omega
    simp only [process_sensor_fusion, if_neg hc, hcars, List.foldlM_nil, bind_ok, pure_eq_ok]
    exact ⟨_, rfl⟩
  obtain ⟨L, hp3, -, hL⟩ := process_sensor_fusion_eq h3
  have hL' := hL hcars
  rw [htl, hp1] at hp3 hL'
  simp only [reset] at hp3 hL'
  -- step 3
  obtain ⟨q1, hq1, hst, htg, hts, hli, hrv1, hac, hfb⟩ := create_plan_clear_start e f p3 ego
    (by rw [hp3]) (by rw [hp3]; simp only [hrd, hlane])
    (by
      rw [hp3]
      simp only [hL']
      exact vec_at_replicate _ _ 1 (by norm_num) (by omega))
    (by rw [hp3]; simp only [hrs, hsp'])
    (by rw [hp3]; exact hbuf)
  have hlim : p3.road_speed_limit = p.road_speed_limit := by rw [hp3]; rfl
  have hL0 : 0 ≤ p.road_speed_limit := by linarith
  rw [hlim, min_self, max_eq_right hL0] at hts
  -- step 4
  have hq2 : q1.collision_avoidance = Except.ok q1 := by
    have htl : vec_at q1.lane_info q1.target_lane = Except.ok {} := by
      rw [hli, htg, hp3]
      simp only [hL']
      exact vec_at_replicate _ _ 1 (by norm_num) (by omega)
    have hgap : ¬ ({} : lane_info_t).front_gap < q1.lane_change_front_buffer := by
      rw [hfb, hp3]
      exact not_lt.mpr hbuf
    simp only [collision_avoidance, htl, bind_ok, if_neg hgap]
  have hrv3 : q1.ref_v = ego.v := by rw [hrv1, hp3]; exact hrv
  have hac3 : q1.accel = p.accel := by rw [hac, hp3]
  refine ⟨q1.speed_control, ?_, ?_, ?_, ?_⟩
  · simp only [run_speed, run_sense, h1, bind_ok, h3, plan_cycle, hq1, hq2, pure_eq_ok]
  · simp only [speed_control]
    split_ifs <;> exact hst
  · simp only [speed_control]
    split_ifs <;> exact htg
  · have hn : ¬ p.road_speed_limit < ego.v := by linarith
    have hg : p.road_speed_limit > ego.v := hv
    have h0 : (0 : ℚ) ≤ min p.road_speed_limit (ego.v + p.accel) := le_min hL0 (by linarith)
    simp only [speed_control, hts, hrv3, hac3, if_neg hn, if_pos hg]
    exact max_eq_left h0

/-- Witness of C14: `cruising.reset` and `lone_ego` (lane 1, 20 m/s). -/
theorem empty_road_cycle_witness :
    ∃ q, run_speed grid 1 cruising.reset lone_ego (1 / 50) = Except.ok q ∧
      q.state_ = STATE.KEEPLANE ∧ q.target_lane = 1 ∧
      q.target_speed = min cruising.road_speed_limit (lone_ego.v + cruising.accel) :=
  empty_road_cycle grid 1 cruising lone_ego (1 / 50) (by decide!) (by decide!) (by decide!)
    (by decide!) (by decide!) (by decide!) (by decide!) (by decide!) (by decide!)

end PathPlanner

/-! ## Traffic model: nearest vehicles -/

namespace PathPlanner

theorem sense_car_lane {e : Extern} {p : PathPlanner} {n : Int} {dt : ℚ}
    {L L' : List lane_info_t} {car : car_t} (h : sense_car e p n dt L car = Except.ok L')
    (i : Nat) (l : lane_info_t) (hl : L.get? i = some l) :
    L'.get? i = some (lane_step e p n dt i l car) := by
  simp only [sense_car] at h
  unfold lane_step
  split_ifs at h with hc
  · obtain ⟨laneinfo, hli, h⟩ := bind_eq_ok h
    obtain ⟨h0, rfl⟩ := vec_set_eq_ok h
    obtain ⟨-, hlt, hget⟩ := vec_at_eq_ok hli
    by_cases hi : p.lane.lane_at car.d = (i : Int)
    · rw [if_pos hi]
      have hi' : (p.lane.lane_at car.d).toNat = i := by omega
      rw [hi'] at hget hlt ⊢
      rw [hl] at hget
      simp only [Option.some.injEq] at hget
      subst hget
      simp only [List.get?_eq_getElem?]
      rw [List.getElem?_set_self hlt]
    · rw [if_neg hi]
      have hne : (p.lane.lane_at car.d).toNat ≠ i := by omega
      simp only [List.get?_eq_getElem?] at hl ⊢
      rw [List.getElem?_set_ne hne]
      exact hl
  · have h' : Except.ok L = Except.ok L' := h
    simp only [Except.ok.injEq] at h'
    subst h'
    rw [if_neg (by omega)]
    exact hl

theorem sense_cars_lane {e : Extern} {p : PathPlanner} {n : Int} {dt : ℚ} (i : Nat)
    (cars : List car_t) :
    ∀ {L L' : List lane_info_t} (l : lane_info_t),
      cars.foldlM (sense_car e p n dt) L = Except.ok L' → L.get? i = some l →
      L'.get? i = some (cars.foldl (lane_step e p n dt i) l) := by
  induction cars with
  | nil =>
    intro L L' l h hl
    simp only [List.foldlM_nil, pure_eq_ok, Except.ok.injEq] at h
    subst h
    exact hl
  | cons car cars ih =>
    intro L L' l h hl
    rw [List.foldlM_cons] at h
    obtain ⟨L1, h1, h⟩ := bind_eq_ok h
    rw [List.foldl_cons]
    exact ih _ h (sense_car_lane h1 i l hl)

/-- The entry of lane `i` after `process_sensor_fusion` is the initial entry updated by the
cars of the lane, in the order of the list. -/
theorem process_sensor_fusion_lane {e : Extern} {p q : PathPlanner} {ego : ego_t} {dt : ℚ}
    (h : process_sensor_fusion e p ego dt = Except.ok q) (i : Nat) (l : lane_info_t)
    (hl : q.lane_info.get? i = some l) :
    l = ego.cars.foldl (lane_step e p (to_int ego.previous_path.size) dt i) {} := by
  unfold process_sensor_fusion at h
  split_ifs at h with hc
  obtain ⟨L, hfold, h⟩ := bind_eq_ok h
  simp only [pure_eq_ok, Except.ok.injEq] at h
  subst h
  simp only at hl
  have hlen := sense_cars_length ego.cars hfold
  have hi : i < (List.replicate p.lane.lane_count.toNat ({} : lane_info_t)).length := by
    rw [← hlen]
    by_contra hn
    rw [List.get?_eq_none.mpr (not_lt.mp hn)] at hl
    cases hl
  have h0 : (List.replicate p.lane.lane_count.toNat ({} : lane_info_t)).get? i = some {} := by
    rw [List.get?_eq_get hi]
    simp
  have := sense_cars_lane i ego.cars {} hfold h0
  rw [hl] at this
  simp only [Option.some.injEq] at this
  exact this

theorem front_nearest_step (e : Extern) (p : PathPlanner) (n : Int) (dt : ℚ) (i : Nat)
    (cs : List car_t) (l : lane_info_t) (car : car_t) (h : front_nearest e p i cs l) :
    front_nearest e p i (cs ++ [car]) (lane_step e p n dt i l car) := by
  obtain ⟨h1, h2, h3⟩ := h
  unfold lane_step
  by_cases hi : p.lane.lane_at car.d = (i : Int)
  · rw [if_pos hi]
    simp only [evaluate_feasible, record_car, decide_eq_true_eq]
    by_cases hf : car.s > p.ref_s
    · rw [if_pos hf]
      by_cases hg : car.s - p.ref_s < l.front_gap
      · rw [if_pos hg]
        refine ⟨by simp only; linarith, fun c hc hci hcf => ?_, fun _ => ?_⟩
        · simp only
          rcases List.mem_append.mp hc with hc | hc
          · linarith [h2 c hc hci hcf]
          · rw [List.mem_singleton.mp hc]
        · exact ⟨car, by simp, hi, hf, rfl, rfl, rfl⟩
      · rw [if_neg hg]
        refine ⟨h1, fun c hc hci hcf => ?_, fun hlt => ?_⟩
        · simp only
          rcases List.mem_append.mp hc with hc | hc
          · exact h2 c hc hci hcf
          · rw [List.mem_singleton.mp hc]
            exact not_lt.mp hg
        · obtain ⟨c, hc, r⟩ := h3 hlt
          exact ⟨c, List.mem_append_left _ hc, r⟩
    · rw [if_neg hf]
      split_ifs
      all_goals
        refine ⟨h1, fun c hc hci hcf => ?_, fun hlt => ?_⟩
        · simp only
          rcases List.mem_append.mp hc with hc | hc
          · exact h2 c hc hci hcf
          · rw [List.mem_singleton.mp hc] at hcf
            exact absurd hcf hf
        · obtain ⟨c, hc, r⟩ := h3 hlt
          exact ⟨c, List.mem_append_left _ hc, r⟩
  · rw [if_neg hi]
    refine ⟨h1, fun c hc hci hcf => ?_, fun hlt => ?_⟩
    · rcases List.mem_append.mp hc with hc | hc
      · exact h2 c hc hci hcf
      · rw [List.mem_singleton.mp hc] at hci
        exact absurd hci hi
    · obtain ⟨c, hc, r⟩ := h3 hlt
      exact ⟨c, List.mem_append_left _ hc, r⟩

theorem front_nearest_fold (e : Extern) (p : PathPlanner) (n : Int) (dt : ℚ) (i : Nat)
    (cars : List car_t) :
    ∀ (cs : List car_t) (l : lane_info_t), front_nearest e p i cs l →
      front_nearest e p i (cs ++ cars) (cars.foldl (lane_step e p n dt i) l) := by
  induction cars with
  | nil => intro cs l h; simpa using h
  | cons car cars ih =>
    intro cs l h
    have := ih (cs ++ [car]) _ (front_nearest_step e p n dt i cs l car h)
    simpa using this

theorem back_nearest_step (e : Extern) (p : PathPlanner) (n : Int) (dt : ℚ) (i : Nat)
    (cs : List car_t) (l : lane_info_t) (car : car_t) (h : back_nearest e p i cs l) :
    back_nearest e p i (cs ++ [car]) (lane_step e p n dt i l car) := by
  obtain ⟨h1, h2⟩ := h
  have keep : ((l.back_car = -1 ∧ l.back_gap = -1000 ∧ l.back_speed = -1000) ∨
      ∃ c ∈ cs ++ [car], p.lane.lane_at c.d = (i : Int) ∧ ¬ c.s > p.ref_s ∧
        -p.lane_horizon < c.s - p.ref_s ∧ l.back_gap = c.s - p.ref_s ∧
        l.back_car = c.id ∧ l.back_speed = norm e c.vx c.vy) := by
    rcases h1 with h1 | ⟨c, hc, r⟩
    · exact Or.inl h1
    · exact Or.inr ⟨c, List.mem_append_left _ hc, r⟩
  unfold lane_step
  by_cases hi : p.lane.lane_at car.d = (i : Int)
  · rw [if_pos hi]
    simp only [evaluate_feasible, record_car, decide_eq_true_eq]
    by_cases hf : car.s > p.ref_s
    · rw [if_pos hf]
      split_ifs
      all_goals
        refine ⟨keep, fun c hc hci hcf hch => ?_⟩
        simp only
        rcases List.mem_append.mp hc with hc | hc
        · exact h2 c hc hci hcf hch
        · rw [List.mem_singleton.mp hc] at hcf
          exact absurd hf hcf
    · rw [if_neg hf]
      by_cases hg : car.s - p.ref_s > max l.back_gap (-p.lane_horizon)
      · rw [if_pos hg]
        have hg1 : l.back_gap < car.s - p.ref_s := lt_of_le_of_lt (le_max_left _ _) hg
        have hg2 : -p.lane_horizon < car.s - p.ref_s := lt_of_le_of_lt (le_max_right _ _) hg
        refine ⟨Or.inr ⟨car, by simp, hi, hf, hg2, rfl, rfl, rfl⟩, fun c hc hci hcf hch => ?_⟩
        simp only
        rcases List.mem_append.mp hc with hc | hc
        · linarith [h2 c hc hci hcf hch]
        · rw [List.mem_singleton.mp hc]
      · rw [if_neg hg]
        refine ⟨keep, fun c hc hci hcf hch => ?_⟩
        simp only
        rcases List.mem_append.mp hc with hc | hc
        · exact h2 c hc hci hcf hch
        · rw [List.mem_singleton.mp hc] at hch ⊢
          rcases le_max_iff.mp (not_lt.mp hg) with hle | hle
          · exact hle
          · linarith
  · rw [if_neg hi]
    refine ⟨keep, fun c hc hci hcf hch => ?_⟩
    rcases List.mem_append.mp hc with hc | hc
    · exact h2 c hc hci hcf hch
    · rw [List.mem_singleton.mp hc] at hci
      exact absurd hci hi

theorem back_nearest_fold (e : Extern) (p : PathPlanner) (n : Int) (dt : ℚ) (i : Nat)
    (cars : List car_t) :
    ∀ (cs : List car_t) (l : lane_info_t), back_nearest e p i cs l →
      back_nearest e p i (cs ++ cars) (cars.foldl (lane_step e p n dt i) l) := by
  induction cars with
  | nil => intro cs l h; simpa using h
  | cons car cars ih =>
    intro cs l h
    have := ih (cs ++ [car]) _ (back_nearest_step e p n dt i cs l car h)
    simpa using this

/-- Counterexample to C19 as stated: a single car in lane 1, 1200 m ahead of the reference
point, leaves the lane's entry as it was: `front_gap` is the initial 1000, not 1200. -/
theorem front_beyond_initial_gap :
    process_sensor_fusion grid cruising far_ego (1 / 50) = Except.ok cruising ∧
      far_ego.cars = [⟨3, 1250, -6, 0, 0, 1250, 6⟩] ∧ cruising.lane.lane_at 6 = 1 ∧
      (1250 : ℚ) > cruising.ref_s ∧ (1250 : ℚ) - cruising.ref_s = 1200 ∧
      cruising.lane_info.get? 1 = some {} ∧ ({} : lane_info_t).front_gap = 1000 ∧
      ({} : lane_info_t).front_car = -1 := by
  decide!

/-- C19, amended: after `process_sensor_fusion`, the `front_gap` of every lane is at most
the gap `s - ref_s` of every observation of the lane with `s > ref_s`; and for every lane
that has such an observation with a gap below the initial 1000, `front_gap` is the gap of one
of them, hence the smallest, and `front_car` and `front_speed` are its id and speed. -/
theorem nearest_front_recorded (e : Extern) (p q : PathPlanner) (ego : ego_t) (dt : ℚ)
    (i : Nat) (l : lane_info_t) (h : process_sensor_fusion e p ego dt = Except.ok q)
    (hl : q.lane_info.get? i = some l) :
    (∀ car ∈ ego.cars, p.lane.lane_at car.d = (i : Int) → car.s > p.ref_s →
        l.front_gap ≤ car.s - p.ref_s) ∧
      ((∃ car ∈ ego.cars, p.lane.lane_at car.d = (i : Int) ∧ car.s > p.ref_s ∧
          car.s - p.ref_s < 1000) →
        ∃ car ∈ ego.cars, p.lane.lane_at car.d = (i : Int) ∧ car.s > p.ref_s ∧
          l.front_gap = car.s - p.ref_s ∧ l.front_car = car.id ∧
          l.front_speed = norm e car.vx car.vy) := by
  have hinit : front_nearest e p i [] {} :=
    ⟨le_rfl, fun c hc => absurd hc (List.not_mem_nil c), fun hlt => absurd hlt (lt_irrefl _)⟩
  have hfold := front_nearest_fold e p (to_int ego.previous_path.size) dt i ego.cars [] {} hinit
  rw [← process_sensor_fusion_lane h i l hl, List.nil_append] at hfold
  obtain ⟨-, h2, h3⟩ := hfold
  refine ⟨h2, ?_⟩
  rintro ⟨c, hc, hci, hcf, hclt⟩
  exact h3 (lt_of_le_of_lt (h2 c hc hci hcf) hclt)

/-- Witness of C19, amended: lane 1 of `sensed`, with a car 8 m ahead. -/
theorem nearest_front_recorded_witness :
    (∀ car ∈ traffic_ego.cars, cruising.lane.lane_at car.d = ((1 : Nat) : Int) →
        car.s > cruising.ref_s → ahead_entry.front_gap ≤ car.s - cruising.ref_s) ∧
      ((∃ car ∈ traffic_ego.cars, cruising.lane.lane_at car.d = ((1 : Nat) : Int) ∧
          car.s > cruising.ref_s ∧ car.s - cruising.ref_s < 1000) →
        ∃ car ∈ traffic_ego.cars, cruising.lane.lane_at car.d = ((1 : Nat) : Int) ∧
          car.s > cruising.ref_s ∧ ahead_entry.front_gap = car.s - cruising.ref_s ∧
          ahead_entry.front_car = car.id ∧ ahead_entry.front_speed = norm grid car.vx car.vy) :=
  nearest_front_recorded grid cruising sensed traffic_ego (1 / 50) 1 ahead_entry
    (by decide!) (by decide!)

/-- C20: after `process_sensor_fusion`, the back record of every lane is the initial one or
that of an observation of the lane with `s ≤ ref_s` and a gap above `-lane_horizon`, so an
observation at or beyond the horizon is never recorded; and when some back observation of the
lane lies within the horizon, `back_gap` is the largest gap among them, with the id and speed
of an observation attaining it (for a horizon of at most the initial 1000, as the source's
50). -/
theorem nearest_back_recorded (e : Extern) (p q : PathPlanner) (ego : ego_t) (dt : ℚ)
    (i : Nat) (l : lane_info_t) (h : process_sensor_fusion e p ego dt = Except.ok q)
    (hl : q.lane_info.get? i = some l) (hh : p.lane_horizon ≤ 1000) :
    ((l.back_car = -1 ∧ l.back_gap = -1000 ∧ l.back_speed = -1000) ∨
        ∃ car ∈ ego.cars, p.lane.lane_at car.d = (i : Int) ∧ car.s ≤ p.ref_s ∧
          -p.lane_horizon < car.s - p.ref_s ∧ l.back_gap = car.s - p.ref_s ∧
          l.back_car = car.id ∧ l.back_speed = norm e car.vx car.vy) ∧
      ((∃ car ∈ ego.cars, p.lane.lane_at car.d = (i : Int) ∧ car.s ≤ p.ref_s ∧
          -p.lane_horizon < car.s - p.ref_s) →
        (∀ car ∈ ego.cars, p.lane.lane_at car.d = (i : Int) → car.s ≤ p.ref_s →
          -p.lane_horizon < car.s - p.ref_s → car.s - p.ref_s ≤ l.back_gap) ∧
        ∃ car ∈ ego.cars, p.lane.lane_at car.d = (i : Int) ∧ car.s ≤ p.ref_s ∧
          -p.lane_horizon < car.s - p.ref_s ∧ l.back_gap = car.s - p.ref_s ∧
          l.back_car = car.id ∧ l.back_speed = norm e car.vx car.vy) := by
  have hinit : back_nearest e p i [] {} :=
    ⟨Or.inl ⟨rfl, rfl, rfl⟩, fun c hc => absurd hc (List.not_mem_nil c)⟩
  have hfold := back_nearest_fold e p (to_int ego.previous_path.size) dt i ego.cars [] {} hinit
  rw [← process_sensor_fusion_lane h i l hl, List.nil_append] at hfold
  obtain ⟨h1, h2⟩ := hfold
  have h1' : (l.back_car = -1 ∧ l.back_gap = -1000 ∧ l.back_speed = -1000) ∨
      ∃ car ∈ ego.cars, p.lane.lane_at car.d = (i : Int) ∧ car.s ≤ p.ref_s ∧
        -p.lane_horizon < car.s - p.ref_s ∧ l.back_gap = car.s - p.ref_s ∧
        l.back_car = car.id ∧ l.back_speed = norm e car.vx car.vy := by
    rcases h1 with h1 | ⟨c, hc, hci, hcf, r⟩
    · exact Or.inl h1
    · exact Or.inr ⟨c, hc, hci, not_lt.mp hcf, r⟩
  refine ⟨h1', ?_⟩
  rintro ⟨c, hc, hci, hcf, hch⟩
  refine ⟨fun c' hc' hci' hcf' hch' => h2 c' hc' hci' (not_lt.mpr hcf') hch', ?_⟩
  rcases h1' with ⟨-, hb, -⟩ | hrec
  · exfalso
    have := h2 c hc hci (not_lt.mpr hcf) hch
    rw [hb] at this
    linarith
  · exact hrec

/-- Witness of C20: lane 0 of `sensed`, with a car 30 m behind. -/
theorem nearest_back_recorded_witness :
    ((behind_entry.back_car = -1 ∧ behind_entry.back_gap = -1000 ∧
          behind_entry.back_speed = -1000) ∨
        ∃ car ∈ traffic_ego.cars, cruising.lane.lane_at car.d = ((0 : Nat) : Int) ∧
          car.s ≤ cruising.ref_s ∧ -cruising.lane_horizon < car.s - cruising.ref_s ∧
          behind_entry.back_gap = car.s - cruising.ref_s ∧ behind_entry.back_car = car.id ∧
          behind_entry.back_speed = norm grid car.vx car.vy) ∧
      ((∃ car ∈ traffic_ego.cars, cruising.lane.lane_at car.d = ((0 : Nat) : Int) ∧
          car.s ≤ cruising.ref_s ∧ -cruising.lane_horizon < car.s - cruising.ref_s) →
        (∀ car ∈ traffic_ego.cars, cruising.lane.lane_at car.d = ((0 : Nat) : Int) →
          car.s ≤ cruising.ref_s → -cruising.lane_horizon < car.s - cruising.ref_s →
          car.s - cruising.ref_s ≤ behind_entry.back_gap) ∧
        ∃ car ∈ traffic_ego.cars, cruising.lane.lane_at car.d = ((0 : Nat) : Int) ∧
          car.s ≤ cruising.ref_s ∧ -cruising.lane_horizon < car.s - cruising.ref_s ∧
          behind_entry.back_gap = car.s - cruising.ref_s ∧ behind_entry.back_car = car.id ∧
          behind_entry.back_speed = norm grid car.vx car.vy) :=
  nearest_back_recorded grid cruising sensed traffic_ego (1 / 50) 0 behind_entry
    (by decide!) (by decide!) (by decide!)

end PathPlanner

/-! ## Road map: the segment scan and the index arithmetic -/

namespace RoadMap

theorem vec_at_of_lt {α : Type} (v : List α) (i : Int) (h0 : 0 ≤ i) (h1 : i < v.length) :
    ∃ a, vec_at v i = Except.ok a := by
  have hi : i.toNat < v.length := by omega
  refine ⟨v.get ⟨i.toNat, hi⟩, ?_⟩
  unfold vec_at
  rw [if_pos h0, List.get?_eq_get hi]

theorem vec_at_out {α : Type} (v : List α) (i : Int) (h : i < 0 ∨ (v.length : Int) ≤ i) :
    vec_at v i = Except.error Fault.out_of_range := by
  unfold vec_at
  split_ifs with h0
  · have hi : v.length ≤ i.toNat := by omega
    rw [List.get?_eq_none.mpr hi]
  · rfl

theorem get_of_lt (w : waypoints_list) (hw : w.well_formed) (i : Int) (h0 : 0 ≤ i)
    (h1 : i < w.size) : ∃ wp, w.get i = Except.ok wp := by
  obtain ⟨hy, hs, hdx, hdy⟩ := hw
  unfold waypoints_list.size at h1
  obtain ⟨x, hx⟩ := vec_at_of_lt w.x i h0 h1
  obtain ⟨y, hy⟩ := vec_at_of_lt w.y i h0 (by omega)
  obtain ⟨s, hs⟩ := vec_at_of_lt w.s i h0 (by omega)
  obtain ⟨dx, hdx⟩ := vec_at_of_lt w.dx i h0 (by omega)
  obtain ⟨dy, hdy⟩ := vec_at_of_lt w.dy i h0 (by omega)
  exact ⟨⟨x, y, s, dx, dy⟩, by
    simp only [waypoints_list.get, hx, hy, hs, hdx, hdy, bind_ok, pure_eq_ok]⟩

theorem get_out (w : waypoints_list) (i : Int) (h : i < 0 ∨ w.size ≤ i) :
    w.get i = Except.error Fault.out_of_range := by
  unfold waypoints_list.get
  rw [vec_at_out w.x i h]
  rfl

theorem size_last (w : waypoints_list) (hsize : w.size < 2 ^ 31) :
    to_int (to_size_t (w.size - 1)) = w.size - 1 := by
  have : 0 ≤ w.size := by unfold waypoints_list.size; omega
  unfold to_int to_size_t
  omega

/-- At or below the first `s` of the table the scan stops at once, at `prev_wp = -1`. -/
theorem scan_at_first (w : waypoints_list) (s : ℚ) (fuel : Nat) (w0 : waypoint_t)
    (h0 : w.get 0 = Except.ok w0) (hs : s ≤ w0.s) :
    scan w s (fuel + 1) (-1) = Except.ok (-1) := by
  have h0' : w.get (-1 + 1) = Except.ok w0 := h0
  have hc : ¬ (s > w0.s ∧ (-1 : Int) < to_int (to_size_t (w.size - 1))) :=
    fun h => absurd h.1 (not_lt.mpr hs)
  simp only [scan, h0', bind_ok, if_neg hc, pure_eq_ok]

/-- Above every `s` of the table the scan runs through the whole table and then reads
`waypoints[size]`. -/
theorem scan_beyond_fault (w : waypoints_list) (s : ℚ) (hw : w.well_formed)
    (hsize : w.size < 2 ^ 31) (hs : ∀ v ∈ w.s, v < s) :
    ∀ (m : Nat) (prev_wp : Int) (fuel : Nat), -1 ≤ prev_wp → w.size - (prev_wp + 1) ≤ m →
      m < fuel → scan w s fuel prev_wp = Except.error Fault.out_of_range := by
  intro m
  induction m with
  | zero =>
    intro prev_wp fuel _ hm hfuel
    obtain ⟨f, rfl⟩ : ∃ f, fuel = f + 1 := ⟨fuel - 1, by omega⟩
    have hout := get_out w (prev_wp + 1) (Or.inr (by omega))
    simp only [scan, hout, bind_error]
  | succ m ih =>
    intro prev_wp fuel hp hm hfuel
    obtain ⟨f, rfl⟩ : ∃ f, fuel = f + 1 := ⟨fuel - 1, by omega⟩
    by_cases hin : prev_wp + 1 < w.size
    · obtain ⟨wp, hg⟩ := get_of_lt w hw (prev_wp + 1) (by omega) hin
      obtain ⟨-, -, hget⟩ := get_eq_ok hg
      have hcond : s > wp.s ∧ prev_wp < to_int (to_size_t (w.size - 1)) :=
        ⟨hs _ (List.get?_mem hget), by rw [size_last w hsize]; omega⟩
      simp only [scan, hg, bind_ok, if_pos hcond]
      exact ih (prev_wp + 1) f (by omega) (by omega) (by omega)
    · have hout := get_out w (prev_wp + 1) (Or.inr (by omega))
      simp only [scan, hout, bind_error]

/-- When some entry after `prev_wp` has an `s` of at least `s`, the scan stops before it,
within the table. -/
theorem scan_inside (w : waypoints_list) (s : ℚ) (hw : w.well_formed)
    (hsize : w.size < 2 ^ 31) :
    ∀ (m : Nat) (prev_wp : Int) (fuel : Nat), -1 ≤ prev_wp →
      (∃ j wp, prev_wp < j ∧ j - prev_wp ≤ m ∧ w.get j = Except.ok wp ∧ s ≤ wp.s) →
      m ≤ fuel →
      ∃ k wk, scan w s fuel prev_wp = Except.ok k ∧ prev_wp ≤ k ∧ k - prev_wp < m ∧
        w.get (k + 1) = Except.ok wk ∧ s ≤ wk.s := by
  intro m
  induction m with
  | zero =>
    rintro prev_wp fuel _ ⟨j, wp, hj, hm, -, -⟩ _
    omega
  | succ m ih =>
    rintro prev_wp fuel hp ⟨j, wp, hj, hm, hgj, hsj⟩ hfuel
    obtain ⟨f, rfl⟩ : ∃ f, fuel = f + 1 := ⟨fuel - 1, by omega⟩
    obtain ⟨-, hjlt, -⟩ := get_eq_ok hgj
    obtain ⟨w1, hg⟩ := get_of_lt w hw (prev_wp + 1) (by omega) (by omega)
    by_cases hle : s ≤ w1.s
    · have hc : ¬ (s > w1.s ∧ prev_wp < to_int (to_size_t (w.size - 1))) :=
        fun h => absurd h.1 (not_lt.mpr hle)
      refine ⟨prev_wp, w1, ?_, le_refl _, by omega, hg, hle⟩
      simp only [scan, hg, bind_ok, if_neg hc, pure_eq_ok]
    · have hne : prev_wp + 1 ≠ j := by
        intro heq
        rw [heq, hgj] at hg
        simp only [Except.ok.injEq] at hg
        subst hg
        exact hle hsj
      have hcond : s > w1.s ∧ prev_wp < to_int (to_size_t (w.size - 1)) :=
        ⟨not_le.mp hle, by rw [size_last w hsize]; omega⟩
      obtain ⟨k, wk, hk, hpk, hkm, hgk, hsk⟩ :=
        ih (prev_wp + 1) f (by omega) ⟨j, wp, by omega, by omega, hgj, hsj⟩ (by omega)
      refine ⟨k, wk, ?_, by omega, by omega, hgk, hsk⟩
      simp only [scan, hg, bind_ok, if_pos hcond]
      exact hk



theorem load_shape {r t : RoadMap} {first : waypoint_t} {rest : List waypoint_t}
    (h : r.load (first :: rest) = Except.ok t) :
    t.waypoints.well_formed ∧ t.waypoints.size = (rest.length : Int) + 2 ∧
      t.waypoints.get 0 = Except.ok first ∧
      ∃ last, t.waypoints.get ((rest.length : Int) + 1) = Except.ok last ∧
        last.s = r.max_s := by
  rw [load_cons] at h
  simp only [Except.ok.injEq] at h
  subst h
  refine ⟨?_, ?_, ?_, ?_⟩
  · simp only [waypoints_list.well_formed, List.length_append, List.length_map,
      List.length_singleton, and_self]
  · simp only [waypoints_list.size, List.length_append, List.length_map, List.length_cons,
      List.length_nil]
    push_cast
    ring
  · simp only [waypoints_list.get, vec_at, le_refl, if_true, Int.toNat_zero, List.map_cons,
      List.cons_append, List.get?_cons_zero, bind_ok, pure_eq_ok]
  · have hx := vec_at_append_length ((first :: rest).map (·.x)) first.x
    have hy := vec_at_append_length ((first :: rest).map (·.y)) first.y
    have hs := vec_at_append_length ((first :: rest).map (·.s)) r.max_s
    have hdx := vec_at_append_length ((first :: rest).map (·.dx)) first.dx
    have hdy := vec_at_append_length ((first :: rest).map (·.dy)) first.dy
    simp only [List.length_map, List.length_cons, Nat.cast_add, Nat.cast_one] at hx hy hs hdx hdy
    exact ⟨⟨first.x, first.y, r.max_s, first.dx, first.dy⟩, by
      simp only [waypoints_list.get, hx, hy, hs, hdx, hdy, bind_ok, pure_eq_ok], rfl⟩

theorem vec_at_error {α : Type} {v : List α} {i : Int} {f : Fault}
    (h : vec_at v i = Except.error f) : f = Fault.out_of_range := by
  unfold vec_at at h
  split_ifs at h
  · split at h
    · cases h
    · cases h
      rfl
  · cases h
    rfl

theorem bind_eq_error {α β : Type} {x : Except Fault α} {f : α → Except Fault β} {g : Fault}
    (h : x >>= f = Except.error g) :
    x = Except.error g ∨ ∃ a, x = Except.ok a ∧ f a = Except.error g := by
  cases x with
  | error e =>
    rw [bind_error] at h
    cases h
    exact Or.inl rfl
  | ok a => exact Or.inr ⟨a, rfl, h⟩

theorem get_error {w : waypoints_list} {i : Int} {f : Fault}
    (h : w.get i = Except.error f) : f = Fault.out_of_range := by
  unfold waypoints_list.get at h
  rcases bind_eq_error h with h | ⟨x, -, h⟩
  · exact vec_at_error h
  rcases bind_eq_error h with h | ⟨y, -, h⟩
  · exact vec_at_error h
  rcases bind_eq_error h with h | ⟨s, -, h⟩
  · exact vec_at_error h
  rcases bind_eq_error h with h | ⟨dx, -, h⟩
  · exact vec_at_error h
  rcases bind_eq_error h with h | ⟨dy, -, h⟩
  · exact vec_at_error h
  cases h

/-- What `to_xy` computes once the scan has returned `k`. -/
theorem to_xy_of_scan {e : Extern} {fuel : Nat} {r : RoadMap} {s d : ℚ} {k : Int}
    (h : scan r.waypoints s fuel (-1) = Except.ok k) :
    r.to_xy e fuel s d =
      (r.waypoints.get (to_int (to_size_t (k + 1) % to_size_t r.waypoints.size))).bind
        (fun a => (r.waypoints.get k).bind (fun b => Except.ok (xy_on_segment e a b s d))) := by
  unfold to_xy
  rw [h]
  rfl

/-- C22: the segment scan of `to_xy` on a table loaded from `n = rest.length + 1` records.
At or below the first `s` it stops at once with `prev_wp = -1`, and `to_xy` then reads
`waypoints[-1]`.  Above the first `s` and up to `max_s` it stops within `n + 1` steps at a
`prev_wp` in `[0, n)`, and `to_xy` returns a point.  Above every `s` of the table it runs
through the `n + 1` entries and reads `waypoints[n + 1]`. -/
theorem to_xy_scan (e : Extern) (r t : RoadMap) (first : waypoint_t) (rest : List waypoint_t)
    (s d : ℚ) (hload : r.load (first :: rest) = Except.ok t)
    (hsize : (rest.length : Int) + 2 < 2 ^ 31) :
    (s ≤ first.s → ∀ fuel : Nat,
        scan t.waypoints s (fuel + 1) (-1) = Except.ok (-1) ∧
        t.to_xy e (fuel + 1) s d = Except.error Fault.out_of_range) ∧
      (first.s < s → s ≤ r.max_s → ∃ k xy,
        scan t.waypoints s (rest.length + 2) (-1) = Except.ok k ∧ 0 ≤ k ∧
        k ≤ (rest.length : Int) ∧ t.to_xy e (rest.length + 2) s d = Except.ok xy) ∧
      ((∀ v ∈ t.waypoints.s, v < s) → ∀ fuel : Nat, rest.length + 2 < fuel →
        scan t.waypoints s fuel (-1) = Except.error Fault.out_of_range) := by
  obtain ⟨hw, hsz, hfirst, last, hlast, hmax⟩ := load_shape hload
  have hsize' : t.waypoints.size < 2 ^ 31 := by rw [hsz]; exact hsize
  refine ⟨fun hs fuel => ?_, fun hlo hhi => ?_, fun hs fuel hfuel => ?_⟩
  · have hscan := scan_at_first t.waypoints s fuel first hfirst hs
    refine ⟨hscan, ?_⟩
    have hout : t.waypoints.get (-1) = Except.error Fault.out_of_range :=
      get_out t.waypoints (-1) (Or.inl (by omega))
    rw [to_xy_of_scan hscan, hout]
    cases hg : t.waypoints.get (to_int (to_size_t (-1 + 1) % to_size_t t.waypoints.size)) with
    | error f => rw [get_error hg]; rfl
    | ok a => rfl
  · obtain ⟨k, wk, hscan, hk1, hk2, hgk, hsk⟩ :=
      scan_inside t.waypoints s hw hsize' (rest.length + 2) (-1) (rest.length + 2) (le_refl _)
        ⟨(rest.length : Int) + 1, last, by omega, by push_cast; omega, hlast,
          by rw [hmax]; exact hhi⟩
        (le_refl _)
    have hk0 : 0 ≤ k := by
      by_contra hneg
      have hk : k = -1 := by omega
      rw [hk] at hgk
      have : t.waypoints.get 0 = Except.ok wk := hgk
      rw [hfirst] at this
      simp only [Except.ok.injEq] at this
      subst this
      exact absurd hsk (not_le.mpr hlo)
    have hklt : k ≤ (rest.length : Int) := by push_cast at hk2; omega
    have hwp2 : to_int (to_size_t (k + 1) % to_size_t t.waypoints.size) = k + 1 := by
      have e1 : to_size_t (k + 1) = k + 1 := by
        unfold to_size_t; exact Int.emod_eq_of_lt (by omega) (by omega)
      have e2 : to_size_t t.waypoints.size = t.waypoints.size := by
        unfold to_size_t; exact Int.emod_eq_of_lt (by omega) (by omega)
      rw [e1, e2, Int.emod_eq_of_lt (by omega) (by omega)]
      unfold to_int
      omega
    obtain ⟨b, hb⟩ := get_of_lt t.waypoints hw k hk0 (by omega)
    refine ⟨k, xy_on_segment e wk b s d, hscan, hk0, hklt, ?_⟩
    rw [to_xy_of_scan hscan, hwp2, hgk, hb]
    rfl
  · exact scan_beyond_fault t.waypoints s hw hsize' hs (rest.length + 2) (-1) fuel (le_refl _)
      (by rw [hsz]; push_cast; omega) hfuel

/-- Witness of C22 on the table loaded from `east_records`: `s = 0` is the first `s`, `s = 500`
lies inside the table and `s = 7000` is above `max_s`. -/
theorem to_xy_scan_witness :
    RoadMap.load {} east_records = Except.ok east_road ∧
      east_road.to_xy grid 1 0 0 = Except.error Fault.out_of_range ∧
      (∃ k xy, scan east_road.waypoints 500 2 (-1) = Except.ok k ∧ 0 ≤ k ∧ k ≤ 1 ∧
        east_road.to_xy grid 2 500 0 = Except.ok xy) ∧
      scan east_road.waypoints 7000 4 (-1) = Except.error Fault.out_of_range :=
  ⟨by decide!,
    ((to_xy_scan grid {} east_road ⟨0, 0, 0, 0, -1⟩ [⟨1000, 0, 1000, 0, -1⟩] 0 0
      (by decide!) (by decide!)).1 (by decide!) 0).2,
    (to_xy_scan grid {} east_road ⟨0, 0, 0, 0, -1⟩ [⟨1000, 0, 1000, 0, -1⟩] 500 0
      (by decide!) (by decide!)).2.1 (by decide!) (by decide!),
    (to_xy_scan grid {} east_road ⟨0, 0, 0, 0, -1⟩ [⟨1000, 0, 1000, 0, -1⟩] 7000 0
      (by decide!) (by decide!)).2.2 (by decide!) 4 (by decide!)⟩

/-- The expression `(next - 1) % size` of `to_frenet` for `next > 0`. -/
theorem prev_index_pos (n next : Int) (h0 : 0 < next) (h1 : next < n) (hn : n < 2 ^ 31) :
    to_int (to_size_t (next - 1) % to_size_t n) = next - 1 := by
  have h2 : to_size_t (next - 1) = next - 1 := by
    unfold to_size_t; exact Int.emod_eq_of_lt (by omega) (by omega)
  have h3 : to_size_t n = n := by
    unfold to_size_t; exact Int.emod_eq_of_lt (by omega) (by omega)
  rw [h2, h3, Int.emod_eq_of_lt (by omega) (by omega)]
  unfold to_int
  omega

/-- The expression `(next - 1) % size` of `to_frenet` for `next = 0`: the `int` value `-1`
is converted to `size_t` before the remainder is taken. -/
theorem prev_index_zero (n : Int) (h1 : 1 ≤ n) (hn : n < 2 ^ 31) :
    to_int (to_size_t ((0 : Int) - 1) % to_size_t n) = (2 ^ 64 - 1) % n := by
  have h2 : to_size_t ((0 : Int) - 1) = 2 ^ 64 - 1 := by
    unfold to_size_t; decide
  have h3 : to_size_t n = n := by
    unfold to_size_t; exact Int.emod_eq_of_lt (by omega) (by omega)
  rw [h2, h3]
  have := Int.emod_nonneg (2 ^ 64 - 1) (show n ≠ 0 by omega)
  have := Int.emod_lt_of_pos (2 ^ 64 - 1) (show 0 < n by omega)
  unfold to_int
  omega

/-- The remainder of `2 ^ 64 - 1` by `n` is `n - 1` exactly when `n` divides `2 ^ 64`. -/
theorem prev_index_wraps_iff (n : Int) (h1 : 1 ≤ n) :
    (2 ^ 64 - 1) % n = n - 1 ↔ n ∣ 2 ^ 64 := by
  constructor
  · intro h
    have := Int.emod_add_ediv (2 ^ 64 - 1) n
    rw [h] at this
    exact ⟨(2 ^ 64 - 1) / n + 1, by linarith⟩
  · rintro ⟨k, hk⟩
    have : (2 ^ 64 - 1 : Int) = (n - 1) + n * (k - 1) := by linarith
    rw [this, Int.add_mul_emod_self_left]
    exact Int.emod_eq_of_lt (by omega) (by omega)

/-- C25: the previous index of `to_frenet` on a table of `size` entries, `1 ≤ size < 2 ^ 31`,
for a next index in `[0, size)`.  It is `next - 1` when `next > 0`; when `next = 0` it is
`(2 ^ 64 - 1) % size`, which is the cyclic predecessor `size - 1` only if `size` divides
`2 ^ 64`. -/
theorem to_frenet_prev_index (e : Extern) (r : RoadMap) (x y theta : ℚ) (next : Int)
    (h1 : 1 ≤ r.waypoints.size) (hn : r.waypoints.size < 2 ^ 31)
    (h0 : 0 ≤ next) (hlt : next < r.waypoints.size)
    (hnext : next_waypoint e r x y theta = Except.ok next) :
    to_frenet e r x y theta =
      (r.waypoints.get next).bind (fun next_waypoint =>
        (r.waypoints.get (if next = 0 then (2 ^ 64 - 1) % r.waypoints.size else next - 1)).bind
          (fun prev_waypoint => Except.ok (frenet_on_segment e prev_waypoint next_waypoint x y)))
      ∧ ((2 ^ 64 - 1) % r.waypoints.size = r.waypoints.size - 1 ↔
          r.waypoints.size ∣ 2 ^ 64) := by
  refine ⟨?_, prev_index_wraps_iff _ h1⟩
  have hprev : to_int (to_size_t (next - 1) % to_size_t r.waypoints.size) =
      if next = 0 then (2 ^ 64 - 1) % r.waypoints.size else next - 1 := by
    split_ifs with hz
    · rw [hz]; exact prev_index_zero _ h1 hn
    · exact prev_index_pos _ _ (by omega) hlt hn
  simp only [to_frenet, hnext, bind_ok, hprev]
  rfl

/-- Witness of C25 on `east_road`, three entries: at `(-5, 0)` heading east the next
waypoint is 0 and the previous index is `(2 ^ 64 - 1) % 3 = 0`, not 2. -/
theorem to_frenet_prev_index_witness :
    next_waypoint grid east_road (-5) 0 0 = Except.ok 0 ∧
    east_road.waypoints.size = 3 ∧ (2 ^ 64 - 1 : Int) % 3 = 0 ∧
    (to_frenet grid east_road (-5) 0 0 =
      (east_road.waypoints.get 0).bind (fun next_waypoint =>
        (east_road.waypoints.get
            (if (0 : Int) = 0 then (2 ^ 64 - 1) % east_road.waypoints.size else 0 - 1)).bind
          (fun prev_waypoint =>
            Except.ok (frenet_on_segment grid prev_waypoint next_waypoint (-5) 0)))
      ∧ ((2 ^ 64 - 1) % east_road.waypoints.size = east_road.waypoints.size - 1 ↔
          east_road.waypoints.size ∣ 2 ^ 64)) :=
  ⟨by decide!, by decide!, by decide!,
    to_frenet_prev_index grid east_road (-5) 0 0 0 (by decide!) (by decide!) (by decide!)
      (by decide!) (by decide!)⟩

end RoadMap

/-! ## Lane ranking -/

namespace PathPlanner

/-- The comparison of `get_best_lane` ranks every lane before itself. -/
theorem lane_before_self (p : PathPlanner) (i : Int) : p.lane_before i i = true := by
  unfold lane_before
  simp only []
  split_ifs with h1
  · simp
  · cases hv : p.lane_velocity ((p.lane_info.get? i.toNat).getD {}) with
    | none => simp
    | some v => simp

/-- C24: the comparison that `get_best_lane` passes to `sort` is not a strict weak ordering.
It is reflexive on every table, and on the table `queued`, sensed from three leaders at
0, 0.4 and 0.8 m/s, it is not transitive: lane 0 ranks before lane 1 and lane 1 before lane 2
by the front gap, the speeds being within 0.5, but lane 0 does not rank before lane 2. -/
theorem lane_before_not_strict_weak :
    (∀ (p : PathPlanner) (i : Int), p.lane_before i i = true) ∧
      process_sensor_fusion grid cruising queue_ego (1 / 50) = Except.ok queued ∧
      queued.lane_before 0 1 = true ∧ queued.lane_before 1 2 = true ∧
      queued.lane_before 0 2 = false :=
  ⟨lane_before_self, by decide!, by decide!, by decide!, by decide!⟩

end PathPlanner

/-! ## Traffic model: predicted gaps -/

namespace PathPlanner

theorem gaps_open_step (e : Extern) (p : PathPlanner) (n : Int) (dt : ℚ) (i : Nat)
    (hsqrt : ∀ x, 0 ≤ e.sqrt x) (hn : 0 ≤ n) (hdt : 0 ≤ dt) (l : lane_info_t) (car : car_t)
    (h : gaps_open l) : gaps_open (lane_step e p n dt i l car) := by
  have hmove : 0 ≤ norm e car.vx car.vy * (n : ℚ) * dt :=
    mul_nonneg (mul_nonneg (hsqrt _) (by exact_mod_cast hn)) hdt
  obtain ⟨hf, hb⟩ := h
  unfold lane_step
  split_ifs
  · unfold evaluate_feasible record_car gaps_open
    simp only []
    split_ifs
    · exact ⟨by simp only []; linarith, hb⟩
    · exact ⟨hf, hb⟩
    · exact ⟨hf, by simp only []; linarith⟩
    · exact ⟨hf, hb⟩
  · exact ⟨hf, hb⟩

theorem gaps_open_fold (e : Extern) (p : PathPlanner) (n : Int) (dt : ℚ) (i : Nat)
    (hsqrt : ∀ x, 0 ≤ e.sqrt x) (hn : 0 ≤ n) (hdt : 0 ≤ dt) (cs : List car_t) :
    ∀ l, gaps_open l → gaps_open (cs.foldl (lane_step e p n dt i) l) := by
  induction cs with
  | nil => intro l h; exact h
  | cons c cs ih =>
    intro l h
    exact ih _ (gaps_open_step e p n dt i hsqrt hn hdt l c h)

/-- C26: after `process_sensor_fusion` with `dt ≥ 0`, every lane entry has
`front_gap_next ≥ front_gap` and `back_gap_next ≥ back_gap`, so the two front conditions of
the feasibility test hold exactly when `front_gap` is above the front buffer.  The speed of
a car is a `sqrt`, which is not negative, and the size of the previous path fits an `int`. -/
theorem predicted_gaps_open (e : Extern) (p q : PathPlanner) (ego : ego_t) (dt : ℚ)
    (hsqrt : ∀ x, 0 ≤ e.sqrt x) (hsize : ego.previous_path.size < 2 ^ 31) (hdt : 0 ≤ dt)
    (h : process_sensor_fusion e p ego dt = Except.ok q) :
    ∀ l ∈ q.lane_info, l.front_gap_next ≥ l.front_gap ∧ l.back_gap_next ≥ l.back_gap ∧
      ((l.front_gap > q.lane_change_front_buffer ∧
          l.front_gap_next > q.lane_change_front_buffer) ↔
        l.front_gap > q.lane_change_front_buffer) := by
  intro l hl
  obtain ⟨i, hi⟩ := List.get?_of_mem hl
  have hn : 0 ≤ to_int ego.previous_path.size := by
    have : 0 ≤ ego.previous_path.size := by unfold path_t.size; omega
    unfold to_int
    omega
  have hfold := process_sensor_fusion_lane h i l hi
  have hopen : gaps_open l := by
    rw [hfold]
    exact gaps_open_fold e p _ dt i hsqrt hn hdt ego.cars {} ⟨le_refl _, le_refl _⟩
  obtain ⟨hf, hb⟩ := hopen
  refine ⟨hf, hb, ⟨fun hh => hh.1, fun hh => ⟨hh, lt_of_lt_of_le hh hf⟩⟩⟩

/-- Witness of C26: a leader at 10 m/s seen with a previous path of two points. -/
theorem predicted_gaps_open_witness :
    process_sensor_fusion grid cruising convoy_ego (1 / 50) = Except.ok convoyed ∧
      ∀ l ∈ convoyed.lane_info,
        l.front_gap_next ≥ l.front_gap ∧ l.back_gap_next ≥ l.back_gap ∧
        ((l.front_gap > convoyed.lane_change_front_buffer ∧
            l.front_gap_next > convoyed.lane_change_front_buffer) ↔
          l.front_gap > convoyed.lane_change_front_buffer) :=
  ⟨by decide!,
    predicted_gaps_open grid cruising convoyed convoy_ego (1 / 50)
      (fun _ => div_nonneg (Nat.cast_nonneg _) (Nat.cast_nonneg _)) (by decide!) (by decide!)
      (by decide!)⟩

end PathPlanner

/-! ## Lane ranking: the lane returned -/

namespace PathPlanner

/-- Inserting into a list without adjacent inversions leaves no adjacent inversion, for every
comparison. -/
theorem orderedInsert_chain (lt : Int → Int → Bool) (a : Int) :
    ∀ l : List Int, l.Chain' (fun a b => lt a b = true ∨ lt b a = false) →
      (l.orderedInsert (fun a b => lt a b = true) a).Chain'
        (fun a b => lt a b = true ∨ lt b a = false) := by
  intro l
  induction l with
  | nil => intro _; simp
  | cons b l ih =>
    intro h
    rw [List.orderedInsert]
    split_ifs with hab
    · exact List.Chain'.cons (Or.inl hab) h
    · have hba : lt b a = true ∨ lt a b = false := Or.inr (by simpa using hab)
      refine List.Chain'.cons' (ih h.tail) ?_
      intro y hy
      cases l with
      | nil =>
        simp only [List.orderedInsert, List.head?_cons, Option.mem_def, Option.some.injEq] at hy
        rw [← hy]
        exact hba
      | cons c l =>
        rw [List.orderedInsert] at hy
        split_ifs at hy
        · simp only [List.head?_cons, Option.mem_def, Option.some.injEq] at hy
          rw [← hy]
          exact hba
        · simp only [List.head?_cons, Option.mem_def, Option.some.injEq] at hy
          rw [← hy]
          exact (List.chain'_cons.mp h).1

theorem insertionSort_chain (lt : Int → Int → Bool) :
    ∀ l : List Int, (l.insertionSort (fun a b => lt a b = true)).Chain'
      (fun a b => lt a b = true ∨ lt b a = false) := by
  intro l
  induction l with
  | nil => simp
  | cons a l ih => exact orderedInsert_chain lt a _ ih

/-- The insertion sort of `grid` is a sort in the sense of `sorts`. -/
theorem grid_sorts : sorts grid := fun lt l =>
  ⟨List.perm_insertionSort _ l, insertionSort_chain lt l⟩

/-- A lane that is not clear is not ranked before a clear one, and a clear lane is ranked
before every lane that is not: without an inversion, a clear lane is preceded by a clear
lane. -/
theorem lane_before_clear (p : PathPlanner) (a b : Int)
    (h : p.lane_before a b = true ∨ p.lane_before b a = false)
    (hb : (p.lane_entry b).is_clear = true) : (p.lane_entry a).is_clear = true := by
  by_contra ha
  unfold lane_entry at ha hb
  have h1 : p.lane_before a b = false := by
    unfold lane_before
    simp only [ha, hb, if_true]
    rfl
  have h2 : p.lane_before b a = true := by
    unfold lane_before
    simp only [ha, hb, if_true]
    rfl
  rw [h1, h2] at h
  simp at h

theorem chain_head_clear (p : PathPlanner) :
    ∀ (l : List Int) (a : Int),
      (a :: l).Chain' (fun a b => p.lane_before a b = true ∨ p.lane_before b a = false) →
      ∀ y ∈ a :: l, (p.lane_entry y).is_clear = true → (p.lane_entry a).is_clear = true := by
  intro l
  induction l with
  | nil =>
    intro a _ y hy hc
    simp only [List.mem_singleton] at hy
    rw [← hy]
    exact hc
  | cons b l ih =>
    intro a h y hy hc
    obtain ⟨hab, hrest⟩ := List.chain'_cons.mp h
    rcases List.mem_cons.mp hy with hya | hyb
    · rw [← hya]
      exact hc
    · exact lane_before_clear p a b hab (ih b hrest y hyb hc)

theorem vec_at_lane_entry (p : PathPlanner) (i : Int) (h0 : 0 ≤ i)
    (h1 : i < p.lane_info.length) : vec_at p.lane_info i = Except.ok (p.lane_entry i) := by
  have hi : i.toNat < p.lane_info.length := by omega
  unfold vec_at lane_entry
  rw [if_pos h0, List.get?_eq_get hi]
  rfl

/-- C21: for a table of `lane_count` entries and a target lane in `[0, lane_count)`,
`get_best_lane` returns a lane index in `[0, lane_count)`; it is the target lane when that
lane is clear; and when some lane is clear, the lane returned is clear.  The `sort` of the
library is assumed to rearrange the range and to leave no adjacent inversion (`sorts`). -/
theorem get_best_lane_clear (e : Extern) (p : PathPlanner) (hsort : sorts e)
    (hlen : (p.lane_info.length : Int) = p.lane.lane_count)
    (ht0 : 0 ≤ p.target_lane) (ht1 : p.target_lane < p.lane.lane_count) :
    ∃ best lb, get_best_lane e p = Except.ok best ∧ 0 ≤ best ∧ best < p.lane.lane_count ∧
      vec_at p.lane_info best = Except.ok lb ∧
      (∀ tl, vec_at p.lane_info p.target_lane = Except.ok tl → tl.is_clear = true →
        best = p.target_lane) ∧
      ((∃ l ∈ p.lane_info, l.is_clear = true) → lb.is_clear = true) := by
  have htl := vec_at_lane_entry p p.target_lane ht0 (by omega)
  by_cases hclear : (p.lane_entry p.target_lane).is_clear = true
  · refine ⟨p.target_lane, _, ?_, ht0, ht1, htl, fun _ _ _ => rfl, fun _ => hclear⟩
    simp only [get_best_lane, htl, bind_ok, hclear, if_true, pure_eq_ok]
  · obtain ⟨hperm, hchain⟩ := hsort p.lane_before
      ((List.range p.lane.lane_count.toNat).map Int.ofNat)
    have hmem : ∀ i : Int, i ∈ (List.range p.lane.lane_count.toNat).map Int.ofNat ↔
        0 ≤ i ∧ i < p.lane.lane_count := by
      intro i
      simp only [List.mem_map, List.mem_range]
      constructor
      · rintro ⟨k, hk, rfl⟩
        refine ⟨Int.ofNat_zero_le k, ?_⟩
        show (k : Int) < p.lane.lane_count
        omega
      · rintro ⟨h0, h1⟩
        exact ⟨i.toNat, by omega, Int.toNat_of_nonneg h0⟩
    cases hs : e.sort p.lane_before ((List.range p.lane.lane_count.toNat).map Int.ofNat) with
    | nil =>
      rw [hs] at hperm
      have := (hperm.mem_iff (a := p.target_lane)).mpr ((hmem _).mpr ⟨ht0, ht1⟩)
      simp at this
    | cons b rest =>
      rw [hs] at hperm hchain
      have hb := (hmem b).mp (hperm.mem_iff.mp (List.mem_cons_self b rest))
      have hguard :
          ¬ (2 ≤ p.lane.lane_count ∧ (p.lane_info.length : Int) < p.lane.lane_count) :=
        fun h => by omega
      refine ⟨b, _, ?_, hb.1, hb.2, vec_at_lane_entry p b hb.1 (by omega), ?_, ?_⟩
      · simp only [get_best_lane, htl, bind_ok, hclear, if_neg hguard, hs]
        rfl
      · intro tl htl2 hc
        rw [htl] at htl2
        simp only [Except.ok.injEq] at htl2
        rw [← htl2] at hc
        exact absurd hc hclear
      · rintro ⟨l, hl, hc⟩
        obtain ⟨k, hk⟩ := List.get?_of_mem hl
        have hklt : k < p.lane_info.length := by
          by_contra hn
          rw [List.get?_eq_none.mpr (not_lt.mp hn)] at hk
          cases hk
        have hentry : p.lane_entry (k : Int) = l := by
          unfold lane_entry
          rw [Int.toNat_ofNat, hk]
          rfl
        have hkmem : (k : Int) ∈ b :: rest :=
          hperm.mem_iff.mpr ((hmem _).mpr ⟨Int.ofNat_zero_le k, by omega⟩)
        exact chain_head_clear p rest b hchain k hkmem (by rw [hentry]; exact hc)

/-- Witness of C21 on `sensed`: the target lane 1 has a leader, lanes 0 and 2 are clear. -/
theorem get_best_lane_clear_witness :
    ∃ best lb, get_best_lane grid sensed = Except.ok best ∧ 0 ≤ best ∧
      best < sensed.lane.lane_count ∧ vec_at sensed.lane_info best = Except.ok lb ∧
      (∀ tl, vec_at sensed.lane_info sensed.target_lane = Except.ok tl → tl.is_clear = true →
        best = sensed.target_lane) ∧
      ((∃ l ∈ sensed.lane_info, l.is_clear = true) → lb.is_clear = true) :=
  get_best_lane_clear grid sensed grid_sorts (by decide!) (by decide!) (by decide!)

end PathPlanner

/-! ## Trajectory synthesis: the reference frame -/

namespace PathPlanner

/-- The five anchors of `create_trajectory` before the change of coordinates. -/
theorem anchors_eq {e : Extern} {fuel : Nat} {p : PathPlanner} {d : ℚ} {a : path_t}
    (h : anchors e fuel p d = Except.ok a) :
    ∃ w1 w2 w3 : xy_t,
      p.roadmap.to_xy e fuel (p.ref_s + 30 * 1) d = Except.ok w1 ∧
      p.roadmap.to_xy e fuel (p.ref_s + 30 * 2) d = Except.ok w2 ∧
      p.roadmap.to_xy e fuel (p.ref_s + 30 * 3) d = Except.ok w3 ∧
      a = ⟨[p.ref_x_prev, p.ref_x, w1.x, w2.x, w3.x],
        [p.ref_y_prev, p.ref_y, w1.y, w2.y, w3.y]⟩ := by
  simp only [anchors] at h
  obtain ⟨w1, h1, h⟩ := bind_eq_ok h
  obtain ⟨w2, h2, h⟩ := bind_eq_ok h
  obtain ⟨w3, h3, h⟩ := bind_eq_ok h
  simp only [pure_eq_ok, Except.ok.injEq] at h
  subst h
  exact ⟨w1, w2, w3, h1, h2, h3, rfl⟩

/-- An ego that heads west on the eastward road, without a previous path.  The road anchors
lie behind the reference point along the heading, and the local x-coordinates of the five
anchors are -1, 0, -30, -60, -90. -/
theorem anchors_against_heading :
    get_reference grid cruising reversed_ego (1 / 50) = Except.ok reversed ∧
      anchors grid 10 reversed (reversed.lane.safe_lane_center reversed.target_lane) =
        Except.ok ⟨[51, 50, 80, 110, 140], [-6, -6, -6, -6, -6]⟩ ∧
      to_reference grid reversed [51, 50, 80, 110, 140] [-6, -6, -6, -6, -6] =
        Except.ok ⟨[-1, 0, -30, -60, -90], [0, 0, 0, 0, 0]⟩ := by
  decide!

/-- The anchors that `create_trajectory` fits its curve to are those of `local_anchors`. -/
theorem create_trajectory_anchors (e : Extern) (fuel : Nat) (p : PathPlanner) (ego : ego_t)
    (dt : ℚ) :
    create_trajectory e fuel p ego p.target_lane p.target_speed dt =
      (local_anchors e fuel p >>= fun a =>
        sample_loop e p (e.spline a.x a.y)
          (30 / norm e 30 (e.spline a.x a.y 30) * dt) p.target_speed fuel 1
          ⟨ego.previous_path.x, ego.previous_path.y⟩) := by
  simp only [create_trajectory, local_anchors, bind_assoc]

/-- When the previous reference point is the reference point, both have local x = 0, for
every library. -/
theorem local_anchors_coincide (e : Extern) (fuel : Nat) (p : PathPlanner) (b : path_t)
    (hx : p.ref_x_prev = p.ref_x) (hy : p.ref_y_prev = p.ref_y)
    (h : local_anchors e fuel p = Except.ok b) : ∃ rest, b.x = 0 :: 0 :: rest := by
  unfold local_anchors at h
  obtain ⟨a, ha, h⟩ := bind_eq_ok h
  obtain ⟨w1, w2, w3, -, -, -, rfl⟩ := anchors_eq ha
  simp only [to_reference, bind_ok, pure_eq_ok, Except.ok.injEq, hx, hy, sub_self, zero_mul,
    sub_zero] at h
  subst h
  exact ⟨_, rfl⟩

/-- C23: an ego at rest 3 m behind a stationary car, over two cycles of `run`.  The first
cycle ends with target speed 0 and writes a path of 25 points that all lie on the reference
point `(50, -6)`.  In the second cycle that path is the previous path: `get_reference` takes
its last two points, which coincide, the reference heading is `atan2 0 0 = 0`, and the
anchors that `create_trajectory` fits its curve to have the local x-coordinates
0, 0, 30, 60, 90: the previous reference point has local x = 0, not below 0, and the
sequence is not strictly increasing. -/
theorem anchors_behind_stopped_leader :
    (run grid 60 cruising halted_ego (1 / 50)).map (fun r => (r.1.target_speed, r.2)) =
        Except.ok (0, halted_path) ∧
      ((run grid 60 cruising halted_ego (1 / 50)) >>= fun r =>
          (run_speed grid 60 r.1 halted_again (1 / 50)).map
            (fun q => (q.ref_x_prev, q.ref_x, q.ref_yaw, q.target_speed))) =
        Except.ok (50, 50, 0, 0) ∧
      ((run grid 60 cruising halted_ego (1 / 50)) >>= fun r =>
          (run_speed grid 60 r.1 halted_again (1 / 50)) >>= fun q =>
          local_anchors grid 60 q) =
        Except.ok ⟨[0, 0, 30, 60, 90], [0, 0, 0, 0, 0]⟩ := by
  decide!

/-- Without a previous path `get_reference` puts the previous reference point one unit
behind the reference point along the heading. -/
theorem get_reference_fresh {e : Extern} {p q : PathPlanner} {ego : ego_t} {dt : ℚ}
    (h : get_reference e p ego dt = Except.ok q) (hsize : to_int ego.previous_path.size < 2) :
    q.ref_x - q.ref_x_prev = 1 * e.cos q.ref_yaw ∧
      q.ref_y - q.ref_y_prev = 1 * e.sin q.ref_yaw := by
  unfold get_reference at h
  obtain ⟨p1, h1, h⟩ := bind_eq_ok h
  simp only [pure_eq_ok, Except.ok.injEq] at h
  subst h
  unfold reference_point at h1
  rw [if_pos hsize] at h1
  simp only [Except.ok.injEq] at h1
  subst h1
  simp only []
  constructor <;> ring

/-- The change of coordinates of five anchors, for `cos` even and `sin` odd at the reference
heading: the local coordinates of a point are its distances ahead and aside. -/
theorem to_reference_five (e : Extern) (p : PathPlanner) (x0 x1 x2 x3 x4 y0 y1 y2 y3 y4 : ℚ)
    (hcos : e.cos (-p.ref_yaw) = e.cos p.ref_yaw)
    (hsin : e.sin (-p.ref_yaw) = -e.sin p.ref_yaw) :
    to_reference e p [x0, x1, x2, x3, x4] [y0, y1, y2, y3, y4] = Except.ok
      ⟨[ahead e p x0 y0, ahead e p x1 y1, ahead e p x2 y2, ahead e p x3 y3, ahead e p x4 y4],
        [aside e p x0 y0, aside e p x1 y1, aside e p x2 y2, aside e p x3 y3,
          aside e p x4 y4]⟩ := by
  simp only [to_reference, bind_ok, pure_eq_ok, hcos, hsin, ahead, aside]
  refine congrArg Except.ok ?_
  congr 1
  · simp only [List.cons.injEq, and_true]
    refine ⟨?_, ?_, ?_, ?_, ?_⟩ <;> ring
  · simp only [List.cons.injEq, and_true]
    refine ⟨?_, ?_, ?_, ?_, ?_⟩ <;> ring

/-- The anchors in the reference frame.  Let `cos` be even and `sin` odd at the reference
heading, with `cos² + sin² = 1`, and let the previous reference point lie `L > 0` behind the
reference point along the heading (`L = 1` without a previous path).  Then the previous
reference point is at `(-L, 0)`, the reference point at `(0, 0)` and each road anchor at its
distances ahead and aside; the local x-coordinates are strictly increasing exactly when the
road anchors lie at increasing positive distances ahead. -/
theorem anchors_frame (e : Extern) (fuel : Nat) (p : PathPlanner) (target_d L : ℚ) (a : path_t)
    (ha : anchors e fuel p target_d = Except.ok a)
    (hcos : e.cos (-p.ref_yaw) = e.cos p.ref_yaw)
    (hsin : e.sin (-p.ref_yaw) = -e.sin p.ref_yaw)
    (hunit : e.cos p.ref_yaw * e.cos p.ref_yaw + e.sin p.ref_yaw * e.sin p.ref_yaw = 1)
    (hx : p.ref_x - p.ref_x_prev = L * e.cos p.ref_yaw)
    (hy : p.ref_y - p.ref_y_prev = L * e.sin p.ref_yaw) (hL : 0 < L) :
    ∃ (w1 w2 w3 : xy_t) (b : path_t),
      p.roadmap.to_xy e fuel (p.ref_s + 30 * 1) target_d = Except.ok w1 ∧
      p.roadmap.to_xy e fuel (p.ref_s + 30 * 2) target_d = Except.ok w2 ∧
      p.roadmap.to_xy e fuel (p.ref_s + 30 * 3) target_d = Except.ok w3 ∧
      to_reference e p a.x a.y = Except.ok b ∧
      b.x = [-L, 0, ahead e p w1.x w1.y, ahead e p w2.x w2.y, ahead e p w3.x w3.y] ∧
      b.y = [0, 0, aside e p w1.x w1.y, aside e p w2.x w2.y, aside e p w3.x w3.y] ∧
      (b.x.Chain' (· < ·) ↔
        0 < ahead e p w1.x w1.y ∧ ahead e p w1.x w1.y < ahead e p w2.x w2.y ∧
          ahead e p w2.x w2.y < ahead e p w3.x w3.y) := by
  obtain ⟨w1, w2, w3, h1, h2, h3, rfl⟩ := anchors_eq ha
  have hprev_x : ahead e p p.ref_x_prev p.ref_y_prev = -L := by
    unfold ahead
    linear_combination (-(e.cos p.ref_yaw)) * hx - (e.sin p.ref_yaw) * hy - L * hunit
  have hprev_y : aside e p p.ref_x_prev p.ref_y_prev = 0 := by
    unfold aside
    linear_combination (e.sin p.ref_yaw) * hx - (e.cos p.ref_yaw) * hy
  have hx0 : ahead e p p.ref_x p.ref_y = 0 := by unfold ahead; ring
  have hy0 : aside e p p.ref_x p.ref_y = 0 := by unfold aside; ring
  refine ⟨w1, w2, w3, _, h1, h2, h3, to_reference_five e p _ _ _ _ _ _ _ _ _ _ hcos hsin, ?_, ?_,
    ?_⟩
  · simp only [hprev_x, hx0]
  · simp only [hprev_y, hy0]
  · simp only [hprev_x, hx0, List.chain'_cons, List.chain'_singleton, and_true]
    constructor
    · rintro ⟨-, h01, h12, h23⟩
      exact ⟨h01, h12, h23⟩
    · rintro ⟨h01, h12, h23⟩
      exact ⟨by linarith, h01, h12, h23⟩

/-- The anchors of `speeding`, the state after `get_reference` on `fast_ego`, heading east on
`east_road` without a previous path. -/
theorem anchors_frame_witness :
    get_reference grid cruising fast_ego (1 / 50) = Except.ok speeding ∧
      ∃ (w1 w2 w3 : xy_t) (b : path_t),
        speeding.roadmap.to_xy grid 10 (speeding.ref_s + 30 * 1) 6 = Except.ok w1 ∧
        speeding.roadmap.to_xy grid 10 (speeding.ref_s + 30 * 2) 6 = Except.ok w2 ∧
        speeding.roadmap.to_xy grid 10 (speeding.ref_s + 30 * 3) 6 = Except.ok w3 ∧
        to_reference grid speeding [49, 50, 80, 110, 140] [-6, -6, -6, -6, -6] = Except.ok b ∧
        b.x = [-1, 0, ahead grid speeding w1.x w1.y, ahead grid speeding w2.x w2.y,
          ahead grid speeding w3.x w3.y] ∧
        b.y = [0, 0, aside grid speeding w1.x w1.y, aside grid speeding w2.x w2.y,
          aside grid speeding w3.x w3.y] ∧
        (b.x.Chain' (· < ·) ↔
          0 < ahead grid speeding w1.x w1.y ∧
            ahead grid speeding w1.x w1.y < ahead grid speeding w2.x w2.y ∧
            ahead grid speeding w2.x w2.y < ahead grid speeding w3.x w3.y) :=
  ⟨by decide!,
    anchors_frame grid 10 speeding 6 1 ⟨[49, 50, 80, 110, 140], [-6, -6, -6, -6, -6]⟩
      (by decide!) (by decide!) (by decide!) (by decide!) (by decide!) (by decide!)
      (by decide!)⟩

end PathPlanner

end carnd
